import Mathlib

/-!
# Disease-Detectives: the globe animation controller of `EarthWithStates.jsx`

A shallow embedding of the camera / rotation controller of
`frontend/src/components/Earth3D/EarthWithStates.jsx`.

JavaScript numbers are idealised as real numbers (`ℝ`): the properties below
are stated for exact arithmetic, `Math.exp`, `Math.PI`, `Math.sqrt` and
`Math.pow` are the real functions.  Because `ℝ` has no executable
representation the numeric definitions live in a `noncomputable section`;
concrete instances are evaluated by rewriting (`simp`, `norm_num`).
-/

noncomputable section

namespace EarthWithStates

/-! ## Numeric helpers -/

/-- The integer part of the quotient as JavaScript's `%` uses it: truncation
towards zero. -/
def truncQuot (x : ℝ) : ℤ := if 0 ≤ x then ⌊x⌋ else ⌈x⌉

/-- JavaScript's remainder `a % b` on reals: `a - b * trunc (a / b)`, which
carries the sign of the dividend.  (For `b = 0` JavaScript yields `NaN`; the
source only ever divides by `2 * Math.PI`.) -/
def jsMod (a b : ℝ) : ℝ := a - b * (truncQuot (a / b) : ℝ)

/-- The source's `expSmooth`:
`current + (target - current) * (1 - Math.exp(-speed * dt))`. -/
def expSmooth (current target speed dt : ℝ) : ℝ :=
  current + (target - current) * (1 - Real.exp (-speed * dt))

/-- The source's `shortAngleDist`:
`((to - from) % (2 * Math.PI) + 3 * Math.PI) % (2 * Math.PI) - Math.PI`. -/
def shortAngleDist (frm tgt : ℝ) : ℝ :=
  jsMod (jsMod (tgt - frm) (2 * Real.pi) + 3 * Real.pi) (2 * Real.pi) - Real.pi

/-- Applying `expSmooth` towards the same target `n` times with the same `dt`. -/
def expSmoothIter (target speed dt : ℝ) : ℕ → ℝ → ℝ
  | 0, current => current
  | n + 1, current => expSmoothIter target speed dt n (expSmooth current target speed dt)

/-! ## Constants -/

def EARTH_RADIUS : ℝ := 2

/-- `US_CENTER = { lat: 39.8283, lon: -98.5795 }`, as `(lat, lon)`. -/
def US_CENTER : ℝ × ℝ := (39.8283, -98.5795)

/-- The table `STATE_CENTROIDS`, each entry `(name, lat, lon)`. -/
def STATE_CENTROIDS : List (String × ℝ × ℝ) :=
  [ ("Alabama", 32.806671, -86.791130),
    ("Alaska", 61.370716, -152.404419),
    ("Arizona", 33.729759, -111.431221),
    ("Arkansas", 34.969704, -92.373123),
    ("California", 36.116203, -119.681564),
    ("Colorado", 39.059811, -105.311104),
    ("Connecticut", 41.597782, -72.755371),
    ("Delaware", 39.318523, -75.507141),
    ("District of Columbia", 38.897438, -77.026817),
    ("Florida", 27.766279, -81.686783),
    ("Georgia", 33.040619, -83.643074),
    ("Hawaii", 21.094318, -157.498337),
    ("Idaho", 44.240459, -114.478828),
    ("Illinois", 40.349457, -88.986137),
    ("Indiana", 39.849426, -86.258278),
    ("Iowa", 42.011539, -93.210526),
    ("Kansas", 38.526600, -96.726486),
    ("Kentucky", 37.668140, -84.670067),
    ("Louisiana", 31.169546, -91.867805),
    ("Maine", 44.693947, -69.381927),
    ("Maryland", 39.063946, -76.802101),
    ("Massachusetts", 42.230171, -71.530106),
    ("Michigan", 43.326618, -84.536095),
    ("Minnesota", 45.694454, -93.900192),
    ("Mississippi", 32.741646, -89.678696),
    ("Missouri", 38.456085, -92.288368),
    ("Montana", 46.921925, -110.454353),
    ("Nebraska", 41.125370, -98.268082),
    ("Nevada", 38.313515, -117.055374),
    ("New Hampshire", 43.452492, -71.563896),
    ("New Jersey", 40.298904, -74.521011),
    ("New Mexico", 34.840515, -106.248482),
    ("New York", 42.165726, -74.948051),
    ("North Carolina", 35.630066, -79.806419),
    ("North Dakota", 47.528912, -99.784012),
    ("Ohio", 40.388783, -82.764915),
    ("Oklahoma", 35.565342, -96.928917),
    ("Oregon", 44.572021, -122.070938),
    ("Pennsylvania", 40.590752, -77.209755),
    ("Puerto Rico", 18.220833, -66.590149),
    ("Rhode Island", 41.680893, -71.511780),
    ("South Carolina", 33.856892, -80.945007),
    ("South Dakota", 44.299782, -99.438828),
    ("Tennessee", 35.747845, -86.692345),
    ("Texas", 31.054487, -97.563461),
    ("Utah", 40.150032, -111.862434),
    ("Vermont", 44.045876, -72.710686),
    ("Virginia", 37.769337, -78.169968),
    ("Washington", 47.400902, -121.490494),
    ("West Virginia", 38.491226, -80.954453),
    ("Wisconsin", 44.268543, -89.616508),
    ("Wyoming", 42.755966, -107.302490) ]

def IDLE_ROTATION_SPEED : ℝ := 0.015
def IDLE_TIMEOUT : ℝ := 2000
def ROTATION_ANIMATION_DURATION : ℝ := 1.2
def ZOOM_ANIMATION_DURATION : ℝ := 0.8
def US_CENTER_LAT : ℝ := 39.8283
def MAX_TILT_ANGLE : ℝ := 0.50
def MOMENTUM_FRICTION : ℝ := 0.968
def MOMENTUM_THRESHOLD : ℝ := 0.00012
def SPRING_EASE_VELOCITY : ℝ := 0.0004
def IDLE_DIRECTION : ℝ := 1
def CAMERA_Y : ℝ := 4
def DEFAULT_CAMERA_DISTANCE : ℝ := Real.sqrt (CAMERA_Y * CAMERA_Y + 5.5 * 5.5)
def ZOOMED_CAMERA_DISTANCE : ℝ := Real.sqrt (CAMERA_Y * CAMERA_Y + 2.5 * 2.5)
def INTRO_START_DISTANCE : ℝ := 100
def INTRO_DURATION : ℝ := 3.5
def INTRO_EARTH_SCALE_START : ℝ := 0.1
def SCROLL_MAX_CAMERA_DISTANCE : ℝ := 18
def SCROLL_ROTATION_SPEED : ℝ := 1.6
def SCROLL_CAMERA_SPEED : ℝ := 5.0
def SCROLL_ROTATION_SMOOTH : ℝ := 3.5

/-- `US_CENTER_ROTATION_Y = -(US_CENTER.lon + 90) * (Math.PI / 180)`. -/
def US_CENTER_ROTATION_Y : ℝ := -(US_CENTER.2 + 90) * (Real.pi / 180)

/-- `getRotationForLongitude`. -/
def getRotationForLongitude (lon : ℝ) : ℝ := -(lon + 90) * (Real.pi / 180)

/-- `keyboardRef.current.SPEED`. -/
def KB_SPEED : ℝ := 0.025

/-- `keyboardRef.current.MAX_VELOCITY`. -/
def KB_MAX_VELOCITY : ℝ := 0.04

/-! ## Easing functions -/

/-- `easeOutCubic = (t) => 1 - Math.pow(1 - t, 3)`. -/
def easeOutCubic (t : ℝ) : ℝ := 1 - (1 - t) ^ 3

/-- `easeInOutCubic = (t) => t < 0.5 ? 4 * t * t * t : 1 - Math.pow(-2 * t + 2, 3) / 2`. -/
def easeInOutCubic (t : ℝ) : ℝ :=
  if t < 0.5 then 4 * t * t * t else 1 - (-2 * t + 2) ^ 3 / 2

/-- `easeOutQuint = (t) => 1 - Math.pow(1 - t, 5)`. -/
def easeOutQuint (t : ℝ) : ℝ := 1 - (1 - t) ^ 5

/-- `easeOutSpaceZoom`: `expo * 0.7 + quint * 0.3` with
`expo = 1 - Math.pow(2, -12 * t)` and `quint = 1 - Math.pow(1 - t, 5)`. -/
def easeOutSpaceZoom (t : ℝ) : ℝ :=
  let expo := 1 - (2 : ℝ) ^ (-12 * t)
  let quint := 1 - (1 - t) ^ 5
  expo * 0.7 + quint * 0.3

/-- `easeScrollCamera = (t) => t < 0.5 ? 2 * t * t : 1 - Math.pow(-2 * t + 2, 2) / 2`. -/
def easeScrollCamera (t : ℝ) : ℝ :=
  if t < 0.5 then 2 * t * t else 1 - (-2 * t + 2) ^ 2 / 2

/-! ## The `normalizeAngle` loops

`normalizeAngle` is a local helper, written identically in `handleStateClick`
and in the intro-completion branch of the frame callback:
`while (angle < 0) angle += Math.PI * 2`, then
`while (angle >= Math.PI * 2) angle -= Math.PI * 2`. -/

/-- First loop of `normalizeAngle`: `while (angle < 0) angle += Math.PI * 2`. -/
def normalizeAngleUp (angle : ℝ) : ℝ :=
  if _h : angle < 0 then normalizeAngleUp (angle + Real.pi * 2) else angle
termination_by (⌈-angle / (Real.pi * 2)⌉).toNat
decreasing_by
  have hpos : (0 : ℝ) < Real.pi * 2 := by linarith [Real.pi_pos]
  have hx : 0 < -angle / (Real.pi * 2) := div_pos (by linarith) hpos
  have hc : 0 < ⌈-angle / (Real.pi * 2)⌉ := Int.ceil_pos.mpr hx
  have hs : -(angle + Real.pi * 2) / (Real.pi * 2) = -angle / (Real.pi * 2) - 1 := by
    field_simp
    ring
  rw [hs, Int.ceil_sub_one]
  omega

/-- Second loop of `normalizeAngle`: `while (angle >= Math.PI * 2) angle -= Math.PI * 2`. -/
def normalizeAngleDown (angle : ℝ) : ℝ :=
  if _h : angle ≥ Real.pi * 2 then normalizeAngleDown (angle - Real.pi * 2) else angle
termination_by (⌊angle / (Real.pi * 2)⌋).toNat
decreasing_by
  have hpos : (0 : ℝ) < Real.pi * 2 := by linarith [Real.pi_pos]
  have hx : 1 ≤ angle / (Real.pi * 2) := by
    rw [le_div_iff₀ hpos]
    linarith
  have hc : 1 ≤ ⌊angle / (Real.pi * 2)⌋ := Int.le_floor.mpr (by exact_mod_cast hx)
  have hs : (angle - Real.pi * 2) / (Real.pi * 2) = angle / (Real.pi * 2) - 1 := by
    field_simp
  rw [hs, Int.floor_sub_one]
  omega

/-- The local helper `normalizeAngle`: both loops in sequence. -/
def normalizeAngle (angle : ℝ) : ℝ := normalizeAngleDown (normalizeAngleUp angle)

/-! ## State

`Scene` collects the mutable cells the controller works on: the fields of
`animationRef.current`, followed by the other refs of the component and the
two variables `startX` / `startRotation` captured by the drag handlers.
React state and store values read by the handlers (`introComplete`,
`selectedState`, ...) are inputs of the respective step; the `set...` calls
on React state and the writes to the renderer and the DOM are not part of
the model. -/

/-- The non-null values of `anim.animationType`:
`'intro' | 'focus-state' | 'zoom-out'`. -/
inductive AnimationType
  | intro
  | focusState
  | zoomOut
  deriving DecidableEq

/-- The mutable state of the controller. -/
structure Scene where
  isDragging : Bool
  isHoveringState : Bool
  lastInteractionTime : ℝ
  homingActive : Bool
  lastHomingScrollTime : ℝ
  currentRotationY : ℝ
  currentRotationX : ℝ
  rotationXStart : ℝ
  rotationXEnd : ℝ
  velocity : ℝ
  lastMouseX : ℝ
  lastMoveTime : ℝ
  cameraDistance : ℝ
  isAnimating : Bool
  animationStartTime : ℝ
  animationDuration : ℝ
  rotationStart : ℝ
  rotationEnd : ℝ
  zoomStart : ℝ
  zoomEnd : ℝ
  animationType : Option AnimationType
  earthScale : ℝ
  warmupFramesRemaining : ℕ
  introProgress : ℝ
  statesFading : Bool
  statesFadeStartTime : ℝ
  /-- `introStartTime.current` (`null` before the intro starts). -/
  introStartTime : Option ℝ
  /-- `earthOpacityRef.current.value`. -/
  earthOpacity : ℝ
  /-- `statesOpacityRef.current`. -/
  statesOpacity : ℝ
  /-- `introProgressRef.current`. -/
  introProgressRef : ℝ
  /-- `zoomSpeedRef.current`. -/
  zoomSpeed : ℝ
  /-- `smoothScrollProgressRef.current`. -/
  smoothScrollProgress : ℝ
  /-- `prevScrollProgressRef.current`. -/
  prevScrollProgress : ℝ
  /-- `smoothScrollRotationRef.current`. -/
  smoothScrollRotation : ℝ
  /-- `smoothCameraDistanceRef.current`. -/
  smoothCameraDistance : ℝ
  /-- `smoothScrollYOffsetRef.current`. -/
  smoothScrollYOffset : ℝ
  /-- `keyboardRef.current.left`. -/
  kbLeft : Bool
  /-- `keyboardRef.current.right`. -/
  kbRight : Bool
  /-- `keyboardRef.current.velocity`. -/
  kbVelocity : ℝ
  /-- `startX` of the drag handlers' closure. -/
  startX : ℝ
  /-- `startRotation` of the drag handlers' closure. -/
  startRotation : ℝ

/-- The initial values of the refs at mount. -/
def initialScene : Scene where
  isDragging := false
  isHoveringState := false
  lastInteractionTime := 0
  homingActive := false
  lastHomingScrollTime := 0
  currentRotationY := US_CENTER_ROTATION_Y
  currentRotationX := 0
  rotationXStart := 0
  rotationXEnd := 0
  velocity := 0
  lastMouseX := 0
  lastMoveTime := 0
  cameraDistance := INTRO_START_DISTANCE
  isAnimating := false
  animationStartTime := 0
  animationDuration := 0
  rotationStart := 0
  rotationEnd := 0
  zoomStart := 0
  zoomEnd := 0
  animationType := none
  earthScale := INTRO_EARTH_SCALE_START
  warmupFramesRemaining := 3
  introProgress := 0
  statesFading := false
  statesFadeStartTime := 0
  introStartTime := none
  earthOpacity := 0
  statesOpacity := 0
  introProgressRef := 0
  zoomSpeed := 0
  smoothScrollProgress := 0
  prevScrollProgress := 0
  smoothScrollRotation := 0
  smoothCameraDistance := DEFAULT_CAMERA_DISTANCE
  smoothScrollYOffset := 0
  kbLeft := false
  kbRight := false
  kbVelocity := 0
  startX := 0
  startRotation := 0

/-! ## Start routines

Every routine takes the value `now` of `performance.now()`; where the source
reads the clock twice within one routine the two readings are identified. -/

/-- The helper `startFocusAnimation(targetRotationY, targetRotationX, targetZoom, duration)`. -/
def startFocusAnimation (targetRotationY targetRotationX targetZoom duration now : ℝ)
    (s : Scene) : Scene :=
  { s with
    isAnimating := true
    animationType := some AnimationType.focusState
    animationStartTime := now
    animationDuration := duration * 1000
    rotationStart := s.currentRotationY
    rotationEnd := targetRotationY
    rotationXStart := s.currentRotationX
    rotationXEnd := targetRotationX
    zoomStart := s.cameraDistance
    zoomEnd := targetZoom }

/-- The helper `startZoomAnimation(targetZoom, duration)`. -/
def startZoomAnimation (targetZoom duration now : ℝ) (s : Scene) : Scene :=
  { s with
    isAnimating := true
    animationType := some AnimationType.zoomOut
    animationStartTime := now
    animationDuration := duration * 1000
    rotationStart := s.currentRotationY
    rotationEnd := s.currentRotationY
    rotationXStart := s.currentRotationX
    rotationXEnd := 0
    zoomStart := s.cameraDistance
    zoomEnd := targetZoom }

/-- The effect `START INTRO ANIMATION`. -/
def startIntro (now : ℝ) (s : Scene) : Scene :=
  if s.animationType = some AnimationType.intro then s
  else
    { s with
      animationType := some AnimationType.intro
      isAnimating := true
      introProgress := 0
      warmupFramesRemaining := 3
      introStartTime := some now
      animationStartTime := now
      animationDuration := INTRO_DURATION * 1000
      zoomStart := INTRO_START_DISTANCE
      zoomEnd := DEFAULT_CAMERA_DISTANCE
      cameraDistance := INTRO_START_DISTANCE
      earthScale := INTRO_EARTH_SCALE_START }

/-- The property names every plain object inherits from `Object.prototype`.
The tables `STATE_CENTROIDS` and `stateData` are plain objects, so the
source's `table[name]` finds a (truthy) member under each of these names
too, without `lat`, `lon` or the fields of a state record. -/
def inheritedKeys : List String :=
  [ "constructor", "__defineGetter__", "__defineSetter__", "hasOwnProperty",
    "__lookupGetter__", "__lookupSetter__", "isPrototypeOf", "propertyIsEnumerable",
    "toString", "valueOf", "__proto__", "toLocaleString" ]

/-- The centroid `(lat, lon)` a state name is aimed at: its entry of
`STATE_CENTROIDS`, or `(US_CENTER_LAT, US_CENTER.lon)` when there is none.
This is the source's `STATE_CENTROIDS[stateName]` with its fallback at every
name outside `inheritedKeys`; under a name of `inheritedKeys` the source finds
the inherited member, whose `lat` and `lon` are undefined, and that case is
outside this definition. -/
def targetLatLon (stateName : String) : ℝ × ℝ :=
  match STATE_CENTROIDS.lookup stateName with
  | some centroid => centroid
  | none => (US_CENTER_LAT, US_CENTER.2)

/-- The callback `handleStateClick(stateName)`, as far as it acts on the
refs: `none` when the click is rejected by the guard, otherwise the scene
after `startFocusAnimation`.  (The accepted click also calls the store's
`selectState(stateName)`.) -/
def handleStateClick (stateName : String) (introComplete : Bool) (now : ℝ)
    (s : Scene) : Option Scene :=
  let earthIsReady : Prop := introComplete = true ∨ s.earthOpacity > 0.5
  if s.isAnimating = true ∨ ¬ earthIsReady then none
  else
    let targetLon := (targetLatLon stateName).2
    let targetLat := (targetLatLon stateName).1
    let targetRotationY := getRotationForLongitude targetLon
    let currentNorm := normalizeAngle s.currentRotationY
    let targetNorm := normalizeAngle targetRotationY
    let diff0 := targetNorm - currentNorm
    let diff1 := if diff0 > Real.pi then diff0 - Real.pi * 2 else diff0
    let diff := if diff1 < -Real.pi then diff1 + Real.pi * 2 else diff1
    let finalTargetRotationY := s.currentRotationY + diff
    let latOffset := US_CENTER_LAT - targetLat
    let targetRotationX := -(latOffset / 45) * MAX_TILT_ANGLE
    let duration := if |diff| > 0.3 then ROTATION_ANIMATION_DURATION else ZOOM_ANIMATION_DURATION
    some (startFocusAnimation finalTargetRotationY targetRotationX ZOOMED_CAMERA_DISTANCE
      duration now s)

/-- The effect `HANDLE DESELECTION`, run with the current store value
`selectedState` (here: whether one is selected). -/
def handleDeselection (stateSelected introComplete : Bool) (now : ℝ) (s : Scene) : Scene :=
  let earthIsReady : Prop := introComplete = true ∨ s.earthOpacity > 0.5
  if stateSelected = false ∧ earthIsReady ∧ s.cameraDistance < DEFAULT_CAMERA_DISTANCE then
    startZoomAnimation DEFAULT_CAMERA_DISTANCE ZOOM_ANIMATION_DURATION now s
  else s

/-! ## Pointer and keyboard handlers -/

/-- The listener `handleMouseDown` (`button = e.button`, `clientX = e.clientX`). -/
def handleMouseDown (button : ℕ) (clientX now : ℝ) (s : Scene) : Scene :=
  if button ≠ 0 then s
  else if s.isAnimating = true then s
  else if s.isHoveringState = true then s
  else
    { s with
      isDragging := true
      homingActive := false
      velocity := 0
      startX := clientX
      startRotation := s.currentRotationY
      lastMouseX := clientX
      lastMoveTime := now }

/-- The listener `handleMouseMove`. -/
def handleMouseMove (clientX now : ℝ) (s : Scene) : Scene :=
  if s.isDragging = false then s
  else
    let deltaTime := now - s.lastMoveTime
    let deltaX := clientX - s.startX
    let rotationDelta := deltaX * 0.005
    let velocity :=
      if deltaTime > 0 then
        let mouseDelta := clientX - s.lastMouseX
        let instantVelocity := (mouseDelta * 0.005) / max deltaTime 8 * 16
        let smoothed := s.velocity * 0.7 + instantVelocity * 0.3
        max (-0.08) (min 0.08 smoothed)
      else s.velocity
    { s with
      currentRotationY := s.startRotation + rotationDelta
      velocity := velocity
      lastMouseX := clientX
      lastMoveTime := now
      lastInteractionTime := now }

/-- The listener `handleMouseUp`. -/
def handleMouseUp (now : ℝ) (s : Scene) : Scene :=
  if s.isDragging = true then
    let timeSinceMove := now - s.lastMoveTime
    let velocity := if timeSinceMove > 80 then 0 else s.velocity
    { s with
      isDragging := false
      velocity := velocity
      lastInteractionTime := if velocity = 0 then now else s.lastInteractionTime }
  else s

/-- The listener `handleMouseLeave`. -/
def handleMouseLeave (s : Scene) : Scene :=
  if s.isDragging = true then { s with isDragging := false } else s

/-- The two arrow keys the keyboard listeners react to. -/
inductive ArrowKey
  | left
  | right
  deriving DecidableEq

/-- The listener `handleKeyDown` for an arrow key pressed outside an input
field. -/
def handleKeyDown (key : ArrowKey) (introComplete : Bool) (now : ℝ) (s : Scene) : Scene :=
  if s.isAnimating = true ∨ introComplete = false then s
  else
    match key with
    | ArrowKey.left => { s with kbLeft := true, lastInteractionTime := now }
    | ArrowKey.right => { s with kbRight := true, lastInteractionTime := now }

/-- The listener `handleKeyUp` for an arrow key. -/
def handleKeyUp (key : ArrowKey) (s : Scene) : Scene :=
  match key with
  | ArrowKey.left => { s with kbLeft := false }
  | ArrowKey.right => { s with kbRight := false }

/-! ## The frame callback

`useFrame((state, rawDelta) => ...)` is split into its consecutive blocks,
each a function on `Scene`; `frame` composes them in source order. -/

/-- What one run of the frame callback reads from outside the refs. -/
structure FrameEnv where
  /-- The second argument of the callback, in seconds. -/
  rawDelta : ℝ
  /-- The value `performance.now()` read at the top of the callback. -/
  now : ℝ
  /-- The store's `selectedState`, by name (`none` for `null`). -/
  selectedState : Option String
  /-- Whether `viewMode === 'state-counties'`. -/
  isCountyView : Bool
  /-- The React state `introComplete` as seen by this run. -/
  introComplete : Bool
  /-- The value `scrollTargetRef?.current ?? 0`. -/
  scrollTarget : ℝ
  /-- The value `autoRotateRef.current`. -/
  autoRotate : Bool

/-- The branch `if (rawProgress >= 1)` of the intro block (`Intro complete`).
(The reset of the page scroll position and of `scrollTargetRef.current`
concerns the page-scroll collaborator, whose value enters later frames as
`FrameEnv.scrollTarget`.) -/
def introCompleteStep (env : FrameEnv) (s : Scene) : Scene :=
  let s1 : Scene :=
    { s with
      earthScale := 1
      zoomSpeed := 0
      earthOpacity := 1
      smoothScrollProgress := 0
      smoothCameraDistance := DEFAULT_CAMERA_DISTANCE
      smoothScrollYOffset := 0 }
  match env.selectedState with
  | some name =>
    let targetLon := (targetLatLon name).2
    let targetLat := (targetLatLon name).1
    let targetRotationY := getRotationForLongitude targetLon
    let currentNorm := normalizeAngle s1.currentRotationY
    let targetNorm := normalizeAngle targetRotationY
    let diff0 := targetNorm - currentNorm
    let diff1 := if diff0 > Real.pi then diff0 - Real.pi * 2 else diff0
    let diff := if diff1 < -Real.pi then diff1 + Real.pi * 2 else diff1
    let finalTargetRotationY := s1.currentRotationY + diff
    let latOffset := US_CENTER_LAT - targetLat
    let targetRotationX := -(latOffset / 45) * MAX_TILT_ANGLE
    { s1 with
      animationType := some AnimationType.focusState
      animationStartTime := env.now
      animationDuration := ROTATION_ANIMATION_DURATION * 1000
      rotationStart := s1.currentRotationY
      rotationEnd := finalTargetRotationY
      rotationXStart := s1.currentRotationX
      rotationXEnd := targetRotationX
      zoomStart := s1.cameraDistance
      zoomEnd := ZOOMED_CAMERA_DISTANCE
      statesFading := false
      statesOpacity := 1 }
  | none =>
    { s1 with
      isAnimating := false
      animationType := none
      statesFadeStartTime := env.now
      statesFading := true }

/-- The block `INTRO ANIMATION`. -/
def introStep (env : FrameEnv) (s : Scene) : Scene :=
  let introDelta := min env.rawDelta 0.033
  if s.animationType = some AnimationType.intro ∧ s.isAnimating = true then
    if s.warmupFramesRemaining > 0 then
      { s with
        warmupFramesRemaining := s.warmupFramesRemaining - 1
        cameraDistance := s.zoomStart
        earthScale := INTRO_EARTH_SCALE_START
        introProgress := 0
        introProgressRef := 0
        zoomSpeed := 0
        animationStartTime := env.now }
    else
      let prevRawProgress := s.introProgress
      let accumulated := s.introProgress + introDelta / INTRO_DURATION
      let wallElapsed := env.now - s.animationStartTime
      let introProgress :=
        if wallElapsed > INTRO_DURATION * 1000 + 2000 then 1 else accumulated
      let rawProgress := min introProgress 1
      let eased := easeOutSpaceZoom rawProgress
      let prevEased := easeOutSpaceZoom prevRawProgress
      let currentSpeed := max 0 ((eased - prevEased) * 60)
      let scaleEased := easeOutQuint rawProgress
      let earthFadeStart : ℝ := 0.05
      let earthFadeEnd : ℝ := 0.90
      let earthFadeProgress : ℝ :=
        if rawProgress > earthFadeStart then
          1 - (1 - min 1 ((rawProgress - earthFadeStart) / (earthFadeEnd - earthFadeStart))) ^ 5
        else 0
      let s1 : Scene :=
        { s with
          introProgress := introProgress
          introProgressRef := eased
          zoomSpeed := currentSpeed
          cameraDistance := s.zoomStart + (s.zoomEnd - s.zoomStart) * eased
          earthScale := INTRO_EARTH_SCALE_START + (1 - INTRO_EARTH_SCALE_START) * scaleEased
          earthOpacity := earthFadeProgress }
      if rawProgress ≥ 1 then introCompleteStep env s1 else s1
  else s

/-- The body of the block `REGULAR ANIMATIONS`.  (The quotient
`elapsed / anim.animationDuration` is the real quotient; every start routine
stores a non-zero duration.) -/
def regularAnimationStep (env : FrameEnv) (s : Scene) : Scene :=
  let elapsed := env.now - s.animationStartTime
  let progress := min (elapsed / s.animationDuration) 1
  let eased := easeInOutCubic progress
  let s1 : Scene :=
    { s with
      currentRotationY := s.rotationStart + (s.rotationEnd - s.rotationStart) * eased
      currentRotationX := s.rotationXStart + (s.rotationXEnd - s.rotationXStart) * eased
      cameraDistance := s.zoomStart + (s.zoomEnd - s.zoomStart) * eased }
  if progress ≥ 1 then { s1 with isAnimating := false, animationType := none } else s1

/-- The blocks `STATES FADE-IN ANIMATION` and, in its `else if`,
`REGULAR ANIMATIONS`. -/
def fadeOrAnimateStep (env : FrameEnv) (s : Scene) : Scene :=
  if s.statesFading = true then
    let statesFadeDuration : ℝ := 800
    let elapsed := env.now - s.statesFadeStartTime
    let rawProgress := min (elapsed / statesFadeDuration) 1
    let statesEased := easeOutCubic rawProgress
    if rawProgress ≥ 1 then { s with statesFading := false, statesOpacity := 1 }
    else { s with statesOpacity := statesEased }
  else if s.isAnimating = true ∧ s.animationType ≠ some AnimationType.intro then
    regularAnimationStep env s
  else s

/-- The block `MOMENTUM`. -/
def momentumStep (env : FrameEnv) (s : Scene) : Scene :=
  if s.isDragging = false ∧ |s.velocity| > MOMENTUM_THRESHOLD then
    { s with
      currentRotationY := s.currentRotationY + s.velocity
      velocity := s.velocity * MOMENTUM_FRICTION
      lastInteractionTime := env.now }
  else s

/-- The block `SPRING EASE-BACK`. -/
def springStep (env : FrameEnv) (s : Scene) : Scene :=
  let justStopped : Prop :=
    s.isDragging = false ∧ |s.velocity| ≤ MOMENTUM_THRESHOLD ∧ |s.velocity| > 0
  if justStopped ∧ s.isAnimating = false ∧ env.selectedState = none
      ∧ env.introComplete = true then
    let wasOppositeDirection : Prop :=
      (s.velocity < 0 ∧ IDLE_DIRECTION > 0) ∨ (s.velocity > 0 ∧ IDLE_DIRECTION < 0)
    if wasOppositeDirection then { s with velocity := SPRING_EASE_VELOCITY * IDLE_DIRECTION }
    else { s with velocity := 0 }
  else s

/-- The block `Final stop check`. -/
def finalStopStep (s : Scene) : Scene :=
  if s.isDragging = false ∧ |s.velocity| < MOMENTUM_THRESHOLD * 0.5 then
    { s with velocity := 0 }
  else s

/-- The local `delta = Math.min(rawDelta, 0.1)`. -/
def frameDelta (env : FrameEnv) : ℝ := min env.rawDelta 0.1

/-- The local `rawScrollTarget`. -/
def rawScrollTarget (env : FrameEnv) : ℝ :=
  if env.selectedState ≠ none ∨ env.isCountyView = true ∨ env.introComplete = false then 0
  else env.scrollTarget

/-- The smoothing of `smoothScrollProgressRef.current` towards `rawScrollTarget`. -/
def scrollProgressStep (env : FrameEnv) (s : Scene) : Scene :=
  { s with
    smoothScrollProgress :=
      expSmooth s.smoothScrollProgress (rawScrollTarget env) SCROLL_CAMERA_SPEED (frameDelta env) }

/-- The local `canScrollRotate`. -/
def canScrollRotate (env : FrameEnv) (s : Scene) : Prop :=
  s.isAnimating = false ∧ s.isDragging = false ∧ env.introComplete = true
    ∧ env.selectedState = none

instance (env : FrameEnv) (s : Scene) : Decidable (canScrollRotate env s) := by
  unfold canScrollRotate
  infer_instance

/-- The `if (canScrollRotate && Math.abs(scrollDelta) > 0.000005) ... else if
(anim.homingActive && ...)` block. -/
def scrollRotateStep (env : FrameEnv) (canRotate : Prop) [Decidable canRotate]
    (scrollDelta : ℝ) (s : Scene) : Scene :=
  if canRotate ∧ |scrollDelta| > 0.000005 then
    if scrollDelta < 0 then
      { s with
        homingActive := true
        lastHomingScrollTime := env.now
        lastInteractionTime := env.now }
    else
      { s with
        homingActive := false
        smoothScrollRotation := s.smoothScrollRotation - scrollDelta * SCROLL_ROTATION_SPEED
        lastInteractionTime := env.now }
  else if s.homingActive = true ∧ env.now - s.lastHomingScrollTime > 1200 then
    { s with homingActive := false, lastInteractionTime := env.now }
  else s

/-- The block `US HOMING`. -/
def homingStep (env : FrameEnv) (canRotate : Prop) [Decidable canRotate] (s : Scene) : Scene :=
  if canRotate ∧ s.homingActive = true then
    let angleDiff := shortAngleDist s.currentRotationY US_CENTER_ROTATION_Y
    let absDiff := |angleDiff|
    if absDiff > 0.005 then
      let easeFactor := min 1 (absDiff / 0.3)
      let homeStep := expSmooth 0 angleDiff (1.2 * easeFactor) (frameDelta env)
      { s with currentRotationY := s.currentRotationY + homeStep }
    else { s with homingActive := false, lastInteractionTime := env.now }
  else s

/-- The block draining `smoothScrollRotationRef.current` into the rotation. -/
def scrollDrainStep (env : FrameEnv) (canRotate : Prop) [Decidable canRotate]
    (s : Scene) : Scene :=
  if canRotate then
    let rotationDiff := s.smoothScrollRotation
    if |rotationDiff| > 0.00005 then
      let smoothRotation := expSmooth 0 rotationDiff SCROLL_ROTATION_SMOOTH (frameDelta env)
      { s with
        currentRotationY := s.currentRotationY + smoothRotation
        smoothScrollRotation := s.smoothScrollRotation - smoothRotation }
    else s
  else if env.introComplete = false then { s with smoothScrollRotation := 0 }
  else s

/-- The block `KEYBOARD ROTATION`.  (Its `performance.now()` is identified
with the frame's `now`.) -/
def keyboardStep (env : FrameEnv) (s : Scene) : Scene :=
  if s.isDragging = false ∧ env.introComplete = true ∧ s.isAnimating = false then
    let t0 : ℝ := 0
    let t1 := if s.kbLeft = true then t0 + KB_SPEED else t0
    let targetVelocity := if s.kbRight = true then t1 - KB_SPEED else t1
    if targetVelocity ≠ 0 then
      let diff := targetVelocity - s.kbVelocity
      let v := max (-KB_MAX_VELOCITY) (min KB_MAX_VELOCITY (s.kbVelocity + diff * 0.15))
      { s with
        kbVelocity := v
        currentRotationY := s.currentRotationY + v
        lastInteractionTime := env.now }
    else if |s.kbVelocity| > 0.0001 then
      let v := s.kbVelocity * 0.92
      if |v| < 0.001 then
        { s with
          currentRotationY := s.currentRotationY + s.kbVelocity
          velocity := v * 2
          kbVelocity := 0 }
      else
        { s with
          currentRotationY := s.currentRotationY + s.kbVelocity
          kbVelocity := v }
    else s
  else s

/-- The block `Idle auto-rotation`; `isStopped` and `isScrolling` are the
locals of that name, computed before the keyboard block. -/
def idleStep (env : FrameEnv) (isStopped isScrolling : Prop)
    [Decidable isStopped] [Decidable isScrolling] (s : Scene) : Scene :=
  let timeSinceInteraction := env.now - s.lastInteractionTime
  if s.isAnimating = false ∧ s.isDragging = false ∧ isStopped ∧ env.selectedState = none
      ∧ ¬ isScrolling ∧ env.introComplete = true ∧ env.autoRotate = true
      ∧ timeSinceInteraction > IDLE_TIMEOUT ∧ |s.kbVelocity| < 0.0001 then
    let easeInDuration : ℝ := 2000
    let easeProgress := min 1 ((timeSinceInteraction - IDLE_TIMEOUT) / easeInDuration)
    let easedSpeed := IDLE_ROTATION_SPEED * easeProgress * easeProgress
    { s with currentRotationY := s.currentRotationY + easedSpeed * frameDelta env * IDLE_DIRECTION }
  else s

/-- The block `SCROLL-BASED CAMERA DISTANCE`, as far as it writes refs. -/
def scrollCameraStep (env : FrameEnv) (s : Scene) : Scene :=
  if env.introComplete = true ∧ env.selectedState = none ∧ s.isAnimating = false then
    let easedScrollProgress := easeScrollCamera s.smoothScrollProgress
    let targetCameraDistance := DEFAULT_CAMERA_DISTANCE
      + (SCROLL_MAX_CAMERA_DISTANCE - DEFAULT_CAMERA_DISTANCE) * easedScrollProgress
    let targetScrollYOffset := easedScrollProgress * 1.5
    { s with
      smoothCameraDistance :=
        expSmooth s.smoothCameraDistance targetCameraDistance SCROLL_CAMERA_SPEED (frameDelta env)
      smoothScrollYOffset :=
        expSmooth s.smoothScrollYOffset targetScrollYOffset SCROLL_CAMERA_SPEED (frameDelta env) }
  else if env.introComplete = false then
    { s with smoothCameraDistance := s.cameraDistance, smoothScrollYOffset := 0 }
  else if env.selectedState ≠ none
      ∨ (s.isAnimating = true ∧ s.animationType ≠ some AnimationType.zoomOut) then
    { s with smoothCameraDistance := DEFAULT_CAMERA_DISTANCE, smoothScrollYOffset := 0 }
  else if s.isAnimating = true ∧ env.selectedState = none then
    { s with smoothCameraDistance := s.cameraDistance, smoothScrollYOffset := 0 }
  else s

/-- The local `effectiveCameraDistance` at the end of the block
`SCROLL-BASED CAMERA DISTANCE`, from the scene `scrollCameraStep` leaves. -/
def effectiveCameraDistance (env : FrameEnv) (s : Scene) : ℝ :=
  if env.introComplete = true ∧ env.selectedState = none ∧ s.isAnimating = false then
    s.smoothCameraDistance
  else s.cameraDistance

/-- The line `prevScrollProgressRef.current = currentScrollProgress`. -/
def prevScrollStep (s : Scene) : Scene :=
  { s with prevScrollProgress := s.smoothScrollProgress }

/-- The part of the frame callback from `MOMENTUM` on, run on the scene the
animation blocks leave behind. -/
def motionSteps (env : FrameEnv) (s2 : Scene) : Scene :=
  let s3 := momentumStep env s2
  let s4 := springStep env s3
  let s5 := finalStopStep s4
  let s6 := scrollProgressStep env s5
  let scrollDelta := s6.smoothScrollProgress - s6.prevScrollProgress
  let canRotate := canScrollRotate env s6
  let s7 := scrollRotateStep env canRotate scrollDelta s6
  let s8 := homingStep env canRotate s7
  let s9 := scrollDrainStep env canRotate s8
  let s10 := prevScrollStep s9
  let isScrolling : Prop := |scrollDelta| > 0.000005 ∨ |s10.smoothScrollRotation| > 0.001
  let isStopped : Prop := |s10.velocity| < MOMENTUM_THRESHOLD
  let s11 := keyboardStep env s10
  let s12 := idleStep env isStopped isScrolling s11
  scrollCameraStep env s12

/-- One run of the frame callback. -/
def frame (env : FrameEnv) (s : Scene) : Scene :=
  motionSteps env (fadeOrAnimateStep env (introStep env s))

/-! ## Events -/

/-- What can happen to the controller between two states. -/
inductive Event
  /-- The mount effect `START INTRO ANIMATION`. -/
  | introStart (now : ℝ)
  /-- A call `startFocusAnimation(targetRotationY, targetRotationX, targetZoom, duration)`. -/
  | focusStart (targetRotationY targetRotationX targetZoom duration now : ℝ)
  /-- A call `startZoomAnimation(targetZoom, duration)`. -/
  | zoomStart (targetZoom duration now : ℝ)
  /-- A call `handleStateClick(stateName)`. -/
  | stateClick (stateName : String) (introComplete : Bool) (now : ℝ)
  /-- A run of the effect `HANDLE DESELECTION`. -/
  | deselection (stateSelected introComplete : Bool) (now : ℝ)
  | mouseDown (button : ℕ) (clientX now : ℝ)
  | mouseMove (clientX now : ℝ)
  | mouseUp (now : ℝ)
  | mouseLeave
  | hoverChange (isHovering : Bool)
  | keyDown (key : ArrowKey) (introComplete : Bool) (now : ℝ)
  | keyUp (key : ArrowKey)
  /-- A run of the frame callback. -/
  | frame (env : FrameEnv)

/-- The effect of one event. -/
def step (s : Scene) : Event → Scene
  | .introStart now => startIntro now s
  | .focusStart ry rx zoom duration now => startFocusAnimation ry rx zoom duration now s
  | .zoomStart zoom duration now => startZoomAnimation zoom duration now s
  | .stateClick name introComplete now => (handleStateClick name introComplete now s).getD s
  | .deselection stateSelected introComplete now =>
    handleDeselection stateSelected introComplete now s
  | .mouseDown button clientX now => handleMouseDown button clientX now s
  | .mouseMove clientX now => handleMouseMove clientX now s
  | .mouseUp now => handleMouseUp now s
  | .mouseLeave => handleMouseLeave s
  | .hoverChange isHovering => { s with isHoveringState := isHovering }
  | .keyDown key introComplete now => handleKeyDown key introComplete now s
  | .keyUp key => handleKeyUp key s
  | .frame env => frame env s

/-- The scene after a sequence of events. -/
def run (s : Scene) (events : List Event) : Scene := events.foldl step s

/-! ## Well-timed event sequences and the invariant of the camera distance -/

/-- The clock value an event is dispatched at, for the events that read
`performance.now()`. -/
def Event.time : Event → Option ℝ
  | .introStart now => some now
  | .focusStart _ _ _ _ now => some now
  | .zoomStart _ _ now => some now
  | .stateClick _ _ now => some now
  | .deselection _ _ now => some now
  | .mouseDown _ _ now => some now
  | .mouseMove _ now => some now
  | .mouseUp now => some now
  | .mouseLeave => none
  | .hoverChange _ => none
  | .keyDown _ _ now => some now
  | .keyUp _ => none
  | .frame env => some env.now

/-- The clock after an event. -/
def Event.clockAfter (clock : ℝ) (e : Event) : ℝ := e.time.getD clock

/-- An event as the running application produces it at clock value `clock`:
the clock does not run backwards, a frame has `rawDelta ≥ 0`, a focus start
aims at `ZOOMED_CAMERA_DISTANCE` and a zoom start at
`DEFAULT_CAMERA_DISTANCE`, both with a positive duration. -/
def Event.wellTimed (clock : ℝ) (e : Event) : Prop :=
  (∀ t, e.time = some t → clock ≤ t) ∧
  match e with
  | .focusStart _ _ targetZoom duration _ => targetZoom = ZOOMED_CAMERA_DISTANCE ∧ 0 < duration
  | .zoomStart targetZoom duration _ => targetZoom = DEFAULT_CAMERA_DISTANCE ∧ 0 < duration
  | .frame env => 0 ≤ env.rawDelta
  | _ => True

/-- A sequence of events, each well-timed at the clock its predecessors leave. -/
def Chronological : ℝ → List Event → Prop
  | _, [] => True
  | clock, e :: es => e.wellTimed clock ∧ Chronological (e.clockAfter clock) es

/-- The fields the animation of the camera distance depends on. -/
def animCore (s : Scene) :
    ℝ × ℝ × ℝ × Option AnimationType × Bool × ℝ × ℝ × ℝ :=
  (s.cameraDistance, s.zoomStart, s.zoomEnd, s.animationType, s.isAnimating,
    s.animationStartTime, s.animationDuration, s.introProgress)

/-- The invariant behind the bounds of the camera distance: the distance is
within bounds; during the intro the zoom runs from `INTRO_START_DISTANCE` to
`DEFAULT_CAMERA_DISTANCE` with non-negative progress; during any other
animation both ends of the zoom are within bounds, the duration is positive
and the start time is not in the future. -/
def CameraInv (clock : ℝ) (s : Scene) : Prop :=
  (ZOOMED_CAMERA_DISTANCE ≤ s.cameraDistance ∧ s.cameraDistance ≤ INTRO_START_DISTANCE)
  ∧ (s.animationType = some AnimationType.intro →
      s.zoomStart = INTRO_START_DISTANCE ∧ s.zoomEnd = DEFAULT_CAMERA_DISTANCE
        ∧ 0 ≤ s.introProgress)
  ∧ (s.isAnimating = true → s.animationType ≠ some AnimationType.intro →
      (ZOOMED_CAMERA_DISTANCE ≤ s.zoomStart ∧ s.zoomStart ≤ INTRO_START_DISTANCE)
        ∧ (ZOOMED_CAMERA_DISTANCE ≤ s.zoomEnd ∧ s.zoomEnd ≤ INTRO_START_DISTANCE)
        ∧ 0 < s.animationDuration ∧ s.animationStartTime ≤ clock)

/-! ## Further locals of the frame callback and projections of the state -/

/-- The local `rawProgress` of the intro block in a frame after the warmup:
`Math.min(anim.introProgress, 1)` once the accumulation and the wall-clock
fallback have run. -/
def introRawProgress (env : FrameEnv) (s : Scene) : ℝ :=
  min (if env.now - s.animationStartTime > INTRO_DURATION * 1000 + 2000 then 1
    else s.introProgress + min env.rawDelta 0.033 / INTRO_DURATION) 1

/-- The local `progress` of the block `REGULAR ANIMATIONS`:
`Math.min(elapsed / anim.animationDuration, 1)`. -/
def animationProgress (env : FrameEnv) (s : Scene) : ℝ :=
  min ((env.now - s.animationStartTime) / s.animationDuration) 1

/-- The local `scrollYOffset` of the camera placement:
`introComplete && !selectedState ? smoothScrollYOffsetRef.current : 0`. -/
def appliedScrollYOffset (env : FrameEnv) (s : Scene) : ℝ :=
  if env.introComplete = true ∧ env.selectedState = none then s.smoothScrollYOffset else 0

/-- The fields no block from `MOMENTUM` on writes, other than those of
`animCore`. -/
def stageCore (s : Scene) :
    ℝ × ℝ × ℝ × ℝ × ℝ × ℝ × ℕ × Bool × ℝ × ℝ × Bool × Bool × Bool × Bool :=
  (s.currentRotationX, s.rotationXStart, s.rotationXEnd, s.rotationStart, s.rotationEnd,
    s.earthScale, s.warmupFramesRemaining, s.statesFading, s.statesFadeStartTime,
    s.earthOpacity, s.isHoveringState, s.isDragging, s.kbLeft, s.kbRight)

/-- The intro block of a frame after the warmup, up to (not including) the
test `if (rawProgress >= 1)`: accumulation, fallback, and the interpolation of
camera distance, earth scale and earth opacity. -/
def introAdvance (env : FrameEnv) (s : Scene) : Scene :=
  { s with
    introProgress :=
      if env.now - s.animationStartTime > INTRO_DURATION * 1000 + 2000 then 1
      else s.introProgress + min env.rawDelta 0.033 / INTRO_DURATION
    introProgressRef := easeOutSpaceZoom (introRawProgress env s)
    zoomSpeed := max 0
      ((easeOutSpaceZoom (introRawProgress env s) - easeOutSpaceZoom s.introProgress) * 60)
    cameraDistance :=
      s.zoomStart + (s.zoomEnd - s.zoomStart) * easeOutSpaceZoom (introRawProgress env s)
    earthScale := INTRO_EARTH_SCALE_START
      + (1 - INTRO_EARTH_SCALE_START) * easeOutQuint (introRawProgress env s)
    earthOpacity :=
      if introRawProgress env s > 0.05 then
        1 - (1 - min 1 ((introRawProgress env s - 0.05) / (0.90 - 0.05))) ^ 5
      else 0 }

/-- The block `MOMENTUM` run in the consecutive frames `envs`, with nothing
else touching the velocity in between. -/
def momentumRun (s : Scene) (envs : List FrameEnv) : Scene :=
  envs.foldl (fun acc env => momentumStep env acc) s

/-! ## The selection store (`store/useStore.js`)

The part of the zustand store the globe works with: view mode, selection,
transition flags and the pending zoom request. -/

/-- A record of the store's `stateData`. -/
structure StateInfo where
  name : String
  abbr : String
  population : String
  outbreakRisk : String
  riskScore : ℕ
  vaccinationRate : ℕ
  airQuality : String
  healthIndex : ℕ
  deriving DecidableEq

/-- The store's `viewMode`: `'globe' | 'state-counties'`. -/
inductive ViewMode
  | globe
  | stateCounties
  deriving DecidableEq

/-- The non-null values of the store's `transitionType`:
`'globe-to-counties' | 'counties-to-globe'`. -/
inductive TransitionType
  | globeToCounties
  | countiesToGlobe
  deriving DecidableEq

/-- The store's table `stateData`, each entry `(key, record)`. -/
def STATE_DATA : List (String × StateInfo) :=
  [ ("Alabama", ⟨"Alabama", "AL", "5.2M", "Medium", 42, 52, "Good", 58⟩),
    ("Alaska", ⟨"Alaska", "AK", "747K", "Low", 28, 58, "Good", 68⟩),
    ("Arizona", ⟨"Arizona", "AZ", "7.8M", "Medium", 45, 60, "Moderate", 62⟩),
    ("Arkansas", ⟨"Arkansas", "AR", "3.1M", "Medium", 48, 54, "Good", 55⟩),
    ("California", ⟨"California", "CA", "39.9M", "Low", 23, 78, "Moderate", 72⟩),
    ("Colorado", ⟨"Colorado", "CO", "6.1M", "Low", 25, 72, "Good", 75⟩),
    ("Connecticut", ⟨"Connecticut", "CT", "3.7M", "Low", 22, 82, "Good", 78⟩),
    ("Delaware", ⟨"Delaware", "DE", "1.1M", "Low", 30, 70, "Good", 70⟩),
    ("Florida", ⟨"Florida", "FL", "24.3M", "Medium", 52, 65, "Good", 61⟩),
    ("Georgia", ⟨"Georgia", "GA", "11.4M", "Medium", 48, 56, "Good", 59⟩),
    ("Hawaii", ⟨"Hawaii", "HI", "1.5M", "Low", 20, 80, "Good", 82⟩),
    ("Idaho", ⟨"Idaho", "ID", "2.1M", "Medium", 40, 48, "Good", 65⟩),
    ("Illinois", ⟨"Illinois", "IL", "12.8M", "Low", 33, 72, "Moderate", 68⟩),
    ("Indiana", ⟨"Indiana", "IN", "7.0M", "Medium", 42, 55, "Moderate", 60⟩),
    ("Iowa", ⟨"Iowa", "IA", "3.3M", "Low", 32, 62, "Good", 68⟩),
    ("Kansas", ⟨"Kansas", "KS", "3.0M", "Low", 35, 58, "Good", 65⟩),
    ("Kentucky", ⟨"Kentucky", "KY", "4.7M", "Medium", 45, 55, "Moderate", 55⟩),
    ("Louisiana", ⟨"Louisiana", "LA", "4.6M", "Medium", 50, 52, "Moderate", 52⟩),
    ("Maine", ⟨"Maine", "ME", "1.4M", "Low", 22, 78, "Good", 75⟩),
    ("Maryland", ⟨"Maryland", "MD", "6.4M", "Low", 28, 76, "Moderate", 72⟩),
    ("Massachusetts", ⟨"Massachusetts", "MA", "7.3M", "Low", 20, 85, "Good", 80⟩),
    ("Michigan", ⟨"Michigan", "MI", "10.3M", "Low", 29, 70, "Good", 69⟩),
    ("Minnesota", ⟨"Minnesota", "MN", "5.9M", "Low", 24, 72, "Good", 76⟩),
    ("Mississippi", ⟨"Mississippi", "MS", "2.9M", "High", 58, 48, "Good", 48⟩),
    ("Missouri", ⟨"Missouri", "MO", "6.3M", "Medium", 42, 55, "Moderate", 60⟩),
    ("Montana", ⟨"Montana", "MT", "1.1M", "Low", 32, 55, "Good", 68⟩),
    ("Nebraska", ⟨"Nebraska", "NE", "2.0M", "Low", 30, 60, "Good", 70⟩),
    ("Nevada", ⟨"Nevada", "NV", "3.4M", "Medium", 40, 58, "Moderate", 62⟩),
    ("New Hampshire", ⟨"New Hampshire", "NH", "1.4M", "Low", 22, 75, "Good", 78⟩),
    ("New Jersey", ⟨"New Jersey", "NJ", "9.7M", "Low", 28, 78, "Moderate", 72⟩),
    ("New Mexico", ⟨"New Mexico", "NM", "2.1M", "Medium", 38, 65, "Good", 60⟩),
    ("New York", ⟨"New York", "NY", "20.1M", "Low", 31, 81, "Moderate", 74⟩),
    ("North Carolina", ⟨"North Carolina", "NC", "11.4M", "Low", 35, 67, "Good", 66⟩),
    ("North Dakota", ⟨"North Dakota", "ND", "812K", "Low", 35, 52, "Good", 68⟩),
    ("Ohio", ⟨"Ohio", "OH", "12.0M", "Medium", 41, 58, "Moderate", 62⟩),
    ("Oklahoma", ⟨"Oklahoma", "OK", "4.2M", "Medium", 48, 52, "Good", 55⟩),
    ("Oregon", ⟨"Oregon", "OR", "4.3M", "Low", 28, 70, "Moderate", 72⟩),
    ("Pennsylvania", ⟨"Pennsylvania", "PA", "13.2M", "Low", 28, 75, "Moderate", 70⟩),
    ("Rhode Island", ⟨"Rhode Island", "RI", "1.1M", "Low", 25, 82, "Good", 76⟩),
    ("South Carolina", ⟨"South Carolina", "SC", "5.7M", "Medium", 45, 55, "Good", 58⟩),
    ("South Dakota", ⟨"South Dakota", "SD", "937K", "Low", 35, 55, "Good", 68⟩),
    ("Tennessee", ⟨"Tennessee", "TN", "7.4M", "Medium", 48, 52, "Moderate", 55⟩),
    ("Texas", ⟨"Texas", "TX", "32.4M", "Medium", 45, 62, "Good", 65⟩),
    ("Utah", ⟨"Utah", "UT", "3.6M", "Low", 28, 60, "Moderate", 75⟩),
    ("Vermont", ⟨"Vermont", "VT", "648K", "Low", 18, 82, "Good", 82⟩),
    ("Virginia", ⟨"Virginia", "VA", "9.0M", "Low", 30, 72, "Moderate", 70⟩),
    ("Washington", ⟨"Washington", "WA", "8.2M", "Low", 25, 75, "Moderate", 74⟩),
    ("West Virginia", ⟨"West Virginia", "WV", "1.8M", "High", 55, 48, "Moderate", 48⟩),
    ("Wisconsin", ⟨"Wisconsin", "WI", "6.0M", "Low", 30, 65, "Good", 70⟩),
    ("Wyoming", ⟨"Wyoming", "WY", "593K", "Low", 32, 48, "Good", 68⟩) ]

/-- The selection part of the store.  (`selectedCounty` is kept by the
county's name; the generated county record plays no part here.) -/
structure Store where
  viewMode : ViewMode
  selectedState : Option StateInfo
  hoveredState : Option String
  zoomedState : Option String
  selectedCounty : Option String
  hoveredCounty : Option String
  isTransitioning : Bool
  transitionType : Option TransitionType
  pendingStateZoom : Option String

/-- The store at creation. -/
def initialStore : Store where
  viewMode := ViewMode.globe
  selectedState := none
  hoveredState := none
  zoomedState := none
  selectedCounty := none
  hoveredCounty := none
  isTransitioning := false
  transitionType := none
  pendingStateZoom := none

/-- The record `selectState` falls back on for a name without an entry in
`stateData`. -/
def fallbackStateInfo (stateName : String) : StateInfo :=
  ⟨stateName, "--", "N/A", "Unknown", 50, 50, "Unknown", 50⟩

/-- The action `selectState(stateName)`.  `state.stateData[stateName]` is the
lookup among the entries of the table: that is the source at every name
outside `inheritedKeys`; under a name of `inheritedKeys` the source finds the
inherited member instead of taking the fallback record, and that case is
outside this definition. -/
def selectState (stateName : String) (st : Store) : Store :=
  let stateInfo := (STATE_DATA.lookup stateName).getD (fallbackStateInfo stateName)
  if st.selectedState.map StateInfo.name = some stateName then
    { st with
      viewMode := ViewMode.stateCounties
      isTransitioning := true
      transitionType := some TransitionType.globeToCounties
      selectedCounty := none }
  else
    { st with
      selectedState := some stateInfo
      selectedCounty := none
      hoveredCounty := none }

/-- The action `clearSelection()`. -/
def clearSelection (st : Store) : Store :=
  { st with
    selectedState := none
    selectedCounty := none
    hoveredCounty := none
    zoomedState := none
    viewMode := ViewMode.globe
    isTransitioning := false
    transitionType := none }

/-- The action `enterCountyView()`. -/
def enterCountyView (st : Store) : Store :=
  if st.selectedState = none then st
  else
    { st with
      viewMode := ViewMode.stateCounties
      isTransitioning := true
      transitionType := some TransitionType.globeToCounties
      selectedCounty := none }

/-- The action `exitCountyView()`. -/
def exitCountyView (st : Store) : Store :=
  { st with
    viewMode := ViewMode.globe
    isTransitioning := true
    transitionType := some TransitionType.countiesToGlobe
    selectedCounty := none
    hoveredCounty := none }

/-- The action `requestStateZoom(stateName)`. -/
def requestStateZoom (stateName : String) (st : Store) : Store :=
  { st with pendingStateZoom := some stateName }

/-- The action `clearPendingZoom()`. -/
def clearPendingZoom (st : Store) : Store :=
  { st with pendingStateZoom := none }

/-- The actions of the store that write the selection part. -/
inductive StoreAction
  | selectState (stateName : String)
  | setHoveredState (stateName : Option String)
  | clearSelection
  | enterCountyView
  | exitCountyView
  | selectCounty (countyName : String)
  | setHoveredCounty (countyName : Option String)
  | clearCountySelection
  | transitionComplete
  | requestStateZoom (stateName : String)
  | clearPendingZoom

/-- The effect of one store action. -/
def Store.apply (st : Store) : StoreAction → Store
  | .selectState stateName => selectState stateName st
  | .setHoveredState stateName => { st with hoveredState := stateName }
  | .clearSelection => clearSelection st
  | .enterCountyView => enterCountyView st
  | .exitCountyView => exitCountyView st
  | .selectCounty countyName => { st with selectedCounty := some countyName }
  | .setHoveredCounty countyName => { st with hoveredCounty := countyName }
  | .clearCountySelection => { st with selectedCounty := none }
  | .transitionComplete => { st with isTransitioning := false, transitionType := none }
  | .requestStateZoom stateName => requestStateZoom stateName st
  | .clearPendingZoom => clearPendingZoom st

/-- The callback `handleStateClick(stateName)` on store and refs together:
a rejected click returns early, an accepted one calls `selectState` and
`startFocusAnimation`. -/
def stateClickEffect (stateName : String) (introComplete : Bool) (now : ℝ)
    (w : Store × Scene) : Store × Scene :=
  match handleStateClick stateName introComplete now w.2 with
  | none => w
  | some s' => (selectState stateName w.1, s')

/-- The environment of a frame with another value of the raw scroll signal. -/
def withScrollTarget (env : FrameEnv) (x : ℝ) : FrameEnv := { env with scrollTarget := x }

/-- The store invariant linking the two store values a frame reads: the
view is in county mode only while a state is selected. -/
def Store.countyHasState (st : Store) : Prop :=
  st.viewMode = ViewMode.stateCounties → st.selectedState ≠ none

/-! ## The invariant of the pitch -/

/-- The target X rotation computed for a state name, as in `handleStateClick`
and in the intro chain: `-(latOffset / 45) * MAX_TILT_ANGLE` with
`latOffset = US_CENTER_LAT - targetLat`. -/
def stateTargetRotationX (stateName : String) : ℝ :=
  -((US_CENTER_LAT - (targetLatLon stateName).1) / 45) * MAX_TILT_ANGLE

/-- An event that, if it is a direct call of `startFocusAnimation`, passes a
target X rotation within the tilt limit, and, if it aims at a state by name (a
state click, or a frame with a state selected), names a state of
`STATE_CENTROIDS` or an unknown name for which the US-center fallback is
taken, that is, no name of `inheritedKeys`. -/
def Event.tiltBounded : Event → Prop
  | .focusStart _ targetRotationX _ _ _ => |targetRotationX| ≤ MAX_TILT_ANGLE
  | .stateClick stateName _ _ => stateName ∉ inheritedKeys
  | .frame env => ∀ name : String, env.selectedState = some name → name ∉ inheritedKeys
  | _ => True

/-- A sequence of events whose direct calls of `startFocusAnimation` pass a
target X rotation within the tilt limit and whose state names are names of
states or unknown names taking the fallback. -/
def TiltBounded (events : List Event) : Prop := ∀ e ∈ events, e.tiltBounded

/-- The fields the animation of the pitch depends on. -/
def pitchCore (s : Scene) : ℝ × ℝ × ℝ × Option AnimationType × Bool × ℝ × ℝ :=
  (s.currentRotationX, s.rotationXStart, s.rotationXEnd, s.animationType, s.isAnimating,
    s.animationStartTime, s.animationDuration)

/-- The invariant behind the bound of the pitch: the pitch is within the
tilt limit, and during a focus-state or zoom-out animation so are both stored
ends, the duration is positive and the start time is not in the future. -/
def PitchInv (clock : ℝ) (s : Scene) : Prop :=
  |s.currentRotationX| ≤ MAX_TILT_ANGLE
  ∧ (s.isAnimating = true → s.animationType ≠ some AnimationType.intro →
      |s.rotationXStart| ≤ MAX_TILT_ANGLE ∧ |s.rotationXEnd| ≤ MAX_TILT_ANGLE
        ∧ 0 < s.animationDuration ∧ s.animationStartTime ≤ clock)

/-- The fields the block `KEYBOARD ROTATION` reads when it moves the yaw. -/
def kbCore (s : Scene) : Bool × Bool × Bool × Bool × ℝ × ℝ :=
  (s.isDragging, s.isAnimating, s.kbLeft, s.kbRight, s.kbVelocity, s.currentRotationY)

/-- The frame callback run in the consecutive frames `envs`, with no event in
between. -/
def frames (s : Scene) (envs : List FrameEnv) : Scene :=
  envs.foldl (fun acc env => frame env acc) s

/-- The locals `currentNorm`, `targetNorm` and `diff` of `handleStateClick`
(`Calculate shortest Y rotation path`), as a function of the current yaw and
the target rotation: the final value of `diff`. -/
def clickDiff (currentRotationY targetRotationY : ℝ) : ℝ :=
  let currentNorm := normalizeAngle currentRotationY
  let targetNorm := normalizeAngle targetRotationY
  let diff0 := targetNorm - currentNorm
  let diff1 := if diff0 > Real.pi then diff0 - Real.pi * 2 else diff0
  if diff1 < -Real.pi then diff1 + Real.pi * 2 else diff1

/-- The same locals in the copy of the computation within the intro block of
the frame callback (`Calculate shortest rotation path`). -/
def chainDiff (currentRotationY targetRotationY : ℝ) : ℝ :=
  let currentNorm := normalizeAngle currentRotationY
  let targetNorm := normalizeAngle targetRotationY
  let diff0 := targetNorm - currentNorm
  let diff1 := if diff0 > Real.pi then diff0 - Real.pi * 2 else diff0
  if diff1 < -Real.pi then diff1 + Real.pi * 2 else diff1

/-- The local `scrollDelta` of a frame, from the scene the animation blocks
leave behind. -/
def frameScrollDelta (env : FrameEnv) (s2 : Scene) : ℝ :=
  (scrollProgressStep env (finalStopStep (springStep env (momentumStep env s2)))).smoothScrollProgress
    - (scrollProgressStep env
        (finalStopStep (springStep env (momentumStep env s2)))).prevScrollProgress

/-- The scene at the point of the frame callback where the locals
`isScrolling` and `isStopped` are computed (right after the update of
`prevScrollProgressRef.current`), from the scene the animation blocks leave
behind. -/
def preKeyboardScene (env : FrameEnv) (s2 : Scene) : Scene :=
  let s6 := scrollProgressStep env (finalStopStep (springStep env (momentumStep env s2)))
  let canRotate := canScrollRotate env s6
  prevScrollStep (scrollDrainStep env canRotate (homingStep env canRotate
    (scrollRotateStep env canRotate (frameScrollDelta env s2) s6)))

/-- The local `isScrolling` of a frame. -/
def isScrolling (env : FrameEnv) (s2 : Scene) : Prop :=
  |frameScrollDelta env s2| > 0.000005
    ∨ |(preKeyboardScene env s2).smoothScrollRotation| > 0.001

/-- The local `isStopped` of a frame. -/
def isStopped (env : FrameEnv) (s2 : Scene) : Prop :=
  |(preKeyboardScene env s2).velocity| < MOMENTUM_THRESHOLD

instance (env : FrameEnv) (s2 : Scene) : Decidable (isScrolling env s2) :=
  inferInstanceAs (Decidable (_ ∨ _))

instance (env : FrameEnv) (s2 : Scene) : Decidable (isStopped env s2) :=
  inferInstanceAs (Decidable (_ < _))

/-- The scene on which the block `Idle auto-rotation` of a frame runs: the
one the block `KEYBOARD ROTATION` leaves behind. -/
def preIdleScene (env : FrameEnv) (s2 : Scene) : Scene :=
  keyboardStep env (preKeyboardScene env s2)

/-- The local `timeSinceInteraction` of a frame. -/
def timeSinceInteraction (env : FrameEnv) (s2 : Scene) : ℝ :=
  env.now - (preIdleScene env s2).lastInteractionTime

/-- The condition of the `if` of the block `Idle auto-rotation` of a frame. -/
def idleActive (env : FrameEnv) (s2 : Scene) : Prop :=
  (preIdleScene env s2).isAnimating = false ∧ (preIdleScene env s2).isDragging = false
    ∧ isStopped env s2 ∧ env.selectedState = none ∧ ¬ isScrolling env s2
    ∧ env.introComplete = true ∧ env.autoRotate = true
    ∧ timeSinceInteraction env s2 > IDLE_TIMEOUT ∧ |(preIdleScene env s2).kbVelocity| < 0.0001

/-- The effect `EXTERNAL ZOOM REQUEST`, run on store and refs together:
`if (pendingStateZoom) { handleStateClick(pendingStateZoom); clearPendingZoom() }`.
The guard is the truthiness of the string: `null` and the empty string do not
pass it. -/
def pendingZoomEffect (introComplete : Bool) (now : ℝ) (w : Store × Scene) : Store × Scene :=
  match w.1.pendingStateZoom with
  | some stateName =>
    if stateName ≠ "" then
      (clearPendingZoom (stateClickEffect stateName introComplete now w).1,
        (stateClickEffect stateName introComplete now w).2)
    else w
  | none => w

/-- Whether a store action is a call of `requestStateZoom`. -/
def StoreAction.isZoomRequest : StoreAction → Bool
  | .requestStateZoom _ => true
  | _ => false

/-- The fields that decide whether the keyboard block and the momentum blocks
of a frame are open: drag, animation and keyboard state. -/
def restCore (s : Scene) : Bool × Bool × Bool × Bool × ℝ :=
  (s.isDragging, s.isAnimating, s.kbLeft, s.kbRight, s.kbVelocity)

/-- A scene without input: no drag, no animation, no arrow key held and the
keyboard velocity died down (`|kb.velocity| ≤ 0.0001`). -/
def NoInput (s : Scene) : Prop :=
  s.isDragging = false ∧ s.isAnimating = false ∧ s.kbLeft = false ∧ s.kbRight = false
    ∧ |s.kbVelocity| ≤ 0.0001

/-- The velocity the blocks `MOMENTUM`, `SPRING EASE-BACK` and `Final stop
check` of one frame make of the velocity `v`, with no drag, no animation, no
selected state and the intro complete. -/
def freeVelocity (v : ℝ) : ℝ :=
  let v1 := if |v| > MOMENTUM_THRESHOLD then v * MOMENTUM_FRICTION else v
  let v2 :=
    if |v1| ≤ MOMENTUM_THRESHOLD ∧ |v1| > 0 then
      if (v1 < 0 ∧ IDLE_DIRECTION > 0) ∨ (v1 > 0 ∧ IDLE_DIRECTION < 0) then
        SPRING_EASE_VELOCITY * IDLE_DIRECTION
      else 0
    else v1
  if |v2| < MOMENTUM_THRESHOLD * 0.5 then 0 else v2

/-! ## Sample inputs -/

/-- A scene in the middle of a drag whose last velocity sample is `0.05`,
taken at clock value `100`. -/
def draggingScene : Scene :=
  { initialScene with isDragging := true, velocity := 0.05, lastMoveTime := 100 }

/-- A short session: mount, two frames, a zoom-out start, a focus start and a
further frame. -/
def sampleSession : List Event :=
  [ Event.introStart 0,
    Event.frame ⟨0.016, 16, none, false, false, 0, true⟩,
    Event.frame ⟨0.25, 266, none, false, false, 0, true⟩,
    Event.zoomStart DEFAULT_CAMERA_DISTANCE 0.8 300,
    Event.focusStart 1 0.2 ZOOMED_CAMERA_DISTANCE 1.2 400,
    Event.frame ⟨0.016, 1000, some "Texas", false, true, 0, true⟩ ]

/-- A scene in the middle of a focus-state animation whose yaw runs from `0`
to `1` within 1200 ms, with momentum left over from a preceding spin
(`velocity = 0.05`). -/
def spinningFocusScene : Scene :=
  { initialScene with
    isAnimating := true
    animationType := some AnimationType.focusState
    animationStartTime := 0
    animationDuration := 1200
    currentRotationY := 0
    rotationStart := 0
    rotationEnd := 1
    zoomStart := DEFAULT_CAMERA_DISTANCE
    zoomEnd := ZOOMED_CAMERA_DISTANCE
    cameraDistance := DEFAULT_CAMERA_DISTANCE
    earthScale := 1
    earthOpacity := 1
    warmupFramesRemaining := 0
    introProgress := 1
    velocity := 0.05 }

/-- The frame at clock value 600 ms, with Texas selected and the intro complete. -/
def midFocusEnv : FrameEnv := ⟨0.016, 600, some "Texas", false, true, 0, true⟩

/-- A globe released from a drag with velocity `0.05`. -/
def spinningScene : Scene := { initialScene with velocity := 0.05 }

/-- A globe turned one radian past the home heading, homing active. -/
def homingScene : Scene :=
  { initialScene with currentRotationY := US_CENTER_ROTATION_Y - 1, homingActive := true }

/-- A frame of 16 ms with the intro complete and no state selected. -/
def idleEnv : FrameEnv := ⟨0.016, 10000, none, false, true, 0, true⟩

/-- The frame at clock value 300 ms, with Texas selected and the intro complete. -/
def quarterFocusEnv : FrameEnv := ⟨0.016, 300, some "Texas", false, true, 0, true⟩

/-- A scene in the middle of a focus-state animation, the globe at rest. -/
def focusScene : Scene := { spinningFocusScene with velocity := 0 }

/-- A frame of 16 ms with the intro complete and Texas selected. -/
def selectedEnv : FrameEnv := ⟨0.016, 10000, some "Texas", false, true, 0, true⟩

/-- A session with two state selections and a deselection. -/
def selectionSession : List Event :=
  [ Event.stateClick "Alaska" true 0,
    Event.frame ⟨0.016, 600, some "Alaska", false, true, 0, true⟩,
    Event.frame ⟨0.016, 1300, some "Alaska", false, true, 0, true⟩,
    Event.deselection false true 2000,
    Event.frame ⟨0.016, 2400, none, false, true, 0, true⟩,
    Event.stateClick "Hawaii" true 3000,
    Event.frame ⟨0.016, 3500, some "Hawaii", false, true, 0, true⟩ ]

/-- The focus-state animation of `focusScene` with the left arrow key held
since before the animation started (keyboard velocity at its steady value). -/
def keyHeldFocusScene : Scene := { focusScene with kbLeft := true, kbVelocity := 0.025 }

/-- The frame at clock value 1200 ms, with Texas selected and the intro complete. -/
def focusDoneEnv : FrameEnv := ⟨0.016, 1200, some "Texas", false, true, 0, true⟩

/-- A store with Texas selected, a county selected and a county hovered. -/
def texasStore : Store :=
  { initialStore with
    selectedState := STATE_DATA.lookup "Texas"
    selectedCounty := some "Travis"
    hoveredCounty := some "Bexar" }

/-- The intro after its warmup, half way through, started at clock value 0. -/
def midIntroScene : Scene :=
  { startIntro 0 initialScene with warmupFramesRemaining := 0, introProgress := 0.5 }

/-- A frame at clock value 6000 ms, no state selected. -/
def lateIntroEnv : FrameEnv := ⟨0.016, 6000, none, false, false, 0, true⟩

/-- A frame at clock value 1000 ms that took 250 ms, no state selected. -/
def slowIntroEnv : FrameEnv := ⟨0.25, 1000, none, false, false, 0, true⟩

/-- A first frame after mount that took 400 ms, at clock value 9000 ms. -/
def slowFirstEnv : FrameEnv := ⟨0.4, 9000, none, false, false, 0, true⟩

/-- A frame of 16 ms at clock value 9016 ms during the intro. -/
def secondIntroEnv : FrameEnv := ⟨0.016, 9016, none, false, false, 0, true⟩

/-- A frame of 16 ms at clock value 9032 ms during the intro. -/
def thirdIntroEnv : FrameEnv := ⟨0.016, 9032, none, false, false, 0, true⟩

/-- A frame of 16 ms at clock value 9048 ms during the intro. -/
def fourthIntroEnv : FrameEnv := ⟨0.016, 9048, none, false, false, 0, true⟩

/-- The globe at rest right after an intro that completed at clock value
3600 ms without a selected state: the states fade is running. -/
def fadingScene : Scene :=
  { initialScene with
    cameraDistance := DEFAULT_CAMERA_DISTANCE
    earthScale := 1
    earthOpacity := 1
    warmupFramesRemaining := 0
    introProgress := 1
    statesFading := true
    statesFadeStartTime := 3600 }

/-- Two frames within the 800 ms of the states fade of `fadingScene`, with
Texas selected. -/
def fadeFrames : List FrameEnv :=
  [⟨0.016, 3816, some "Texas", false, true, 0, true⟩,
    ⟨0.016, 4300, some "Texas", false, true, 0, true⟩]

/-- The store after `requestStateZoom('Texas')` at creation values. -/
def texasRequestStore : Store := requestStateZoom "Texas" initialStore

/-- The globe released with a slow spin against the idle direction
(`velocity = -0.0001`). -/
def slowBackwardScene : Scene := { initialScene with velocity := -0.0001 }

/-- A scene with the camera closer than `DEFAULT_CAMERA_DISTANCE`. -/
def zoomedInScene : Scene := { initialScene with cameraDistance := 5 }

/-- The intro after its warmup, with the accumulated progress at `1`. -/
def introEndScene : Scene :=
  { startIntro 0 initialScene with warmupFramesRemaining := 0, introProgress := 1 }

/-- A frame 3600 ms after the intro start, no state selected. -/
def introEndEnv : FrameEnv := ⟨0.016, 3600, none, false, false, 0, true⟩

/-- A frame 3600 ms after the intro start, with Texas selected. -/
def introEndEnvSelected : FrameEnv := ⟨0.016, 3600, some "Texas", false, false, 0, true⟩

/-- The scene right after the frame in which the intro completes without a
selected state (clock value 3600 ms): the states fade has just started. -/
def introDoneScene : Scene := frame introEndEnv introEndScene

/-- The scene after a click on Texas 100 ms into the states fade of
`introDoneScene`. -/
def fadeClickScene : Scene :=
  (handleStateClick "Texas" true 3700 introDoneScene).getD introDoneScene

/-- A frame 200 ms into the states fade of `introDoneScene`, Texas selected. -/
def fadeEarlyEnv : FrameEnv := ⟨0.016, 3800, some "Texas", false, true, 0, true⟩

/-- A frame 400 ms into the states fade of `introDoneScene`, Texas selected. -/
def fadeLaterEnv : FrameEnv := ⟨0.016, 4000, some "Texas", false, true, 0, true⟩

/-! ## Lemmas on the numeric helpers -/

theorem jsMod_eq_sub_int (a b : ℝ) : ∃ k : ℤ, jsMod a b = a - b * (k : ℝ) :=
  ⟨truncQuot (a / b), rfl⟩

theorem jsMod_of_nonneg {a b : ℝ} (ha : 0 ≤ a) (hb : 0 < b) :
    0 ≤ jsMod a b ∧ jsMod a b < b := by
  have hq : 0 ≤ a / b := div_nonneg ha hb.le
  have hfl : ((⌊a / b⌋ : ℤ) : ℝ) ≤ a / b := Int.floor_le _
  have hlt : a / b < (⌊a / b⌋ : ℝ) + 1 := Int.lt_floor_add_one _
  have hab : a / b * b = a := div_mul_cancel₀ a hb.ne'
  simp only [jsMod, truncQuot, if_pos hq]
  constructor
  · nlinarith
  · nlinarith

theorem jsMod_abs_lt (a : ℝ) {b : ℝ} (hb : 0 < b) : -b < jsMod a b ∧ jsMod a b < b := by
  by_cases ha : 0 ≤ a
  · have h := jsMod_of_nonneg ha hb
    exact ⟨by linarith, h.2⟩
  · have ha' : a < 0 := lt_of_not_ge ha
    have hq : ¬ 0 ≤ a / b := not_le.mpr (div_neg_of_neg_of_pos ha' hb)
    have hce : a / b ≤ (⌈a / b⌉ : ℝ) := Int.le_ceil _
    have hlt : (⌈a / b⌉ : ℝ) < a / b + 1 := Int.ceil_lt_add_one _
    have hab : a / b * b = a := div_mul_cancel₀ a hb.ne'
    simp only [jsMod, truncQuot, if_neg hq]
    constructor
    · nlinarith
    · nlinarith

theorem shortAngleDist_range (frm tgt : ℝ) :
    -Real.pi ≤ shortAngleDist frm tgt ∧ shortAngleDist frm tgt < Real.pi := by
  have hpi : 0 < Real.pi := Real.pi_pos
  have h2 : (0 : ℝ) < 2 * Real.pi := by linarith
  have h1 := jsMod_abs_lt (tgt - frm) h2
  have h3 : 0 ≤ jsMod (tgt - frm) (2 * Real.pi) + 3 * Real.pi := by linarith [h1.1]
  have h4 := jsMod_of_nonneg h3 h2
  unfold shortAngleDist
  constructor
  · linarith [h4.1]
  · linarith [h4.2]

theorem shortAngleDist_congr (frm tgt : ℝ) :
    ∃ k : ℤ, frm + shortAngleDist frm tgt - tgt = (k : ℝ) * (2 * Real.pi) := by
  obtain ⟨k1, hk1⟩ := jsMod_eq_sub_int (tgt - frm) (2 * Real.pi)
  obtain ⟨k2, hk2⟩ :=
    jsMod_eq_sub_int (jsMod (tgt - frm) (2 * Real.pi) + 3 * Real.pi) (2 * Real.pi)
  refine ⟨1 - k1 - k2, ?_⟩
  unfold shortAngleDist
  rw [hk2, hk1]
  push_cast
  ring

theorem expSmooth_target_sub (current target speed dt : ℝ) :
    target - expSmooth current target speed dt
      = (target - current) * Real.exp (-speed * dt) := by
  unfold expSmooth
  ring

theorem expSmooth_compose (current target speed dt1 dt2 : ℝ) :
    expSmooth (expSmooth current target speed dt1) target speed dt2
      = expSmooth current target speed (dt1 + dt2) := by
  have h : Real.exp (-speed * (dt1 + dt2))
      = Real.exp (-speed * dt1) * Real.exp (-speed * dt2) := by
    rw [← Real.exp_add]
    congr 1
    ring
  unfold expSmooth
  rw [h]
  ring

theorem expSmoothIter_eq (target speed dt : ℝ) (n : ℕ) (current : ℝ) :
    expSmoothIter target speed dt n current
      = expSmooth current target speed ((n : ℝ) * dt) := by
  induction n generalizing current with
  | zero => simp [expSmoothIter, expSmooth]
  | succ n ih =>
    rw [expSmoothIter, ih, expSmooth_compose]
    congr 1
    push_cast
    ring

/-! ## Claims on the smoothing primitive and the angular distance -/

/-- C1: `expSmooth` is frame-rate independent: two successive calls towards
the same target with time steps `dt1`, `dt2` equal one call with
`dt1 + dt2`, and for every `N ≥ 1`, `N` calls with `dt = D / N` equal one
call with `dt = D`. -/
theorem expSmooth_frame_rate_independent
    (current target speed dt1 dt2 D : ℝ) (N : ℕ) (hN : 1 ≤ N) :
    expSmooth (expSmooth current target speed dt1) target speed dt2
        = expSmooth current target speed (dt1 + dt2)
      ∧ expSmoothIter target speed (D / (N : ℝ)) N current
        = expSmooth current target speed D := by
  refine ⟨expSmooth_compose current target speed dt1 dt2, ?_⟩
  have hN0 : (N : ℝ) ≠ 0 := by
    have : 0 < N := hN
    exact_mod_cast this.ne'
  rw [expSmoothIter_eq, mul_div_cancel₀ D hN0]

theorem expSmooth_frame_rate_independent_witness :
    (1 : ℕ) ≤ 4
      ∧ expSmooth (expSmooth 0 1 5 (1 / 60)) 1 5 (1 / 30) = expSmooth 0 1 5 (1 / 60 + 1 / 30)
      ∧ expSmoothIter 1 5 (2 / ((4 : ℕ) : ℝ)) 4 0 = expSmooth 0 1 5 2 :=
  ⟨by decide, expSmooth_frame_rate_independent 0 1 5 (1 / 60) (1 / 30) 2 4 (by decide)⟩

/-- C2: for headings `a, b ∈ [0, 2π)`, `shortAngleDist a b` has magnitude at
most `π`, and `a + shortAngleDist a b` differs from `b` by an integer multiple
of `2π`. -/
theorem shortAngleDist_shortest_path (a b : ℝ)
    (ha : 0 ≤ a ∧ a < 2 * Real.pi) (hb : 0 ≤ b ∧ b < 2 * Real.pi) :
    |shortAngleDist a b| ≤ Real.pi
      ∧ ∃ k : ℤ, a + shortAngleDist a b - b = (k : ℝ) * (2 * Real.pi) := by
  have _ := ha
  have _ := hb
  have h := shortAngleDist_range a b
  exact ⟨abs_le.mpr ⟨h.1, h.2.le⟩, shortAngleDist_congr a b⟩

theorem shortAngleDist_shortest_path_witness :
    ((0 : ℝ) ≤ 0 ∧ (0 : ℝ) < 2 * Real.pi) ∧ ((0 : ℝ) ≤ 1 ∧ (1 : ℝ) < 2 * Real.pi)
      ∧ |shortAngleDist 0 1| ≤ Real.pi
      ∧ ∃ k : ℤ, 0 + shortAngleDist 0 1 - 1 = (k : ℝ) * (2 * Real.pi) :=
  have h0 : (0 : ℝ) ≤ 0 ∧ (0 : ℝ) < 2 * Real.pi := ⟨le_refl 0, by linarith [Real.pi_pos]⟩
  have h1 : (0 : ℝ) ≤ 1 ∧ (1 : ℝ) < 2 * Real.pi := ⟨zero_le_one, by linarith [Real.pi_gt_three]⟩
  ⟨h0, h1, shortAngleDist_shortest_path 0 1 h0 h1⟩

/-- The value of `shortAngleDist` at exactly antipodal headings `0` and `π`. -/
theorem shortAngleDist_zero_pi : shortAngleDist 0 Real.pi = -Real.pi := by
  have hpi : 0 < Real.pi := Real.pi_pos
  have h1 : jsMod (Real.pi - 0) (2 * Real.pi) = Real.pi := by
    have hq : (Real.pi - 0) / (2 * Real.pi) = 1 / 2 := by
      field_simp
      ring
    have hfl : ⌊(1 / 2 : ℝ)⌋ = 0 := by
      rw [Int.floor_eq_iff]
      norm_num
    simp only [jsMod, truncQuot, hq]
    rw [if_pos (by norm_num), hfl]
    simp
  have h2 : jsMod (Real.pi + 3 * Real.pi) (2 * Real.pi) = 0 := by
    have hq : (Real.pi + 3 * Real.pi) / (2 * Real.pi) = 2 := by
      field_simp
      ring
    have hfl : ⌊(2 : ℝ)⌋ = 2 := by
      rw [Int.floor_eq_iff]
      norm_num
    simp only [jsMod, truncQuot, hq]
    rw [if_pos (by norm_num), hfl]
    push_cast
    ring
  unfold shortAngleDist
  rw [h1, h2]
  ring

/-- C3 (as stated, refuted): at the antipodal headings `from = 0`, `to = π`
the result is not in `(-π, π]` and is not `+π`. -/
theorem shortAngleDist_antipodal_counterexample :
    ¬ (-Real.pi < shortAngleDist 0 Real.pi ∧ shortAngleDist 0 Real.pi ≤ Real.pi)
      ∧ shortAngleDist 0 Real.pi ≠ Real.pi := by
  rw [shortAngleDist_zero_pi]
  have hpi : 0 < Real.pi := Real.pi_pos
  constructor
  · intro h
    exact lt_irrefl _ h.1
  · intro h
    linarith

/-- C3 (amended): for all real `from` and `to` the result of `shortAngleDist`
lies in the half-open interval `[-π, π)`, and at the antipodal headings
`from = 0`, `to = π` it is `-π`. -/
theorem shortAngleDist_interval (frm tgt : ℝ) :
    (-Real.pi ≤ shortAngleDist frm tgt ∧ shortAngleDist frm tgt < Real.pi)
      ∧ shortAngleDist 0 Real.pi = -Real.pi :=
  ⟨shortAngleDist_range frm tgt, shortAngleDist_zero_pi⟩

/-! ## The `normalizeAngle` loops compute a representative in `[0, 2π)` -/

theorem normalizeAngleUp_spec (angle : ℝ) :
    0 ≤ normalizeAngleUp angle
      ∧ (angle < Real.pi * 2 → normalizeAngleUp angle < Real.pi * 2)
      ∧ ∃ k : ℤ, normalizeAngleUp angle = angle + (k : ℝ) * (2 * Real.pi) := by
  induction angle using normalizeAngleUp.induct with
  | case1 x hx ih =>
    obtain ⟨h0, h1, k, hk⟩ := ih
    rw [normalizeAngleUp, dif_pos hx]
    refine ⟨h0, fun _ => h1 (by linarith), k + 1, ?_⟩
    rw [hk]
    push_cast
    ring
  | case2 x hx =>
    rw [normalizeAngleUp, dif_neg hx]
    exact ⟨not_lt.mp hx, fun h => h, 0, by simp⟩

theorem normalizeAngleDown_spec (angle : ℝ) :
    normalizeAngleDown angle < Real.pi * 2
      ∧ (0 ≤ angle → 0 ≤ normalizeAngleDown angle)
      ∧ ∃ k : ℤ, normalizeAngleDown angle = angle + (k : ℝ) * (2 * Real.pi) := by
  induction angle using normalizeAngleDown.induct with
  | case1 x hx ih =>
    obtain ⟨h0, h1, k, hk⟩ := ih
    rw [normalizeAngleDown, dif_pos hx]
    refine ⟨h0, fun _ => h1 (by linarith), k - 1, ?_⟩
    rw [hk]
    push_cast
    ring
  | case2 x hx =>
    rw [normalizeAngleDown, dif_neg hx]
    exact ⟨not_le.mp hx, fun h => h, 0, by simp⟩

theorem normalizeAngle_spec (angle : ℝ) :
    (0 ≤ normalizeAngle angle ∧ normalizeAngle angle < Real.pi * 2)
      ∧ ∃ k : ℤ, normalizeAngle angle = angle + (k : ℝ) * (2 * Real.pi) := by
  obtain ⟨hu0, _, ku, hku⟩ := normalizeAngleUp_spec angle
  obtain ⟨hd0, hd1, kd, hkd⟩ := normalizeAngleDown_spec (normalizeAngleUp angle)
  refine ⟨⟨hd1 hu0, hd0⟩, ku + kd, ?_⟩
  unfold normalizeAngle
  rw [hkd, hku]
  push_cast
  ring

/-- The wrap of a difference of two normalised angles by `±2π`, as inlined in
`handleStateClick`: magnitude at most `π`, congruent to the difference. -/
theorem wrapped_diff_spec (current target : ℝ) :
    let diff0 := normalizeAngle target - normalizeAngle current
    let diff1 := if diff0 > Real.pi then diff0 - Real.pi * 2 else diff0
    let diff := if diff1 < -Real.pi then diff1 + Real.pi * 2 else diff1
    |diff| ≤ Real.pi ∧ ∃ k : ℤ, current + diff - target = (k : ℝ) * (2 * Real.pi) := by
  intro diff0 diff1 diff
  have hpi : 0 < Real.pi := Real.pi_pos
  obtain ⟨⟨hc0, hc1⟩, kc, hkc⟩ := normalizeAngle_spec current
  obtain ⟨⟨ht0, ht1⟩, kt, hkt⟩ := normalizeAngle_spec target
  have hd0 : diff0 = target - current + ((kt - kc : ℤ) : ℝ) * (2 * Real.pi) := by
    show normalizeAngle target - normalizeAngle current = _
    rw [hkc, hkt]
    push_cast
    ring
  have hlo : -(Real.pi * 2) < diff0 := by
    show -(Real.pi * 2) < normalizeAngle target - normalizeAngle current
    linarith
  have hhi : diff0 < Real.pi * 2 := by
    show normalizeAngle target - normalizeAngle current < Real.pi * 2
    linarith
  by_cases h1 : diff0 > Real.pi
  · have e1 : diff1 = diff0 - Real.pi * 2 := if_pos h1
    have h2 : ¬ diff1 < -Real.pi := by rw [e1]; linarith
    have e2 : diff = diff0 - Real.pi * 2 := by
      show (if diff1 < -Real.pi then diff1 + Real.pi * 2 else diff1) = _
      rw [if_neg h2, e1]
    refine ⟨?_, kt - kc - 1, ?_⟩
    · rw [e2, abs_le]
      constructor <;> linarith
    · rw [e2, hd0]
      push_cast
      ring
  · have e1 : diff1 = diff0 := if_neg h1
    by_cases h2 : diff1 < -Real.pi
    · have e2 : diff = diff0 + Real.pi * 2 := by
        show (if diff1 < -Real.pi then diff1 + Real.pi * 2 else diff1) = _
        rw [if_pos h2, e1]
      rw [e1] at h2
      refine ⟨?_, kt - kc + 1, ?_⟩
      · rw [e2, abs_le]
        constructor <;> linarith
      · rw [e2, hd0]
        push_cast
        ring
    · have e2 : diff = diff0 := by
        show (if diff1 < -Real.pi then diff1 + Real.pi * 2 else diff1) = _
        rw [if_neg h2, e1]
      rw [e1] at h2
      refine ⟨?_, kt - kc, ?_⟩
      · rw [e2, abs_le]
        constructor <;> linarith
      · rw [e2, hd0]
        push_cast
        ring

theorem easeInOutCubic_one : easeInOutCubic 1 = 1 := by
  unfold easeInOutCubic
  rw [if_neg (by norm_num)]
  norm_num

/-! ## Claims on the start routines and the pointer release -/

/-- C7: idempotent intro start: while `animationType` is `'intro'` the
intro-start routine changes no field of the state, and calling it twice in a
row yields the same state as calling it once. -/
theorem startIntro_idempotent (s : Scene) (now : ℝ)
    (h : s.animationType = some AnimationType.intro) :
    startIntro now s = s
      ∧ ∀ (s0 : Scene) (t1 t2 : ℝ), startIntro t2 (startIntro t1 s0) = startIntro t1 s0 := by
  have key : ∀ (s1 : Scene) (t : ℝ), s1.animationType = some AnimationType.intro →
      startIntro t s1 = s1 := by
    intro s1 t h1
    unfold startIntro
    rw [if_pos h1]
  refine ⟨key s now h, ?_⟩
  intro s0 t1 t2
  apply key
  unfold startIntro
  split_ifs with h0
  · exact h0
  · rfl

theorem startIntro_idempotent_witness :
    (startIntro 0 initialScene).animationType = some AnimationType.intro
      ∧ startIntro 250 (startIntro 0 initialScene) = startIntro 0 initialScene
      ∧ ∀ (s0 : Scene) (t1 t2 : ℝ), startIntro t2 (startIntro t1 s0) = startIntro t1 s0 :=
  have h : (startIntro 0 initialScene).animationType = some AnimationType.intro := by
    simp [startIntro, initialScene]
  ⟨h, startIntro_idempotent (startIntro 0 initialScene) 250 h⟩

/-- C8 (amended): pause-before-release rule: a mouse-up during a drag clears
`isDragging`, sets the velocity to exactly `0` when more than 80 ms passed
since the last move sample and otherwise (also at exactly 80 ms) leaves the
velocity at the last smoothed sample, so the velocity after the release is
`0` if and only if the gap exceeds 80 ms or the last sample was already `0`;
a mouse-up without a drag changes nothing. -/
theorem handleMouseUp_pause_rule (s : Scene) (now : ℝ) :
    (s.isDragging = true →
        (handleMouseUp now s).isDragging = false
          ∧ (now - s.lastMoveTime > 80 → (handleMouseUp now s).velocity = 0)
          ∧ (now - s.lastMoveTime ≤ 80 → (handleMouseUp now s).velocity = s.velocity)
          ∧ ((handleMouseUp now s).velocity = 0
              ↔ (now - s.lastMoveTime > 80 ∨ s.velocity = 0)))
      ∧ (s.isDragging = false → handleMouseUp now s = s) := by
  constructor
  · intro hd
    unfold handleMouseUp
    rw [if_pos hd]
    refine ⟨rfl, ?_, ?_, ?_⟩
    · intro h
      show (if now - s.lastMoveTime > 80 then (0 : ℝ) else s.velocity) = 0
      rw [if_pos h]
    · intro h
      show (if now - s.lastMoveTime > 80 then (0 : ℝ) else s.velocity) = s.velocity
      rw [if_neg (not_lt.mpr h)]
    · show (if now - s.lastMoveTime > 80 then (0 : ℝ) else s.velocity) = 0 ↔ _
      by_cases h : now - s.lastMoveTime > 80
      · rw [if_pos h]
        exact ⟨fun _ => Or.inl h, fun _ => rfl⟩
      · rw [if_neg h]
        exact ⟨fun h0 => Or.inr h0, fun h1 => h1.resolve_left h⟩
  · intro hd
    unfold handleMouseUp
    rw [if_neg (by simp [hd])]

/-- C8 (as stated, refuted): a press at clock value 100 followed by a
release at 110 without a move in between: the drag is active, the velocity
after the release is exactly `0`, and yet the time since the last move
sample, 10 ms, is not greater than 80 ms. -/
theorem handleMouseUp_click_counterexample :
    (handleMouseDown 0 50 100 initialScene).isDragging = true
      ∧ ¬ ((handleMouseUp 110 (handleMouseDown 0 50 100 initialScene)).velocity = 0
          ↔ 110 - (handleMouseDown 0 50 100 initialScene).lastMoveTime > 80) := by
  have hdown : handleMouseDown 0 50 100 initialScene
      = { initialScene with
          isDragging := true
          homingActive := false
          velocity := 0
          startX := 50
          startRotation := initialScene.currentRotationY
          lastMouseX := 50
          lastMoveTime := 100 } := by
    unfold handleMouseDown
    rw [if_neg (by simp), if_neg (by simp [initialScene]), if_neg (by simp [initialScene])]
  rw [hdown]
  refine ⟨rfl, ?_⟩
  intro hiff
  have hv : (handleMouseUp 110 { initialScene with
      isDragging := true
      homingActive := false
      velocity := 0
      startX := 50
      startRotation := initialScene.currentRotationY
      lastMouseX := 50
      lastMoveTime := 100 }).velocity = 0 := by
    unfold handleMouseUp
    dsimp only
    rw [if_pos rfl]
    dsimp only
    rw [if_neg (by norm_num)]
  have hgap := hiff.mp hv
  norm_num at hgap

/-- C9: shortest-path focus rotation: the yaw end value stored by an
accepted state click differs from the current yaw by at most `π` and is
congruent modulo `2π` to the state's target rotation `-(lon + 90)·π/180`. -/
theorem handleStateClick_shortest_path (s s' : Scene) (stateName : String)
    (introComplete : Bool) (now : ℝ)
    (h : handleStateClick stateName introComplete now s = some s') :
    |s'.rotationEnd - s.currentRotationY| ≤ Real.pi
      ∧ ∃ k : ℤ, s'.rotationEnd - getRotationForLongitude (targetLatLon stateName).2
          = (k : ℝ) * (2 * Real.pi) := by
  have hw := wrapped_diff_spec s.currentRotationY
    (getRotationForLongitude (targetLatLon stateName).2)
  dsimp only at hw
  obtain ⟨h1, k, hk⟩ := hw
  unfold handleStateClick at h
  dsimp only at h
  by_cases hg : s.isAnimating = true ∨ ¬ (introComplete = true ∨ s.earthOpacity > 0.5)
  · rw [if_pos hg] at h
    exact absurd h (by simp)
  · rw [if_neg hg] at h
    simp only [Option.some.injEq] at h
    subst h
    simp only [startFocusAnimation]
    refine ⟨?_, k, ?_⟩
    · rw [add_sub_cancel_left]
      exact h1
    · rw [← hk]

/-- C10: zoom-out holds yaw and resets pitch: for every state,
`startZoomAnimation` stores yaw end = yaw start = current yaw and pitch
end = 0; the zoom-out interpolation then yields the yaw at start for every
clock value (every progress), and pitch `0` and distance `targetZoom` once
the elapsed time has reached the duration (progress 1). -/
theorem startZoomAnimation_holds_yaw (s : Scene) (targetZoom duration now : ℝ)
    (envDone : FrameEnv) (hd : 0 < duration)
    (hdone : duration * 1000 ≤ envDone.now - now) :
    (startZoomAnimation targetZoom duration now s).rotationStart = s.currentRotationY
      ∧ (startZoomAnimation targetZoom duration now s).rotationEnd = s.currentRotationY
      ∧ (startZoomAnimation targetZoom duration now s).rotationXEnd = 0
      ∧ (∀ env : FrameEnv,
          (regularAnimationStep env
              (startZoomAnimation targetZoom duration now s)).currentRotationY
              = s.currentRotationY
            ∧ (fadeOrAnimateStep env
              (startZoomAnimation targetZoom duration now s)).currentRotationY
              = s.currentRotationY)
      ∧ (regularAnimationStep envDone
          (startZoomAnimation targetZoom duration now s)).currentRotationX = 0
      ∧ (regularAnimationStep envDone
          (startZoomAnimation targetZoom duration now s)).cameraDistance = targetZoom := by
  have hpos : 0 < duration * 1000 := by linarith
  have hprog : min ((envDone.now - now) / (duration * 1000)) 1 = 1 := by
    apply min_eq_right
    rw [le_div_iff₀ hpos]
    linarith
  have hyaw : ∀ env : FrameEnv, (regularAnimationStep env
      (startZoomAnimation targetZoom duration now s)).currentRotationY = s.currentRotationY := by
    intro env
    unfold regularAnimationStep startZoomAnimation
    dsimp only
    split_ifs <;> simp
  refine ⟨rfl, rfl, rfl, fun env => ⟨hyaw env, ?_⟩, ?_, ?_⟩
  · unfold fadeOrAnimateStep
    dsimp only
    split_ifs
    · rfl
    · rfl
    · exact hyaw env
    · rfl
  · unfold regularAnimationStep startZoomAnimation
    dsimp only
    rw [hprog, easeInOutCubic_one, if_pos (le_refl _)]
    dsimp only
    ring
  · unfold regularAnimationStep startZoomAnimation
    dsimp only
    rw [hprog, easeInOutCubic_one, if_pos (le_refl _)]
    dsimp only
    ring

theorem startZoomAnimation_holds_yaw_witness :
    (0 : ℝ) < 0.8
      ∧ (startZoomAnimation DEFAULT_CAMERA_DISTANCE 0.8 0 initialScene).rotationStart
          = initialScene.currentRotationY
      ∧ (startZoomAnimation DEFAULT_CAMERA_DISTANCE 0.8 0 initialScene).rotationEnd
          = initialScene.currentRotationY
      ∧ (startZoomAnimation DEFAULT_CAMERA_DISTANCE 0.8 0 initialScene).rotationXEnd = 0
      ∧ (∀ env : FrameEnv,
          (regularAnimationStep env
              (startZoomAnimation DEFAULT_CAMERA_DISTANCE 0.8 0 initialScene)).currentRotationY
              = initialScene.currentRotationY
            ∧ (fadeOrAnimateStep env
              (startZoomAnimation DEFAULT_CAMERA_DISTANCE 0.8 0 initialScene)).currentRotationY
              = initialScene.currentRotationY)
      ∧ (regularAnimationStep ⟨0.016, 800, none, false, true, 0, true⟩
          (startZoomAnimation DEFAULT_CAMERA_DISTANCE 0.8 0 initialScene)).currentRotationX = 0
      ∧ (regularAnimationStep ⟨0.016, 800, none, false, true, 0, true⟩
          (startZoomAnimation DEFAULT_CAMERA_DISTANCE 0.8 0 initialScene)).cameraDistance
          = DEFAULT_CAMERA_DISTANCE :=
  ⟨by norm_num,
    startZoomAnimation_holds_yaw initialScene DEFAULT_CAMERA_DISTANCE 0.8 0
      ⟨0.016, 800, none, false, true, 0, true⟩ (by norm_num) (by norm_num)⟩

theorem handleStateClick_shortest_path_witness :
    ∃ s' : Scene, handleStateClick "Texas" true 0 initialScene = some s'
      ∧ |s'.rotationEnd - initialScene.currentRotationY| ≤ Real.pi
      ∧ ∃ k : ℤ, s'.rotationEnd - getRotationForLongitude (targetLatLon "Texas").2
          = (k : ℝ) * (2 * Real.pi) :=
  have h : handleStateClick "Texas" true 0 initialScene = some _ := by
    unfold handleStateClick
    dsimp only
    rw [if_neg (by simp [initialScene])]
  ⟨_, h, handleStateClick_shortest_path initialScene _ "Texas" true 0 h⟩

theorem handleMouseUp_pause_rule_witness :
    (handleMouseUp 300 draggingScene).velocity = 0
      ∧ (handleMouseUp 180 draggingScene).velocity = 0.05
      ∧ (handleMouseUp 300 draggingScene).isDragging = false :=
  ⟨((handleMouseUp_pause_rule draggingScene 300).1 rfl).2.1 (by norm_num [draggingScene]),
    ((handleMouseUp_pause_rule draggingScene 180).1 rfl).2.2.1 (by norm_num [draggingScene]),
    ((handleMouseUp_pause_rule draggingScene 300).1 rfl).1⟩

/-! ## The velocity through the steps -/

theorem introStep_velocity (env : FrameEnv) (s : Scene) :
    (introStep env s).velocity = s.velocity := by
  unfold introStep introCompleteStep
  dsimp only
  split_ifs <;> first | rfl | (split <;> rfl)

theorem fadeOrAnimateStep_velocity (env : FrameEnv) (s : Scene) :
    (fadeOrAnimateStep env s).velocity = s.velocity := by
  unfold fadeOrAnimateStep regularAnimationStep
  dsimp only
  split_ifs <;> rfl

theorem momentumStep_velocity_le (env : FrameEnv) (s : Scene) (h : |s.velocity| ≤ 0.08) :
    |(momentumStep env s).velocity| ≤ 0.08 := by
  unfold momentumStep
  split_ifs
  · show |s.velocity * MOMENTUM_FRICTION| ≤ 0.08
    rw [abs_mul]
    have hf : |MOMENTUM_FRICTION| ≤ 1 := by
      unfold MOMENTUM_FRICTION
      rw [abs_le]
      constructor <;> norm_num
    have h0 : 0 ≤ |s.velocity| := abs_nonneg _
    have h1 : 0 ≤ |MOMENTUM_FRICTION| := abs_nonneg _
    nlinarith
  · exact h

theorem springStep_velocity_le (env : FrameEnv) (s : Scene) (h : |s.velocity| ≤ 0.08) :
    |(springStep env s).velocity| ≤ 0.08 := by
  unfold springStep
  dsimp only
  split_ifs
  · show |SPRING_EASE_VELOCITY * IDLE_DIRECTION| ≤ 0.08
    unfold SPRING_EASE_VELOCITY IDLE_DIRECTION
    rw [abs_le]
    constructor <;> norm_num
  · show |(0 : ℝ)| ≤ 0.08
    norm_num
  · exact h

theorem finalStopStep_velocity_le (s : Scene) (h : |s.velocity| ≤ 0.08) :
    |(finalStopStep s).velocity| ≤ 0.08 := by
  unfold finalStopStep
  split_ifs
  · show |(0 : ℝ)| ≤ 0.08
    norm_num
  · exact h

theorem scrollProgressStep_velocity (env : FrameEnv) (s : Scene) :
    (scrollProgressStep env s).velocity = s.velocity := rfl

theorem scrollRotateStep_velocity (env : FrameEnv) (c : Prop) [Decidable c] (d : ℝ)
    (s : Scene) : (scrollRotateStep env c d s).velocity = s.velocity := by
  unfold scrollRotateStep
  split_ifs <;> rfl

theorem homingStep_velocity (env : FrameEnv) (c : Prop) [Decidable c] (s : Scene) :
    (homingStep env c s).velocity = s.velocity := by
  unfold homingStep
  dsimp only
  split_ifs <;> rfl

theorem scrollDrainStep_velocity (env : FrameEnv) (c : Prop) [Decidable c] (s : Scene) :
    (scrollDrainStep env c s).velocity = s.velocity := by
  unfold scrollDrainStep
  dsimp only
  split_ifs <;> rfl

theorem prevScrollStep_velocity (s : Scene) : (prevScrollStep s).velocity = s.velocity := rfl

theorem keyboardStep_velocity_le (env : FrameEnv) (s : Scene) (h : |s.velocity| ≤ 0.08) :
    |(keyboardStep env s).velocity| ≤ 0.08 := by
  unfold keyboardStep
  dsimp only
  split_ifs <;> first
    | exact h
    | (show |s.kbVelocity * 0.92 * 2| ≤ 0.08
       rw [abs_mul, abs_of_pos (by norm_num : (0 : ℝ) < 2)]
       linarith)

theorem idleStep_velocity (env : FrameEnv) (p q : Prop) [Decidable p] [Decidable q]
    (s : Scene) : (idleStep env p q s).velocity = s.velocity := by
  unfold idleStep
  dsimp only
  split_ifs <;> rfl

theorem scrollCameraStep_velocity (env : FrameEnv) (s : Scene) :
    (scrollCameraStep env s).velocity = s.velocity := by
  unfold scrollCameraStep
  dsimp only
  split_ifs <;> rfl

theorem motionSteps_velocity_le (env : FrameEnv) (s : Scene) (h : |s.velocity| ≤ 0.08) :
    |(motionSteps env s).velocity| ≤ 0.08 := by
  unfold motionSteps
  dsimp only
  rw [scrollCameraStep_velocity, idleStep_velocity]
  apply keyboardStep_velocity_le
  rw [prevScrollStep_velocity, scrollDrainStep_velocity, homingStep_velocity,
    scrollRotateStep_velocity, scrollProgressStep_velocity]
  exact finalStopStep_velocity_le _ (springStep_velocity_le env _ (momentumStep_velocity_le env _ h))

theorem frame_velocity_le (env : FrameEnv) (s : Scene) (h : |s.velocity| ≤ 0.08) :
    |(frame env s).velocity| ≤ 0.08 := by
  unfold frame
  apply motionSteps_velocity_le
  rw [fadeOrAnimateStep_velocity, introStep_velocity]
  exact h

theorem handleMouseMove_velocity_le (clientX now : ℝ) (s : Scene) (h : |s.velocity| ≤ 0.08) :
    |(handleMouseMove clientX now s).velocity| ≤ 0.08 := by
  unfold handleMouseMove
  dsimp only
  split_ifs
  · exact h
  · show |max (-0.08 : ℝ) (min 0.08 _)| ≤ 0.08
    rw [abs_le]
    constructor
    · exact le_max_left _ _
    · exact max_le (by norm_num) (min_le_left _ _)
  · exact h

theorem step_velocity_le (s : Scene) (e : Event) (h : |s.velocity| ≤ 0.08) :
    |(step s e).velocity| ≤ 0.08 := by
  have hz : |(0 : ℝ)| ≤ 0.08 := by norm_num
  cases e with
  | introStart now =>
    show |(startIntro now s).velocity| ≤ 0.08
    unfold startIntro
    split_ifs <;> exact h
  | focusStart ry rx zoom duration now => exact h
  | zoomStart zoom duration now => exact h
  | stateClick name introComplete now =>
    show |((handleStateClick name introComplete now s).getD s).velocity| ≤ 0.08
    unfold handleStateClick
    dsimp only
    by_cases hg : s.isAnimating = true ∨ ¬ (introComplete = true ∨ s.earthOpacity > 0.5)
    · rw [if_pos hg]
      exact h
    · rw [if_neg hg]
      exact h
  | deselection stateSelected introComplete now =>
    show |(handleDeselection stateSelected introComplete now s).velocity| ≤ 0.08
    unfold handleDeselection
    dsimp only
    split_ifs <;> exact h
  | mouseDown button clientX now =>
    show |(handleMouseDown button clientX now s).velocity| ≤ 0.08
    unfold handleMouseDown
    split_ifs
    · exact h
    · exact h
    · exact h
    · exact hz
  | mouseMove clientX now => exact handleMouseMove_velocity_le clientX now s h
  | mouseUp now =>
    show |(handleMouseUp now s).velocity| ≤ 0.08
    unfold handleMouseUp
    dsimp only
    split_ifs <;> first | exact h | exact hz
  | mouseLeave =>
    show |(handleMouseLeave s).velocity| ≤ 0.08
    unfold handleMouseLeave
    split_ifs <;> exact h
  | hoverChange isHovering => exact h
  | keyDown key introComplete now =>
    show |(handleKeyDown key introComplete now s).velocity| ≤ 0.08
    unfold handleKeyDown
    split_ifs
    · exact h
    · cases key <;> exact h
  | keyUp key =>
    show |(handleKeyUp key s).velocity| ≤ 0.08
    unfold handleKeyUp
    cases key <;> exact h
  | frame env => exact frame_velocity_le env s h

theorem run_velocity_le (events : List Event) (s : Scene) (h : |s.velocity| ≤ 0.08) :
    |(run s events).velocity| ≤ 0.08 := by
  induction events generalizing s with
  | nil => exact h
  | cons e es ih => exact ih (step s e) (step_velocity_le s e h)

/-- C5: velocity bound invariant: starting from the initial state (velocity
`0`), after any sequence of events (mouse-down, mouse-move, mouse-up, the
other handlers, and frame runs with their momentum friction, spring
ease-back, final stop check and keyboard hand-off) the momentum velocity
satisfies `|velocity| ≤ 0.08`. -/
theorem velocity_bound_invariant (events : List Event) :
    initialScene.velocity = 0 ∧ |(run initialScene events).velocity| ≤ 0.08 :=
  ⟨rfl, run_velocity_le events initialScene (by
    show |(0 : ℝ)| ≤ 0.08
    norm_num)⟩

/-! ## The camera distance through the steps -/

theorem zoomed_le_default : ZOOMED_CAMERA_DISTANCE ≤ DEFAULT_CAMERA_DISTANCE := by
  unfold ZOOMED_CAMERA_DISTANCE DEFAULT_CAMERA_DISTANCE CAMERA_Y
  apply Real.sqrt_le_sqrt
  norm_num

theorem default_le_intro_start : DEFAULT_CAMERA_DISTANCE ≤ INTRO_START_DISTANCE := by
  unfold DEFAULT_CAMERA_DISTANCE INTRO_START_DISTANCE CAMERA_Y
  rw [Real.sqrt_le_left (by norm_num)]
  norm_num

theorem lerp_mem {lo hi a b e : ℝ} (ha : lo ≤ a ∧ a ≤ hi) (hb : lo ≤ b ∧ b ≤ hi)
    (he0 : 0 ≤ e) (he1 : e ≤ 1) :
    lo ≤ a + (b - a) * e ∧ a + (b - a) * e ≤ hi := by
  have h1 : 0 ≤ 1 - e := by linarith
  constructor
  · nlinarith [mul_nonneg he0 (sub_nonneg.mpr hb.1), mul_nonneg h1 (sub_nonneg.mpr ha.1)]
  · nlinarith [mul_nonneg he0 (sub_nonneg.mpr hb.2), mul_nonneg h1 (sub_nonneg.mpr ha.2)]

theorem easeInOutCubic_mem {t : ℝ} (h0 : 0 ≤ t) (h1 : t ≤ 1) :
    0 ≤ easeInOutCubic t ∧ easeInOutCubic t ≤ 1 := by
  unfold easeInOutCubic
  split_ifs with h
  · have h3 : 0 ≤ t * t * t := by positivity
    have h4 : t * t * t ≤ 0.5 * 0.5 * 0.5 := by
      have ht : t ≤ 0.5 := h.le
      have h5 : t * t ≤ 0.5 * 0.5 := mul_le_mul ht ht h0 (by norm_num)
      exact mul_le_mul h5 ht h0 (by norm_num)
    constructor
    · nlinarith
    · nlinarith
  · have hu0 : 0 ≤ -2 * t + 2 := by linarith
    have hu1 : -2 * t + 2 ≤ 1 := by
      have : (0.5 : ℝ) ≤ t := not_lt.mp h
      linarith
    have hp0 : 0 ≤ (-2 * t + 2) ^ 3 := pow_nonneg hu0 3
    have hp1 : (-2 * t + 2) ^ 3 ≤ 1 := pow_le_one₀ hu0 hu1
    constructor
    · linarith
    · linarith

theorem easeOutSpaceZoom_mem {t : ℝ} (h0 : 0 ≤ t) (h1 : t ≤ 1) :
    0 ≤ easeOutSpaceZoom t ∧ easeOutSpaceZoom t ≤ 1 := by
  have hp0 : 0 < (2 : ℝ) ^ (-12 * t) := Real.rpow_pos_of_pos (by norm_num) _
  have hp1 : (2 : ℝ) ^ (-12 * t) ≤ 1 :=
    Real.rpow_le_one_of_one_le_of_nonpos (by norm_num) (by linarith)
  have hu0 : 0 ≤ 1 - t := by linarith
  have hu1 : 1 - t ≤ 1 := by linarith
  have hq0 : 0 ≤ (1 - t) ^ 5 := pow_nonneg hu0 5
  have hq1 : (1 - t) ^ 5 ≤ 1 := pow_le_one₀ hu0 hu1
  unfold easeOutSpaceZoom
  dsimp only
  constructor
  · nlinarith
  · nlinarith

theorem CameraInv_of_animCore {clock : ℝ} {s s' : Scene} (hc : animCore s' = animCore s)
    (h : CameraInv clock s) : CameraInv clock s' := by
  simp only [animCore, Prod.mk.injEq] at hc
  obtain ⟨e1, e2, e3, e4, e5, e6, e7, e8⟩ := hc
  unfold CameraInv at h ⊢
  rw [e1, e2, e3, e4, e5, e6, e7, e8]
  exact h

theorem CameraInv_mono {clock clock' : ℝ} {s : Scene} (hle : clock ≤ clock')
    (h : CameraInv clock s) : CameraInv clock' s := by
  obtain ⟨ha, hb, hc⟩ := h
  refine ⟨ha, hb, fun h1 h2 => ?_⟩
  obtain ⟨c1, c2, c3, c4⟩ := hc h1 h2
  exact ⟨c1, c2, c3, le_trans c4 hle⟩

theorem startFocusAnimation_inv {clock : ℝ} {s : Scene} (ry rx duration now : ℝ)
    (hd : 0 < duration) (h : CameraInv clock s) :
    CameraInv now (startFocusAnimation ry rx ZOOMED_CAMERA_DISTANCE duration now s) := by
  obtain ⟨ha, _, _⟩ := h
  refine ⟨ha, fun h1 => ?_, fun _ _ => ⟨ha, ⟨le_refl _, ?_⟩, ?_, le_refl _⟩⟩
  · exact absurd h1 (by simp [startFocusAnimation])
  · exact le_trans zoomed_le_default default_le_intro_start
  · show 0 < duration * 1000
    linarith

theorem startZoomAnimation_inv {clock : ℝ} {s : Scene} (duration now : ℝ)
    (hd : 0 < duration) (h : CameraInv clock s) :
    CameraInv now (startZoomAnimation DEFAULT_CAMERA_DISTANCE duration now s) := by
  obtain ⟨ha, _, _⟩ := h
  refine ⟨ha, fun h1 => ?_,
    fun _ _ => ⟨ha, ⟨zoomed_le_default, default_le_intro_start⟩, ?_, le_refl _⟩⟩
  · exact absurd h1 (by simp [startZoomAnimation])
  · show 0 < duration * 1000
    linarith

theorem startIntro_inv {clock : ℝ} {s : Scene} (now : ℝ) (hle : clock ≤ now)
    (h : CameraInv clock s) : CameraInv now (startIntro now s) := by
  unfold startIntro
  split_ifs with h0
  · exact CameraInv_mono hle h
  · refine ⟨⟨?_, le_refl _⟩, fun _ => ⟨rfl, rfl, le_refl _⟩, fun _ h2 => ?_⟩
    · exact le_trans zoomed_le_default default_le_intro_start
    · exact absurd rfl h2

theorem introCompleteStep_inv (env : FrameEnv) {s : Scene}
    (ha : ZOOMED_CAMERA_DISTANCE ≤ s.cameraDistance ∧ s.cameraDistance ≤ INTRO_START_DISTANCE) :
    CameraInv env.now (introCompleteStep env s) := by
  unfold introCompleteStep
  dsimp only
  split
  · refine ⟨ha, fun h1 => ?_, fun _ _ => ⟨ha, ⟨le_refl _, ?_⟩, ?_, le_refl _⟩⟩
    · exact absurd h1 (by simp)
    · exact le_trans zoomed_le_default default_le_intro_start
    · show 0 < ROTATION_ANIMATION_DURATION * 1000
      unfold ROTATION_ANIMATION_DURATION
      norm_num
  · refine ⟨ha, fun h1 => ?_, fun h1 _ => ?_⟩
    · exact absurd h1 (by simp)
    · exact absurd h1 (by simp)

theorem introStep_inv {clock : ℝ} (env : FrameEnv) {s : Scene} (hdelta : 0 ≤ env.rawDelta)
    (hle : clock ≤ env.now) (h : CameraInv clock s) :
    CameraInv env.now (introStep env s) := by
  have hzs : ZOOMED_CAMERA_DISTANCE ≤ INTRO_START_DISTANCE :=
    le_trans zoomed_le_default default_le_intro_start
  unfold introStep
  dsimp only
  by_cases hi : s.animationType = some AnimationType.intro ∧ s.isAnimating = true
  · rw [if_pos hi]
    obtain ⟨_, hb, _⟩ := h
    obtain ⟨hs, he, hp⟩ := hb hi.1
    by_cases hw : s.warmupFramesRemaining > 0
    · rw [if_pos hw]
      refine ⟨?_, fun _ => ⟨hs, he, le_refl _⟩, fun _ h2 => absurd hi.1 h2⟩
      show ZOOMED_CAMERA_DISTANCE ≤ s.zoomStart ∧ s.zoomStart ≤ INTRO_START_DISTANCE
      rw [hs]
      exact ⟨hzs, le_refl _⟩
    · rw [if_neg hw]
      have hacc : 0 ≤ s.introProgress + min env.rawDelta 0.033 / INTRO_DURATION := by
        have h1 : 0 ≤ min env.rawDelta 0.033 := le_min hdelta (by norm_num)
        have h2 : 0 ≤ min env.rawDelta 0.033 / INTRO_DURATION :=
          div_nonneg h1 (by unfold INTRO_DURATION; norm_num)
        linarith
      generalize hP : (if env.now - s.animationStartTime > INTRO_DURATION * 1000 + 2000
          then (1 : ℝ) else s.introProgress + min env.rawDelta 0.033 / INTRO_DURATION) = P
      have hprog : 0 ≤ P := by
        rw [← hP]
        split_ifs
        · norm_num
        · exact hacc
      have hraw0 := le_min hprog (zero_le_one : (0 : ℝ) ≤ 1)
      have hraw1 := min_le_right P 1
      have hease := easeOutSpaceZoom_mem hraw0 hraw1
      have hcam := @lerp_mem ZOOMED_CAMERA_DISTANCE INTRO_START_DISTANCE s.zoomStart s.zoomEnd _
        (by rw [hs]; exact ⟨hzs, le_refl _⟩)
        (by rw [he]; exact ⟨zoomed_le_default, default_le_intro_start⟩) hease.1 hease.2
      by_cases hdone : min P 1 ≥ 1
      · rw [if_pos hdone]
        exact introCompleteStep_inv env hcam
      · rw [if_neg hdone]
        exact ⟨hcam, fun _ => ⟨hs, he, hprog⟩, fun _ h2 => absurd hi.1 h2⟩
  · rw [if_neg hi]
    exact CameraInv_mono hle h

theorem fadeOrAnimateStep_inv (env : FrameEnv) {s : Scene} (h : CameraInv env.now s) :
    CameraInv env.now (fadeOrAnimateStep env s) := by
  unfold fadeOrAnimateStep
  dsimp only
  by_cases hf : s.statesFading = true
  · rw [if_pos hf]
    split_ifs <;> exact h
  · rw [if_neg hf]
    by_cases hr : s.isAnimating = true ∧ s.animationType ≠ some AnimationType.intro
    · rw [if_pos hr]
      unfold regularAnimationStep
      dsimp only
      obtain ⟨ha, hb, hc⟩ := h
      obtain ⟨c1, c2, c3, c4⟩ := hc hr.1 hr.2
      have hq : 0 ≤ (env.now - s.animationStartTime) / s.animationDuration :=
        div_nonneg (by linarith) c3.le
      have hp0 := le_min hq (zero_le_one : (0 : ℝ) ≤ 1)
      have hp1 := min_le_right ((env.now - s.animationStartTime) / s.animationDuration) 1
      have hease := easeInOutCubic_mem hp0 hp1
      have hcam := lerp_mem c1 c2 hease.1 hease.2
      by_cases hdone : min ((env.now - s.animationStartTime) / s.animationDuration) 1 ≥ 1
      · rw [if_pos hdone]
        refine ⟨hcam, fun h1 => ?_, fun h1 _ => ?_⟩
        · exact absurd h1 (by simp)
        · exact absurd h1 (by simp)
      · rw [if_neg hdone]
        exact ⟨hcam, hb, hc⟩
    · rw [if_neg hr]
      exact h

theorem momentumStep_animCore (env : FrameEnv) (s : Scene) :
    animCore (momentumStep env s) = animCore s := by
  unfold momentumStep
  split_ifs <;> rfl

theorem springStep_animCore (env : FrameEnv) (s : Scene) :
    animCore (springStep env s) = animCore s := by
  unfold springStep
  dsimp only
  split_ifs <;> rfl

theorem finalStopStep_animCore (s : Scene) : animCore (finalStopStep s) = animCore s := by
  unfold finalStopStep
  split_ifs <;> rfl

theorem scrollRotateStep_animCore (env : FrameEnv) (c : Prop) [Decidable c] (d : ℝ)
    (s : Scene) : animCore (scrollRotateStep env c d s) = animCore s := by
  unfold scrollRotateStep
  split_ifs <;> rfl

theorem homingStep_animCore (env : FrameEnv) (c : Prop) [Decidable c] (s : Scene) :
    animCore (homingStep env c s) = animCore s := by
  unfold homingStep
  dsimp only
  split_ifs <;> rfl

theorem scrollDrainStep_animCore (env : FrameEnv) (c : Prop) [Decidable c] (s : Scene) :
    animCore (scrollDrainStep env c s) = animCore s := by
  unfold scrollDrainStep
  dsimp only
  split_ifs <;> rfl

theorem prevScrollStep_animCore (s : Scene) : animCore (prevScrollStep s) = animCore s := rfl

theorem scrollProgressStep_animCore (env : FrameEnv) (s : Scene) :
    animCore (scrollProgressStep env s) = animCore s := rfl

theorem keyboardStep_animCore (env : FrameEnv) (s : Scene) :
    animCore (keyboardStep env s) = animCore s := by
  unfold keyboardStep
  dsimp only
  split_ifs <;> rfl

theorem idleStep_animCore (env : FrameEnv) (p q : Prop) [Decidable p] [Decidable q]
    (s : Scene) : animCore (idleStep env p q s) = animCore s := by
  unfold idleStep
  dsimp only
  split_ifs <;> rfl

theorem scrollCameraStep_animCore (env : FrameEnv) (s : Scene) :
    animCore (scrollCameraStep env s) = animCore s := by
  unfold scrollCameraStep
  dsimp only
  split_ifs <;> rfl

theorem motionSteps_animCore (env : FrameEnv) (s : Scene) :
    animCore (motionSteps env s) = animCore s := by
  unfold motionSteps
  dsimp only
  rw [scrollCameraStep_animCore, idleStep_animCore, keyboardStep_animCore,
    prevScrollStep_animCore, scrollDrainStep_animCore, homingStep_animCore,
    scrollRotateStep_animCore, scrollProgressStep_animCore, finalStopStep_animCore,
    springStep_animCore, momentumStep_animCore]

theorem frame_inv {clock : ℝ} (env : FrameEnv) {s : Scene} (hdelta : 0 ≤ env.rawDelta)
    (hle : clock ≤ env.now) (h : CameraInv clock s) : CameraInv env.now (frame env s) := by
  unfold frame
  exact CameraInv_of_animCore (motionSteps_animCore env _)
    (fadeOrAnimateStep_inv env (introStep_inv env hdelta hle h))

theorem step_inv {clock : ℝ} {s : Scene} (e : Event) (hw : e.wellTimed clock)
    (h : CameraInv clock s) : CameraInv (e.clockAfter clock) (step s e) := by
  obtain ⟨ht, hm⟩ := hw
  cases e with
  | introStart now => exact startIntro_inv now (ht now rfl) h
  | focusStart ry rx zoom duration now =>
    obtain ⟨hz, hd⟩ := hm
    subst hz
    exact startFocusAnimation_inv ry rx duration now hd h
  | zoomStart zoom duration now =>
    obtain ⟨hz, hd⟩ := hm
    subst hz
    exact startZoomAnimation_inv duration now hd h
  | stateClick name introComplete now =>
    show CameraInv now ((handleStateClick name introComplete now s).getD s)
    unfold handleStateClick
    dsimp only
    by_cases hg : s.isAnimating = true ∨ ¬ (introComplete = true ∨ s.earthOpacity > 0.5)
    · rw [if_pos hg]
      exact CameraInv_mono (ht now rfl) h
    · rw [if_neg hg]
      refine startFocusAnimation_inv _ _ _ now ?_ h
      split_ifs <;> first
        | (unfold ROTATION_ANIMATION_DURATION
           norm_num)
        | (unfold ZOOM_ANIMATION_DURATION
           norm_num)
  | deselection stateSelected introComplete now =>
    show CameraInv now (handleDeselection stateSelected introComplete now s)
    unfold handleDeselection
    dsimp only
    split_ifs
    · exact startZoomAnimation_inv _ now (by unfold ZOOM_ANIMATION_DURATION; norm_num) h
    · exact CameraInv_mono (ht now rfl) h
  | mouseDown button clientX now =>
    refine CameraInv_of_animCore ?_ (CameraInv_mono (ht now rfl) h)
    show animCore (handleMouseDown button clientX now s) = animCore s
    unfold handleMouseDown
    split_ifs <;> rfl
  | mouseMove clientX now =>
    refine CameraInv_of_animCore ?_ (CameraInv_mono (ht now rfl) h)
    show animCore (handleMouseMove clientX now s) = animCore s
    unfold handleMouseMove
    dsimp only
    split_ifs <;> rfl
  | mouseUp now =>
    refine CameraInv_of_animCore ?_ (CameraInv_mono (ht now rfl) h)
    show animCore (handleMouseUp now s) = animCore s
    unfold handleMouseUp
    dsimp only
    split_ifs <;> rfl
  | mouseLeave =>
    refine CameraInv_of_animCore ?_ h
    show animCore (handleMouseLeave s) = animCore s
    unfold handleMouseLeave
    split_ifs <;> rfl
  | hoverChange isHovering => exact h
  | keyDown key introComplete now =>
    refine CameraInv_of_animCore ?_ (CameraInv_mono (ht now rfl) h)
    show animCore (handleKeyDown key introComplete now s) = animCore s
    unfold handleKeyDown
    split_ifs
    · rfl
    · cases key <;> rfl
  | keyUp key =>
    refine CameraInv_of_animCore ?_ h
    show animCore (handleKeyUp key s) = animCore s
    unfold handleKeyUp
    cases key <;> rfl
  | frame env => exact frame_inv env hm (ht env.now rfl) h

theorem run_inv (events : List Event) {clock : ℝ} {s : Scene}
    (hc : Chronological clock events) (h : CameraInv clock s) :
    ∃ clock', CameraInv clock' (run s events) := by
  induction events generalizing clock s with
  | nil => exact ⟨clock, h⟩
  | cons e es ih => exact ih hc.2 (step_inv e hc.1 h)

theorem initialScene_inv (clock : ℝ) : CameraInv clock initialScene := by
  refine ⟨⟨?_, le_refl _⟩, fun h => ?_, fun h _ => ?_⟩
  · exact le_trans zoomed_le_default default_le_intro_start
  · exact absurd h (by simp [initialScene])
  · exact absurd h (by simp [initialScene])

/-- C4: camera distance invariant: starting from the initial animation state
(`cameraDistance = INTRO_START_DISTANCE = 100`), after any sequence of intro
starts, focus-state starts towards `ZOOMED_CAMERA_DISTANCE`, zoom-out starts
towards `DEFAULT_CAMERA_DISTANCE`, handler calls and frame runs with
`rawDelta ≥ 0` and a non-decreasing clock, `cameraDistance` lies between
`ZOOMED_CAMERA_DISTANCE` and `INTRO_START_DISTANCE`. -/
theorem camera_distance_invariant (clock : ℝ) (events : List Event)
    (h : Chronological clock events) :
    initialScene.cameraDistance = 100
      ∧ ZOOMED_CAMERA_DISTANCE ≤ (run initialScene events).cameraDistance
      ∧ (run initialScene events).cameraDistance ≤ INTRO_START_DISTANCE := by
  obtain ⟨_, hinv, _⟩ := run_inv events h (initialScene_inv clock)
  exact ⟨rfl, hinv⟩

theorem camera_distance_invariant_witness :
    Chronological 0 sampleSession
      ∧ initialScene.cameraDistance = 100
      ∧ ZOOMED_CAMERA_DISTANCE ≤ (run initialScene sampleSession).cameraDistance
      ∧ (run initialScene sampleSession).cameraDistance ≤ INTRO_START_DISTANCE :=
  have h : Chronological 0 sampleSession := by
    simp only [sampleSession, Chronological, Event.wellTimed, Event.time, Event.clockAfter,
      Option.some.injEq, Option.getD_some, forall_eq', and_true, true_and]
    norm_num
  ⟨h, camera_distance_invariant 0 sampleSession h⟩

/-! ## The yaw of a frame in which an animation is active -/

theorem isAnimating_of_animCore {s s' : Scene} (h : animCore s' = animCore s) :
    s'.isAnimating = s.isAnimating := by
  simp only [animCore, Prod.mk.injEq] at h
  exact h.2.2.2.2.1

theorem springStep_of_animating (env : FrameEnv) (s : Scene) (h : s.isAnimating = true) :
    springStep env s = s := by
  unfold springStep
  dsimp only
  rw [if_neg]
  simp [h]

theorem finalStopStep_yaw (s : Scene) :
    (finalStopStep s).currentRotationY = s.currentRotationY := by
  unfold finalStopStep
  split_ifs <;> rfl

theorem scrollRotateStep_yaw (env : FrameEnv) (c : Prop) [Decidable c] (d : ℝ) (s : Scene) :
    (scrollRotateStep env c d s).currentRotationY = s.currentRotationY := by
  unfold scrollRotateStep
  split_ifs <;> rfl

theorem homingStep_yaw_of_not (env : FrameEnv) (c : Prop) [Decidable c] (s : Scene)
    (hc : ¬ c) : (homingStep env c s).currentRotationY = s.currentRotationY := by
  unfold homingStep
  dsimp only
  rw [if_neg (fun h => hc h.1)]

theorem scrollDrainStep_yaw_of_not (env : FrameEnv) (c : Prop) [Decidable c] (s : Scene)
    (hc : ¬ c) : (scrollDrainStep env c s).currentRotationY = s.currentRotationY := by
  unfold scrollDrainStep
  dsimp only
  rw [if_neg hc]
  split_ifs <;> rfl

theorem keyboardStep_of_animating (env : FrameEnv) (s : Scene) (h : s.isAnimating = true) :
    keyboardStep env s = s := by
  unfold keyboardStep
  dsimp only
  rw [if_neg]
  simp [h]

theorem idleStep_of_animating (env : FrameEnv) (p q : Prop) [Decidable p] [Decidable q]
    (s : Scene) (h : s.isAnimating = true) : idleStep env p q s = s := by
  unfold idleStep
  dsimp only
  rw [if_neg]
  simp [h]

theorem scrollCameraStep_yaw (env : FrameEnv) (s : Scene) :
    (scrollCameraStep env s).currentRotationY = s.currentRotationY := by
  unfold scrollCameraStep
  dsimp only
  split_ifs <;> rfl

/-- With `isAnimating` set and `canScrollRotate` false, the blocks from the
scroll rotation on leave yaw and velocity alone. -/
theorem motionTail_of_animating (env : FrameEnv) (c p q : Prop) [Decidable c] [Decidable p]
    [Decidable q] (d : ℝ) (s : Scene) (h : s.isAnimating = true) (hc : ¬ c) :
    (scrollCameraStep env (idleStep env p q (keyboardStep env (prevScrollStep
        (scrollDrainStep env c (homingStep env c
          (scrollRotateStep env c d s))))))).currentRotationY = s.currentRotationY
      ∧ (scrollCameraStep env (idleStep env p q (keyboardStep env (prevScrollStep
        (scrollDrainStep env c (homingStep env c
          (scrollRotateStep env c d s))))))).velocity = s.velocity := by
  have h9 : (prevScrollStep (scrollDrainStep env c (homingStep env c
      (scrollRotateStep env c d s)))).isAnimating = true := by
    rw [isAnimating_of_animCore (prevScrollStep_animCore _),
      isAnimating_of_animCore (scrollDrainStep_animCore env c _),
      isAnimating_of_animCore (homingStep_animCore env c _),
      isAnimating_of_animCore (scrollRotateStep_animCore env c d _)]
    exact h
  rw [keyboardStep_of_animating env _ h9, idleStep_of_animating env p q _ h9]
  constructor
  · rw [scrollCameraStep_yaw]
    show (scrollDrainStep env c _).currentRotationY = _
    rw [scrollDrainStep_yaw_of_not env c _ hc, homingStep_yaw_of_not env c _ hc,
      scrollRotateStep_yaw]
  · rw [scrollCameraStep_velocity, prevScrollStep_velocity, scrollDrainStep_velocity,
      homingStep_velocity, scrollRotateStep_velocity]

/-- In a frame with `isAnimating` set, the blocks after `MOMENTUM` leave the
yaw alone, and after `Final stop check` the velocity: what the frame yields is
what the momentum block (and the final stop check) make of the animation's
values. -/
theorem motionSteps_of_animating (env : FrameEnv) (s : Scene) (h : s.isAnimating = true) :
    (motionSteps env s).currentRotationY = (momentumStep env s).currentRotationY
      ∧ (motionSteps env s).velocity = (finalStopStep (momentumStep env s)).velocity := by
  have h3 : (momentumStep env s).isAnimating = true := by
    rw [isAnimating_of_animCore (momentumStep_animCore env s)]
    exact h
  have e4 : springStep env (momentumStep env s) = momentumStep env s :=
    springStep_of_animating env _ h3
  have h5 : (scrollProgressStep env (finalStopStep (momentumStep env s))).isAnimating = true := by
    rw [isAnimating_of_animCore (scrollProgressStep_animCore env _),
      isAnimating_of_animCore (finalStopStep_animCore _)]
    exact h3
  have hcan : ¬ canScrollRotate env (scrollProgressStep env (finalStopStep (momentumStep env s))) := by
    intro hc
    have h6 := hc.1
    rw [h5] at h6
    exact absurd h6 (by simp)
  unfold motionSteps
  dsimp only
  rw [e4]
  have key := motionTail_of_animating env
    (canScrollRotate env (scrollProgressStep env (finalStopStep (momentumStep env s))))
    (|(prevScrollStep (scrollDrainStep env
        (canScrollRotate env (scrollProgressStep env (finalStopStep (momentumStep env s))))
        (homingStep env
          (canScrollRotate env (scrollProgressStep env (finalStopStep (momentumStep env s))))
          (scrollRotateStep env
            (canScrollRotate env (scrollProgressStep env (finalStopStep (momentumStep env s))))
            ((scrollProgressStep env (finalStopStep (momentumStep env s))).smoothScrollProgress
              - (scrollProgressStep env
                  (finalStopStep (momentumStep env s))).prevScrollProgress)
            (scrollProgressStep env (finalStopStep (momentumStep env s))))))).velocity|
      < MOMENTUM_THRESHOLD)
    (|(scrollProgressStep env (finalStopStep (momentumStep env s))).smoothScrollProgress
        - (scrollProgressStep env (finalStopStep (momentumStep env s))).prevScrollProgress|
        > 0.000005
      ∨ |(prevScrollStep (scrollDrainStep env
        (canScrollRotate env (scrollProgressStep env (finalStopStep (momentumStep env s))))
        (homingStep env
          (canScrollRotate env (scrollProgressStep env (finalStopStep (momentumStep env s))))
          (scrollRotateStep env
            (canScrollRotate env (scrollProgressStep env (finalStopStep (momentumStep env s))))
            ((scrollProgressStep env (finalStopStep (momentumStep env s))).smoothScrollProgress
              - (scrollProgressStep env
                  (finalStopStep (momentumStep env s))).prevScrollProgress)
            (scrollProgressStep env
              (finalStopStep (momentumStep env s))))))).smoothScrollRotation| > 0.001)
    ((scrollProgressStep env (finalStopStep (momentumStep env s))).smoothScrollProgress
      - (scrollProgressStep env (finalStopStep (momentumStep env s))).prevScrollProgress)
    (scrollProgressStep env (finalStopStep (momentumStep env s))) h5 hcan
  refine ⟨key.1.trans ?_, key.2.trans ?_⟩
  · show (finalStopStep _).currentRotationY = _
    rw [finalStopStep_yaw]
  · rfl

theorem introStep_of_not_intro (env : FrameEnv) (s : Scene)
    (h : s.animationType ≠ some AnimationType.intro) : introStep env s = s := by
  unfold introStep
  dsimp only
  rw [if_neg (fun hc => h hc.1)]

/-- The animation block while a focus-state or zoom-out animation is under
way (no states fade, progress below 1). -/
theorem fadeOrAnimateStep_running (env : FrameEnv) (s : Scene)
    (hf : s.statesFading = false) (ha : s.isAnimating = true)
    (ht : s.animationType ≠ some AnimationType.intro)
    (hp : min ((env.now - s.animationStartTime) / s.animationDuration) 1 < 1) :
    (fadeOrAnimateStep env s).currentRotationY
        = s.rotationStart + (s.rotationEnd - s.rotationStart)
            * easeInOutCubic (min ((env.now - s.animationStartTime) / s.animationDuration) 1)
      ∧ (fadeOrAnimateStep env s).velocity = s.velocity
      ∧ (fadeOrAnimateStep env s).isDragging = s.isDragging
      ∧ (fadeOrAnimateStep env s).isAnimating = true := by
  unfold fadeOrAnimateStep
  dsimp only
  rw [if_neg (by simp [hf]), if_pos ⟨ha, ht⟩]
  unfold regularAnimationStep
  dsimp only
  rw [if_neg (not_le.mpr hp)]
  exact ⟨rfl, rfl, rfl, ha⟩

theorem momentumStep_of_moving (env : FrameEnv) (s : Scene) (hd : s.isDragging = false)
    (hv : |s.velocity| > MOMENTUM_THRESHOLD) :
    (momentumStep env s).currentRotationY = s.currentRotationY + s.velocity
      ∧ (momentumStep env s).velocity = s.velocity * MOMENTUM_FRICTION := by
  unfold momentumStep
  rw [if_pos ⟨hd, hv⟩]
  exact ⟨rfl, rfl⟩

theorem finalStopStep_of_moving (s : Scene) (hv : ¬ |s.velocity| < MOMENTUM_THRESHOLD * 0.5) :
    finalStopStep s = s := by
  unfold finalStopStep
  rw [if_neg (fun hc => hv hc.2)]

/-- C6 (the code at the failing input): half-way through a focus-state
animation (`isAnimating` true, no drag) with left-over velocity `0.05`, the
animation block interpolates the yaw to `0.5`, but the momentum block then
adds the velocity and applies friction: the frame ends with yaw `0.55` and
velocity `0.0484`. -/
theorem momentum_runs_during_animation :
    spinningFocusScene.isAnimating = true ∧ spinningFocusScene.isDragging = false
      ∧ (fadeOrAnimateStep midFocusEnv
          (introStep midFocusEnv spinningFocusScene)).currentRotationY = 0.5
      ∧ (frame midFocusEnv spinningFocusScene).currentRotationY = 0.55
      ∧ (frame midFocusEnv spinningFocusScene).velocity = 0.0484 := by
  have hi : introStep midFocusEnv spinningFocusScene = spinningFocusScene :=
    introStep_of_not_intro _ _ (by simp [spinningFocusScene])
  have hprog : min ((midFocusEnv.now - spinningFocusScene.animationStartTime)
      / spinningFocusScene.animationDuration) 1 = 0.5 := by
    show min (((600 : ℝ) - 0) / 1200) 1 = 0.5
    rw [min_eq_left (by norm_num)]
    norm_num
  have hease : easeInOutCubic 0.5 = 0.5 := by
    unfold easeInOutCubic
    rw [if_neg (by norm_num)]
    norm_num
  obtain ⟨hy, hv, hd, ha⟩ := fadeOrAnimateStep_running midFocusEnv spinningFocusScene rfl rfl
    (by simp [spinningFocusScene]) (by rw [hprog]; norm_num)
  rw [hprog, hease] at hy
  have hy' : (fadeOrAnimateStep midFocusEnv spinningFocusScene).currentRotationY = 0.5 := by
    rw [hy]
    show (0 : ℝ) + (1 - 0) * 0.5 = 0.5
    norm_num
  have hv' : (fadeOrAnimateStep midFocusEnv spinningFocusScene).velocity = 0.05 := hv
  have hmov : |(fadeOrAnimateStep midFocusEnv spinningFocusScene).velocity|
      > MOMENTUM_THRESHOLD := by
    rw [hv', abs_of_pos (by norm_num)]
    unfold MOMENTUM_THRESHOLD
    norm_num
  obtain ⟨my, mv⟩ := momentumStep_of_moving midFocusEnv _ hd hmov
  have hm := motionSteps_of_animating midFocusEnv _ ha
  have hfast : ¬ |(momentumStep midFocusEnv
      (fadeOrAnimateStep midFocusEnv spinningFocusScene)).velocity|
        < MOMENTUM_THRESHOLD * 0.5 := by
    rw [mv, hv']
    unfold MOMENTUM_FRICTION MOMENTUM_THRESHOLD
    rw [abs_of_pos (by norm_num)]
    norm_num
  refine ⟨rfl, rfl, ?_, ?_, ?_⟩
  · rw [hi]
    exact hy'
  · unfold frame
    rw [hi, hm.1, my, hy', hv']
    norm_num
  · unfold frame
    rw [hi, hm.2, finalStopStep_of_moving _ hfast, mv, hv']
    unfold MOMENTUM_FRICTION
    norm_num

/-! ## Claims on deselection, the intro completion and the animation block -/

/-- C11 (as stated, refuted): with the earth ready, no state selected and
the camera at `INTRO_START_DISTANCE = 100` (not below
`DEFAULT_CAMERA_DISTANCE`), the deselection effect starts nothing: the scene
is unchanged and no animation is active. -/
theorem handleDeselection_far_counterexample :
    handleDeselection false true 0 initialScene = initialScene
      ∧ (handleDeselection false true 0 initialScene).isAnimating = false
      ∧ (handleDeselection false true 0 initialScene).animationType
          ≠ some AnimationType.zoomOut := by
  have h : handleDeselection false true 0 initialScene = initialScene := by
    unfold handleDeselection
    dsimp only
    rw [if_neg]
    intro hc
    have h1 : initialScene.cameraDistance < DEFAULT_CAMERA_DISTANCE := hc.2.2
    have h2 : INTRO_START_DISTANCE < DEFAULT_CAMERA_DISTANCE := h1
    exact absurd default_le_intro_start (not_le.mpr h2)
  rw [h]
  exact ⟨rfl, rfl, by simp [initialScene]⟩

/-- C11 (amended): whenever the selected state is null while the earth is
ready (`introComplete` or earth opacity above 0.5) and the camera distance is
below `DEFAULT_CAMERA_DISTANCE`, the deselection effect starts a zoom-out
towards `DEFAULT_CAMERA_DISTANCE` with duration 0.8 s, whatever phase is
active; when the camera distance is not below `DEFAULT_CAMERA_DISTANCE` the
effect changes nothing. -/
theorem handleDeselection_starts_zoom_out (s : Scene) (introComplete : Bool) (now : ℝ)
    (hready : introComplete = true ∨ s.earthOpacity > 0.5) :
    (s.cameraDistance < DEFAULT_CAMERA_DISTANCE →
        handleDeselection false introComplete now s
            = startZoomAnimation DEFAULT_CAMERA_DISTANCE ZOOM_ANIMATION_DURATION now s
          ∧ (handleDeselection false introComplete now s).isAnimating = true
          ∧ (handleDeselection false introComplete now s).animationType
              = some AnimationType.zoomOut
          ∧ (handleDeselection false introComplete now s).zoomEnd = DEFAULT_CAMERA_DISTANCE
          ∧ (handleDeselection false introComplete now s).animationDuration = 0.8 * 1000)
      ∧ (¬ s.cameraDistance < DEFAULT_CAMERA_DISTANCE →
          handleDeselection false introComplete now s = s) := by
  constructor
  · intro hlt
    have h : handleDeselection false introComplete now s
        = startZoomAnimation DEFAULT_CAMERA_DISTANCE ZOOM_ANIMATION_DURATION now s := by
      unfold handleDeselection
      dsimp only
      rw [if_pos ⟨rfl, hready, hlt⟩]
    rw [h]
    exact ⟨rfl, rfl, rfl, rfl, rfl⟩
  · intro hge
    unfold handleDeselection
    dsimp only
    rw [if_neg (fun hc => hge hc.2.2)]

theorem handleDeselection_starts_zoom_out_witness :
    zoomedInScene.cameraDistance < DEFAULT_CAMERA_DISTANCE
      ∧ handleDeselection false true 0 zoomedInScene
          = startZoomAnimation DEFAULT_CAMERA_DISTANCE ZOOM_ANIMATION_DURATION 0 zoomedInScene
      ∧ (handleDeselection false true 0 zoomedInScene).isAnimating = true
      ∧ (handleDeselection false true 0 zoomedInScene).animationType
          = some AnimationType.zoomOut
      ∧ (handleDeselection false true 0 zoomedInScene).zoomEnd = DEFAULT_CAMERA_DISTANCE
      ∧ (handleDeselection false true 0 zoomedInScene).animationDuration = 0.8 * 1000 :=
  have hlt : zoomedInScene.cameraDistance < DEFAULT_CAMERA_DISTANCE := by
    show (5 : ℝ) < Real.sqrt (CAMERA_Y * CAMERA_Y + 5.5 * 5.5)
    rw [Real.lt_sqrt (by norm_num)]
    unfold CAMERA_Y
    norm_num
  ⟨hlt, (handleDeselection_starts_zoom_out zoomedInScene true 0 (Or.inl rfl)).1 hlt⟩

/-! ## The fields the motion blocks leave alone -/

theorem momentumStep_stageCore (env : FrameEnv) (s : Scene) :
    stageCore (momentumStep env s) = stageCore s := by
  unfold momentumStep
  split_ifs <;> rfl

theorem springStep_stageCore (env : FrameEnv) (s : Scene) :
    stageCore (springStep env s) = stageCore s := by
  unfold springStep
  dsimp only
  split_ifs <;> rfl

theorem finalStopStep_stageCore (s : Scene) : stageCore (finalStopStep s) = stageCore s := by
  unfold finalStopStep
  split_ifs <;> rfl

theorem scrollProgressStep_stageCore (env : FrameEnv) (s : Scene) :
    stageCore (scrollProgressStep env s) = stageCore s := rfl

theorem scrollRotateStep_stageCore (env : FrameEnv) (c : Prop) [Decidable c] (d : ℝ)
    (s : Scene) : stageCore (scrollRotateStep env c d s) = stageCore s := by
  unfold scrollRotateStep
  split_ifs <;> rfl

theorem homingStep_stageCore (env : FrameEnv) (c : Prop) [Decidable c] (s : Scene) :
    stageCore (homingStep env c s) = stageCore s := by
  unfold homingStep
  dsimp only
  split_ifs <;> rfl

theorem scrollDrainStep_stageCore (env : FrameEnv) (c : Prop) [Decidable c] (s : Scene) :
    stageCore (scrollDrainStep env c s) = stageCore s := by
  unfold scrollDrainStep
  dsimp only
  split_ifs <;> rfl

theorem prevScrollStep_stageCore (s : Scene) : stageCore (prevScrollStep s) = stageCore s := rfl

theorem keyboardStep_stageCore (env : FrameEnv) (s : Scene) :
    stageCore (keyboardStep env s) = stageCore s := by
  unfold keyboardStep
  dsimp only
  split_ifs <;> rfl

theorem idleStep_stageCore (env : FrameEnv) (p q : Prop) [Decidable p] [Decidable q]
    (s : Scene) : stageCore (idleStep env p q s) = stageCore s := by
  unfold idleStep
  dsimp only
  split_ifs <;> rfl

theorem scrollCameraStep_stageCore (env : FrameEnv) (s : Scene) :
    stageCore (scrollCameraStep env s) = stageCore s := by
  unfold scrollCameraStep
  dsimp only
  split_ifs <;> rfl

theorem motionSteps_stageCore (env : FrameEnv) (s : Scene) :
    stageCore (motionSteps env s) = stageCore s := by
  unfold motionSteps
  dsimp only
  rw [scrollCameraStep_stageCore, idleStep_stageCore, keyboardStep_stageCore,
    prevScrollStep_stageCore, scrollDrainStep_stageCore, homingStep_stageCore,
    scrollRotateStep_stageCore, scrollProgressStep_stageCore, finalStopStep_stageCore,
    springStep_stageCore, momentumStep_stageCore]

/-- The fields of `animCore` and `stageCore` after the motion blocks, one by one. -/
theorem motionSteps_fields (env : FrameEnv) (s : Scene) :
    (motionSteps env s).cameraDistance = s.cameraDistance
      ∧ (motionSteps env s).zoomStart = s.zoomStart
      ∧ (motionSteps env s).zoomEnd = s.zoomEnd
      ∧ (motionSteps env s).animationType = s.animationType
      ∧ (motionSteps env s).isAnimating = s.isAnimating
      ∧ (motionSteps env s).animationStartTime = s.animationStartTime
      ∧ (motionSteps env s).animationDuration = s.animationDuration
      ∧ (motionSteps env s).introProgress = s.introProgress
      ∧ (motionSteps env s).currentRotationX = s.currentRotationX
      ∧ (motionSteps env s).rotationXStart = s.rotationXStart
      ∧ (motionSteps env s).rotationXEnd = s.rotationXEnd
      ∧ (motionSteps env s).rotationStart = s.rotationStart
      ∧ (motionSteps env s).rotationEnd = s.rotationEnd
      ∧ (motionSteps env s).earthScale = s.earthScale
      ∧ (motionSteps env s).warmupFramesRemaining = s.warmupFramesRemaining
      ∧ (motionSteps env s).statesFading = s.statesFading
      ∧ (motionSteps env s).statesFadeStartTime = s.statesFadeStartTime
      ∧ (motionSteps env s).earthOpacity = s.earthOpacity
      ∧ (motionSteps env s).isHoveringState = s.isHoveringState
      ∧ (motionSteps env s).isDragging = s.isDragging := by
  have ha := motionSteps_animCore env s
  have hs := motionSteps_stageCore env s
  simp only [animCore, stageCore, Prod.mk.injEq] at ha hs
  obtain ⟨a1, a2, a3, a4, a5, a6, a7, a8⟩ := ha
  obtain ⟨b1, b2, b3, b4, b5, b6, b7, b8, b9, b10, b11, b12, _, _⟩ := hs
  exact ⟨a1, a2, a3, a4, a5, a6, a7, a8, b1, b2, b3, b4, b5, b6, b7, b8, b9, b10, b11, b12⟩

/-! ## The intro block after the warmup -/

/-- After the warmup the intro block is `introAdvance`, followed by
`introCompleteStep` when the raw progress has reached 1. -/
theorem introStep_after_warmup (env : FrameEnv) (s : Scene)
    (ht : s.animationType = some AnimationType.intro) (ha : s.isAnimating = true)
    (hw : s.warmupFramesRemaining = 0) :
    introStep env s
      = if introRawProgress env s ≥ 1 then introCompleteStep env (introAdvance env s)
        else introAdvance env s := by
  unfold introStep
  dsimp only
  rw [if_pos ⟨ht, ha⟩, if_neg (by rw [hw]; exact lt_irrefl 0)]
  rfl

theorem introRawProgress_le_one (env : FrameEnv) (s : Scene) : introRawProgress env s ≤ 1 :=
  min_le_right _ _

theorem easeOutSpaceZoom_one : easeOutSpaceZoom 1 = 1 - 0.7 / 4096 := by
  have h : (2 : ℝ) ^ (-12 * (1 : ℝ)) = 1 / 4096 := by
    have h12 : (-12 * (1 : ℝ)) = -((12 : ℕ) : ℝ) := by norm_num
    rw [h12, Real.rpow_neg (by norm_num), Real.rpow_natCast]
    norm_num
  unfold easeOutSpaceZoom
  dsimp only
  rw [h]
  norm_num

theorem easeInOutCubic_zero : easeInOutCubic 0 = 0 := by
  unfold easeInOutCubic
  rw [if_pos (by norm_num)]
  norm_num

/-- The scene the intro block leaves in the frame in which it completes. -/
theorem introStep_completing (env : FrameEnv) (s : Scene)
    (ht : s.animationType = some AnimationType.intro) (ha : s.isAnimating = true)
    (hw : s.warmupFramesRemaining = 0) (hp : 1 ≤ introRawProgress env s) :
    introStep env s = introCompleteStep env (introAdvance env s)
      ∧ (introAdvance env s).cameraDistance
          = s.zoomStart + (s.zoomEnd - s.zoomStart) * easeOutSpaceZoom 1 := by
  have h1 : introRawProgress env s = 1 := le_antisymm (introRawProgress_le_one env s) hp
  refine ⟨?_, ?_⟩
  · rw [introStep_after_warmup env s ht ha hw, if_pos hp]
  · show s.zoomStart + (s.zoomEnd - s.zoomStart) * easeOutSpaceZoom (introRawProgress env s) = _
    rw [h1]

/-- The intro completion without a selected state. -/
theorem introCompleteStep_idle (env : FrameEnv) (s : Scene) (hsel : env.selectedState = none) :
    introCompleteStep env s
      = { s with
          earthScale := 1
          zoomSpeed := 0
          earthOpacity := 1
          smoothScrollProgress := 0
          smoothCameraDistance := DEFAULT_CAMERA_DISTANCE
          smoothScrollYOffset := 0
          isAnimating := false
          animationType := none
          statesFadeStartTime := env.now
          statesFading := true } := by
  unfold introCompleteStep
  dsimp only
  rw [hsel]

/-- The intro completion with a selected state: what it stores. -/
theorem introCompleteStep_chain (env : FrameEnv) (s : Scene) (name : String)
    (hsel : env.selectedState = some name) :
    (introCompleteStep env s).earthScale = 1
      ∧ (introCompleteStep env s).isAnimating = s.isAnimating
      ∧ (introCompleteStep env s).animationType = some AnimationType.focusState
      ∧ (introCompleteStep env s).animationStartTime = env.now
      ∧ (introCompleteStep env s).animationDuration = ROTATION_ANIMATION_DURATION * 1000
      ∧ (introCompleteStep env s).zoomStart = s.cameraDistance
      ∧ (introCompleteStep env s).zoomEnd = ZOOMED_CAMERA_DISTANCE
      ∧ (introCompleteStep env s).rotationStart = s.currentRotationY
      ∧ (introCompleteStep env s).rotationXStart = s.currentRotationX
      ∧ (introCompleteStep env s).rotationXEnd
          = -((US_CENTER_LAT - (targetLatLon name).1) / 45) * MAX_TILT_ANGLE
      ∧ (introCompleteStep env s).statesFading = false
      ∧ (introCompleteStep env s).cameraDistance = s.cameraDistance
      ∧ (introCompleteStep env s).currentRotationY = s.currentRotationY
      ∧ (introCompleteStep env s).currentRotationX = s.currentRotationX := by
  unfold introCompleteStep
  dsimp only
  rw [hsel]
  exact ⟨rfl, rfl, rfl, rfl, rfl, rfl, rfl, rfl, rfl, rfl, rfl, rfl, rfl, rfl⟩

/-- The animation block in a frame whose clock equals the start time of a
running animation: progress 0, the start values are written back. -/
theorem fadeOrAnimateStep_at_start (env : FrameEnv) (s : Scene)
    (hf : s.statesFading = false) (ha : s.isAnimating = true)
    (ht : s.animationType ≠ some AnimationType.intro) (h0 : s.animationStartTime = env.now) :
    (fadeOrAnimateStep env s).currentRotationY = s.rotationStart
      ∧ (fadeOrAnimateStep env s).currentRotationX = s.rotationXStart
      ∧ (fadeOrAnimateStep env s).cameraDistance = s.zoomStart
      ∧ animCore (fadeOrAnimateStep env s)
          = (s.zoomStart, s.zoomStart, s.zoomEnd, s.animationType, true, s.animationStartTime,
              s.animationDuration, s.introProgress)
      ∧ (fadeOrAnimateStep env s).earthScale = s.earthScale
      ∧ (fadeOrAnimateStep env s).rotationStart = s.rotationStart
      ∧ (fadeOrAnimateStep env s).rotationXStart = s.rotationXStart := by
  have hprog : min ((env.now - s.animationStartTime) / s.animationDuration) 1 = 0 := by
    rw [h0, sub_self, zero_div]
    exact min_eq_left zero_le_one
  unfold fadeOrAnimateStep
  dsimp only
  rw [if_neg (by simp [hf]), if_pos ⟨ha, ht⟩]
  unfold regularAnimationStep
  dsimp only
  rw [hprog, easeInOutCubic_zero, if_neg (by norm_num)]
  dsimp only [animCore]
  rw [ha]
  refine ⟨by ring, by ring, by ring, ?_, rfl, rfl, rfl⟩
  rw [mul_zero, add_zero]

theorem fadeOrAnimateStep_fading (env : FrameEnv) (s : Scene) (hf : s.statesFading = true) :
    animCore (fadeOrAnimateStep env s) = animCore s
      ∧ (fadeOrAnimateStep env s).earthScale = s.earthScale
      ∧ (fadeOrAnimateStep env s).currentRotationY = s.currentRotationY
      ∧ (fadeOrAnimateStep env s).currentRotationX = s.currentRotationX := by
  unfold fadeOrAnimateStep
  dsimp only
  rw [if_pos hf]
  split_ifs <;> exact ⟨rfl, rfl, rfl, rfl⟩

theorem fadeOrAnimateStep_earthScale (env : FrameEnv) (s : Scene) :
    (fadeOrAnimateStep env s).earthScale = s.earthScale := by
  unfold fadeOrAnimateStep regularAnimationStep
  dsimp only
  split_ifs <;> rfl

theorem introCompleteStep_earthScale (env : FrameEnv) (s : Scene) :
    (introCompleteStep env s).earthScale = 1 := by
  unfold introCompleteStep
  dsimp only
  split <;> rfl

theorem frame_earthScale_of_not_intro (env : FrameEnv) (s : Scene)
    (h : s.animationType ≠ some AnimationType.intro) :
    (frame env s).earthScale = s.earthScale := by
  unfold frame
  rw [(motionSteps_fields env _).2.2.2.2.2.2.2.2.2.2.2.2.2.1, fadeOrAnimateStep_earthScale,
    introStep_of_not_intro env s h]

theorem introEndScene_fields :
    introEndScene.animationType = some AnimationType.intro
      ∧ introEndScene.isAnimating = true
      ∧ introEndScene.warmupFramesRemaining = 0
      ∧ introEndScene.animationStartTime = 0
      ∧ introEndScene.introProgress = 1
      ∧ introEndScene.zoomStart = INTRO_START_DISTANCE
      ∧ introEndScene.zoomEnd = DEFAULT_CAMERA_DISTANCE := by
  have h : startIntro 0 initialScene
      = { initialScene with
          animationType := some AnimationType.intro
          isAnimating := true
          introProgress := 0
          warmupFramesRemaining := 3
          introStartTime := some 0
          animationStartTime := 0
          animationDuration := INTRO_DURATION * 1000
          zoomStart := INTRO_START_DISTANCE
          zoomEnd := DEFAULT_CAMERA_DISTANCE
          cameraDistance := INTRO_START_DISTANCE
          earthScale := INTRO_EARTH_SCALE_START } := by
    unfold startIntro
    rw [if_neg (by simp [initialScene])]
  unfold introEndScene
  rw [h]
  exact ⟨rfl, rfl, rfl, rfl, rfl, rfl, rfl⟩

theorem introEndScene_progress (env : FrameEnv) (hnow : env.now = 3600)
    (hdelta : env.rawDelta = 0.016) : 1 ≤ introRawProgress env introEndScene := by
  obtain ⟨_, _, _, h4, h5, _, _⟩ := introEndScene_fields
  unfold introRawProgress
  rw [h4, h5, hnow, hdelta]
  unfold INTRO_DURATION
  rw [if_neg (by norm_num)]
  apply le_min
  · have : (0 : ℝ) ≤ min (0.016 : ℝ) 0.033 / 3.5 := by
      apply div_nonneg
      · exact le_min (by norm_num) (by norm_num)
      · norm_num
    linarith
  · exact le_refl 1

/-- C12: intro completion transition: in the frame in which the intro's raw
progress reaches 1, `earthScale` is set to exactly 1; without a selected state
the phase becomes idle (`isAnimating = false`, `animationType = null`); with a
selected state the phase becomes focus-state in that same frame (`isAnimating`
stays true, zoom end `ZOOMED_CAMERA_DISTANCE`, start values = the yaw, pitch
and distance at the transition); and no frame outside the intro phase changes
`earthScale`. -/
theorem intro_completion_transition (env : FrameEnv) (s : Scene)
    (ht : s.animationType = some AnimationType.intro) (ha : s.isAnimating = true)
    (hw : s.warmupFramesRemaining = 0) (hp : 1 ≤ introRawProgress env s) :
    (frame env s).earthScale = 1
      ∧ (env.selectedState = none →
          (frame env s).isAnimating = false ∧ (frame env s).animationType = none)
      ∧ (∀ name : String, env.selectedState = some name →
          (frame env s).isAnimating = true
            ∧ (frame env s).animationType = some AnimationType.focusState
            ∧ (frame env s).zoomEnd = ZOOMED_CAMERA_DISTANCE
            ∧ (frame env s).rotationStart = s.currentRotationY
            ∧ (frame env s).rotationXStart = s.currentRotationX
            ∧ (frame env s).zoomStart
                = s.zoomStart + (s.zoomEnd - s.zoomStart) * easeOutSpaceZoom 1
            ∧ (frame env s).cameraDistance = (frame env s).zoomStart
            ∧ (frame env s).currentRotationX = s.currentRotationX)
      ∧ (∀ (env' : FrameEnv) (s' : Scene), s'.animationType ≠ some AnimationType.intro →
          (frame env' s').earthScale = s'.earthScale) := by
  obtain ⟨hstep, hcam⟩ := introStep_completing env s ht ha hw hp
  have hm := motionSteps_fields env (fadeOrAnimateStep env (introStep env s))
  obtain ⟨m1, m2, m3, m4, m5, _, _, _, m9, _, _, m12, _, m14, _⟩ := hm
  refine ⟨?_, ?_, ?_, fun env' s' h => frame_earthScale_of_not_intro env' s' h⟩
  · unfold frame
    rw [m14, fadeOrAnimateStep_earthScale, hstep, introCompleteStep_earthScale]
  · intro hsel
    have hidle := introCompleteStep_idle env (introAdvance env s) hsel
    have hfade : (introStep env s).statesFading = true := by
      rw [hstep, hidle]
    have hcore := (fadeOrAnimateStep_fading env (introStep env s) hfade).1
    simp only [animCore, Prod.mk.injEq] at hcore
    obtain ⟨_, _, _, c4, c5, _⟩ := hcore
    unfold frame
    rw [m5, m4, c5, c4, hstep, hidle]
    exact ⟨rfl, rfl⟩
  · intro name hsel
    obtain ⟨_, k2, k3, k4, _, k6, k7, k8, k9, _, k11, _, _, _⟩ :=
      introCompleteStep_chain env (introAdvance env s) name hsel
    rw [← hstep] at k2 k3 k4 k6 k7 k8 k9 k11
    have ha' : (introStep env s).isAnimating = true := by
      rw [k2]
      exact ha
    have ht' : (introStep env s).animationType ≠ some AnimationType.intro := by
      rw [k3]
      simp
    obtain ⟨_, f2, _, fcore, _, f6, f7⟩ :=
      fadeOrAnimateStep_at_start env (introStep env s) k11 ha' ht' k4
    simp only [animCore, Prod.mk.injEq] at fcore
    obtain ⟨c1, c2, c3, c4, c5, _⟩ := fcore
    unfold frame
    rw [m5, m4, m3, m12, m2, m1, m9, c5, c4, c3, c2, c1, f6, f2, k3, k7, k8, k9, k6, hcam]
    have hm10 :=
      (motionSteps_fields env (fadeOrAnimateStep env (introStep env s))).2.2.2.2.2.2.2.2.2.1
    rw [hm10, f7, k9]
    exact ⟨rfl, rfl, rfl, rfl, rfl, rfl, rfl, rfl⟩

theorem intro_completion_transition_witness :
    ((frame introEndEnv introEndScene).earthScale = 1
      ∧ (frame introEndEnv introEndScene).isAnimating = false
      ∧ (frame introEndEnv introEndScene).animationType = none)
      ∧ (frame introEndEnvSelected introEndScene).isAnimating = true
      ∧ (frame introEndEnvSelected introEndScene).animationType
          = some AnimationType.focusState
      ∧ (frame introEndEnvSelected introEndScene).zoomEnd = ZOOMED_CAMERA_DISTANCE :=
  have hf := introEndScene_fields
  have h1 := intro_completion_transition introEndEnv introEndScene hf.1 hf.2.1 hf.2.2.1
    (introEndScene_progress introEndEnv rfl rfl)
  have h2 := intro_completion_transition introEndEnvSelected introEndScene hf.1 hf.2.1 hf.2.2.1
    (introEndScene_progress introEndEnvSelected rfl rfl)
  ⟨⟨h1.1, h1.2.1 rfl⟩, (h2.2.2.1 "Texas" rfl).1, (h2.2.2.1 "Texas" rfl).2.1,
    (h2.2.2.1 "Texas" rfl).2.2.1⟩

/-- The phase after the frame in which the intro completes without a selected
state. -/
theorem intro_completion_idle (env : FrameEnv) (s : Scene)
    (ht : s.animationType = some AnimationType.intro) (ha : s.isAnimating = true)
    (hw : s.warmupFramesRemaining = 0) (hp : 1 ≤ introRawProgress env s) :
    env.selectedState = none →
      (frame env s).isAnimating = false ∧ (frame env s).animationType = none := by
  intro hsel
  obtain ⟨hstep, _⟩ := introStep_completing env s ht ha hw hp
  have hidle := introCompleteStep_idle env (introAdvance env s) hsel
  have hfade : (introStep env s).statesFading = true := by
    rw [hstep, hidle]
  have hcore := (fadeOrAnimateStep_fading env (introStep env s) hfade).1
  simp only [animCore, Prod.mk.injEq] at hcore
  obtain ⟨_, _, _, c4, c5, _⟩ := hcore
  obtain ⟨_, _, _, m4, m5, _⟩ := motionSteps_fields env (fadeOrAnimateStep env (introStep env s))
  unfold frame
  rw [m5, m4, c5, c4, hstep, hidle]
  exact ⟨rfl, rfl⟩

/-- The camera distance at the end of the frame in which the intro completes
without a selected state. -/
theorem frame_intro_complete_distance (env : FrameEnv) (s : Scene)
    (ht : s.animationType = some AnimationType.intro) (ha : s.isAnimating = true)
    (hw : s.warmupFramesRemaining = 0) (hp : 1 ≤ introRawProgress env s)
    (hsel : env.selectedState = none) :
    (frame env s).cameraDistance
      = s.zoomStart + (s.zoomEnd - s.zoomStart) * easeOutSpaceZoom 1 := by
  obtain ⟨hstep, hcam⟩ := introStep_completing env s ht ha hw hp
  have hidle := introCompleteStep_idle env (introAdvance env s) hsel
  have hfade : (introStep env s).statesFading = true := by
    rw [hstep, hidle]
  have hcore := (fadeOrAnimateStep_fading env (introStep env s) hfade).1
  simp only [animCore, Prod.mk.injEq] at hcore
  unfold frame
  rw [(motionSteps_fields env _).1, hcore.1, hstep, hidle]
  exact hcam

/-- C20 (the code at the failing input): `easeOutSpaceZoom 1` is
`1 - 0.7/4096`, not `1`; in the frame in which the intro completes (raw
progress 1, no state selected) the phase becomes idle with `cameraDistance`
at `DEFAULT_CAMERA_DISTANCE + (100 - DEFAULT_CAMERA_DISTANCE)·0.7/4096`,
strictly above `DEFAULT_CAMERA_DISTANCE`, the intro's `zoomEnd`. -/
theorem intro_ends_above_default :
    easeOutSpaceZoom 1 = 1 - 0.7 / 4096
      ∧ easeOutSpaceZoom 1 ≠ 1
      ∧ introEndScene.zoomEnd = DEFAULT_CAMERA_DISTANCE
      ∧ (frame introEndEnv introEndScene).isAnimating = false
      ∧ (frame introEndEnv introEndScene).cameraDistance
          = DEFAULT_CAMERA_DISTANCE + (100 - DEFAULT_CAMERA_DISTANCE) * (0.7 / 4096)
      ∧ DEFAULT_CAMERA_DISTANCE < (frame introEndEnv introEndScene).cameraDistance := by
  obtain ⟨f1, f2, f3, _, _, f6, f7⟩ := introEndScene_fields
  have hp := introEndScene_progress introEndEnv rfl rfl
  have hd := frame_intro_complete_distance introEndEnv introEndScene f1 f2 f3 hp rfl
  have hc2 : (frame introEndEnv introEndScene).isAnimating = false :=
    ((intro_completion_idle introEndEnv introEndScene f1 f2 f3 hp) rfl).1
  have hval : (frame introEndEnv introEndScene).cameraDistance
      = DEFAULT_CAMERA_DISTANCE + (100 - DEFAULT_CAMERA_DISTANCE) * (0.7 / 4096) := by
    rw [hd, f6, f7, easeOutSpaceZoom_one]
    unfold INTRO_START_DISTANCE
    ring
  have hlt : DEFAULT_CAMERA_DISTANCE < 100 := by
    unfold DEFAULT_CAMERA_DISTANCE CAMERA_Y
    rw [Real.sqrt_lt' (by norm_num)]
    norm_num
  refine ⟨easeOutSpaceZoom_one, ?_, f7, hc2, hval, ?_⟩
  · rw [easeOutSpaceZoom_one]
    norm_num
  · rw [hval]
    have : 0 < (100 - DEFAULT_CAMERA_DISTANCE) * (0.7 / 4096) :=
      mul_pos (by linarith) (by norm_num)
    linarith

/-! ## Momentum decay -/

theorem momentumStep_of_stopped (env : FrameEnv) (s : Scene)
    (h : |s.velocity| ≤ MOMENTUM_THRESHOLD) : momentumStep env s = s := by
  unfold momentumStep
  rw [if_neg (fun hc => absurd h (not_le.mpr hc.2))]

theorem momentumRun_of_stopped (envs : List FrameEnv) (s : Scene)
    (h : |s.velocity| ≤ MOMENTUM_THRESHOLD) : momentumRun s envs = s := by
  induction envs with
  | nil => rfl
  | cons e es ih =>
    show momentumRun (momentumStep e s) es = s
    rw [momentumStep_of_stopped e s h]
    exact ih

theorem momentumStep_isDragging (env : FrameEnv) (s : Scene) :
    (momentumStep env s).isDragging = s.isDragging := by
  unfold momentumStep
  split_ifs <;> rfl

/-- After `n` momentum blocks the velocity is either at most the threshold or
the initial velocity times `0.968 ^ n`. -/
theorem momentumRun_velocity (envs : List FrameEnv) (s : Scene) (hd : s.isDragging = false) :
    |(momentumRun s envs).velocity| ≤ MOMENTUM_THRESHOLD
      ∨ (momentumRun s envs).velocity = s.velocity * MOMENTUM_FRICTION ^ envs.length := by
  induction envs generalizing s with
  | nil =>
    right
    simp [momentumRun]
  | cons e es ih =>
    show |(momentumRun (momentumStep e s) es).velocity| ≤ MOMENTUM_THRESHOLD
      ∨ (momentumRun (momentumStep e s) es).velocity
          = s.velocity * MOMENTUM_FRICTION ^ (es.length + 1)
    by_cases hv : |s.velocity| > MOMENTUM_THRESHOLD
    · have hd' : (momentumStep e s).isDragging = false := by
        rw [momentumStep_isDragging]
        exact hd
      rcases ih (momentumStep e s) hd' with h | h
      · exact Or.inl h
      · right
        rw [h, (momentumStep_of_moving e s hd hv).2]
        ring
    · left
      have hle : |s.velocity| ≤ MOMENTUM_THRESHOLD := not_lt.mp hv
      rw [momentumStep_of_stopped e s hle, momentumRun_of_stopped es s hle]
      exact hle

/-- C14: momentum decay: for an initial velocity with
`MOMENTUM_THRESHOLD < |v0| ≤ 0.08` and no drag, a momentum step multiplies
the velocity by `0.968`, which strictly decreases `|velocity|` and keeps its
sign, and after 200 (or more) consecutive momentum blocks
`|velocity| ≤ MOMENTUM_THRESHOLD`. -/
theorem momentum_decay (s : Scene) (hd : s.isDragging = false)
    (hlo : MOMENTUM_THRESHOLD < |s.velocity|) (hhi : |s.velocity| ≤ 0.08) :
    (∀ env : FrameEnv,
        (momentumStep env s).velocity = s.velocity * 0.968
          ∧ |(momentumStep env s).velocity| < |s.velocity|
          ∧ 0 < (momentumStep env s).velocity * s.velocity)
      ∧ ∀ envs : List FrameEnv, 200 ≤ envs.length →
          |(momentumRun s envs).velocity| ≤ MOMENTUM_THRESHOLD := by
  have hpos : 0 < |s.velocity| := lt_trans (by unfold MOMENTUM_THRESHOLD; norm_num) hlo
  constructor
  · intro env
    have hv := (momentumStep_of_moving env s hd hlo).2
    have hv' : (momentumStep env s).velocity = s.velocity * 0.968 := hv
    refine ⟨hv', ?_, ?_⟩
    · rw [hv', abs_mul, abs_of_pos (by norm_num : (0 : ℝ) < 0.968)]
      nlinarith
    · rw [hv']
      have hne : s.velocity ≠ 0 := abs_pos.mp hpos
      have hsq : 0 < s.velocity * s.velocity := mul_self_pos.mpr hne
      nlinarith
  · intro envs hlen
    rcases momentumRun_velocity envs s hd with h | h
    · exact h
    · have hf0 : (0 : ℝ) ≤ MOMENTUM_FRICTION := by unfold MOMENTUM_FRICTION; norm_num
      rw [h, abs_mul, abs_of_nonneg (pow_nonneg hf0 _)]
      have hf1 : MOMENTUM_FRICTION ≤ 1 := by unfold MOMENTUM_FRICTION; norm_num
      have h200 : MOMENTUM_FRICTION ^ envs.length ≤ MOMENTUM_FRICTION ^ 200 :=
        pow_le_pow_of_le_one hf0 hf1 hlen
      have hnum : MOMENTUM_FRICTION ^ 200 ≤ 0.0015 := by
        unfold MOMENTUM_FRICTION
        norm_num
      have hp0 : 0 ≤ MOMENTUM_FRICTION ^ envs.length := pow_nonneg hf0 _
      have hprod : |s.velocity| * MOMENTUM_FRICTION ^ envs.length ≤ 0.08 * 0.0015 :=
        mul_le_mul hhi (le_trans h200 hnum) hp0 (by norm_num)
      unfold MOMENTUM_THRESHOLD
      linarith

theorem momentum_decay_witness :
    (∀ env : FrameEnv,
        (momentumStep env spinningScene).velocity = spinningScene.velocity * 0.968
          ∧ |(momentumStep env spinningScene).velocity| < |spinningScene.velocity|
          ∧ 0 < (momentumStep env spinningScene).velocity * spinningScene.velocity)
      ∧ ∀ envs : List FrameEnv, 200 ≤ envs.length →
          |(momentumRun spinningScene envs).velocity| ≤ MOMENTUM_THRESHOLD :=
  momentum_decay spinningScene rfl
    (by
      show MOMENTUM_THRESHOLD < |(0.05 : ℝ)|
      rw [abs_of_pos (by norm_num)]
      unfold MOMENTUM_THRESHOLD
      norm_num)
    (by
      show |(0.05 : ℝ)| ≤ 0.08
      rw [abs_of_pos (by norm_num)]
      norm_num)

/-! ## Homing -/

/-- The value of `shortAngleDist` is the only representative in `[-π, π)`. -/
theorem shortAngleDist_unique (a b x : ℝ) (hlo : -Real.pi ≤ x) (hhi : x < Real.pi)
    (hx : ∃ k : ℤ, a + x - b = (k : ℝ) * (2 * Real.pi)) : shortAngleDist a b = x := by
  have hpi : 0 < Real.pi := Real.pi_pos
  obtain ⟨k, hk⟩ := hx
  obtain ⟨k', hk'⟩ := shortAngleDist_congr a b
  obtain ⟨ylo, yhi⟩ := shortAngleDist_range a b
  have hdiff : shortAngleDist a b - x = ((k' - k : ℤ) : ℝ) * (2 * Real.pi) := by
    push_cast
    linarith
  have hk0 : k' - k = 0 := by
    by_contra hne
    rcases lt_or_gt_of_ne hne with hneg | hposk
    · have h1 : k' - k ≤ -1 := by omega
      have h2 : ((k' - k : ℤ) : ℝ) ≤ -1 := by exact_mod_cast h1
      nlinarith
    · have h1 : 1 ≤ k' - k := by omega
      have h2 : (1 : ℝ) ≤ ((k' - k : ℤ) : ℝ) := by exact_mod_cast h1
      nlinarith
  rw [hk0] at hdiff
  simp at hdiff
  linarith

theorem frameDelta_pos (env : FrameEnv) (h : 0 < env.rawDelta) :
    0 < frameDelta env ∧ frameDelta env ≤ 0.1 :=
  ⟨lt_min h (by norm_num), min_le_right _ _⟩

/-- C17: homing approaches home monotonically and stops within 0.005 rad:
for a homing step with time step `dt` (`0 < dt ≤ 0.1`) and signed distance
`d = shortAngleDist(yaw, home)`, if `|d| > 0.005` the new signed distance is
`d·exp(-1.2·min(1, |d|/0.3)·dt)`, of the same sign as `d` and of strictly
smaller magnitude; if `|d| ≤ 0.005` the step leaves the yaw unchanged and
clears `homingActive`. -/
theorem homing_step_monotone (env : FrameEnv) (c : Prop) [Decidable c] (s : Scene)
    (hc : c) (hactive : s.homingActive = true) (hdt : 0 < env.rawDelta) :
    (0 < frameDelta env ∧ frameDelta env ≤ 0.1)
      ∧ (|shortAngleDist s.currentRotationY US_CENTER_ROTATION_Y| > 0.005 →
          shortAngleDist (homingStep env c s).currentRotationY US_CENTER_ROTATION_Y
              = shortAngleDist s.currentRotationY US_CENTER_ROTATION_Y
                * Real.exp (-(1.2 * min 1
                    (|shortAngleDist s.currentRotationY US_CENTER_ROTATION_Y| / 0.3))
                  * frameDelta env)
            ∧ 0 < shortAngleDist (homingStep env c s).currentRotationY US_CENTER_ROTATION_Y
                * shortAngleDist s.currentRotationY US_CENTER_ROTATION_Y
            ∧ |shortAngleDist (homingStep env c s).currentRotationY US_CENTER_ROTATION_Y|
                < |shortAngleDist s.currentRotationY US_CENTER_ROTATION_Y|)
      ∧ (|shortAngleDist s.currentRotationY US_CENTER_ROTATION_Y| ≤ 0.005 →
          (homingStep env c s).currentRotationY = s.currentRotationY
            ∧ (homingStep env c s).homingActive = false) := by
  obtain ⟨hdt0, hdt1⟩ := frameDelta_pos env hdt
  refine ⟨⟨hdt0, hdt1⟩, ?_, ?_⟩
  · intro hfar
    generalize hd : shortAngleDist s.currentRotationY US_CENTER_ROTATION_Y = d at hfar
    have hdpos : 0 < |d| := lt_trans (by norm_num) hfar
    have hdne : d ≠ 0 := abs_pos.mp hdpos
    obtain ⟨dlo, dhi⟩ := shortAngleDist_range s.currentRotationY US_CENTER_ROTATION_Y
    obtain ⟨k, hk⟩ := shortAngleDist_congr s.currentRotationY US_CENTER_ROTATION_Y
    rw [hd] at dlo dhi hk
    have hease : 0 < min 1 (|d| / 0.3) := lt_min one_pos (div_pos hdpos (by norm_num))
    have hexp_neg : -(1.2 * min 1 (|d| / 0.3)) * frameDelta env < 0 := by
      have : 0 < 1.2 * min 1 (|d| / 0.3) * frameDelta env :=
        mul_pos (mul_pos (by norm_num) hease) hdt0
      linarith
    generalize he : Real.exp (-(1.2 * min 1 (|d| / 0.3)) * frameDelta env) = e
    have he0 : 0 < e := by
      rw [← he]
      exact Real.exp_pos _
    have he1 : e < 1 := by
      rw [← he]
      exact Real.exp_lt_one_iff.mpr hexp_neg
    have hyaw : (homingStep env c s).currentRotationY = s.currentRotationY + d * (1 - e) := by
      unfold homingStep
      dsimp only
      rw [if_pos ⟨hc, hactive⟩, hd, if_pos hfar]
      show s.currentRotationY + expSmooth 0 d (1.2 * min 1 (|d| / 0.3)) (frameDelta env) = _
      unfold expSmooth
      rw [he]
      ring
    have habs : |d * e| < |d| := by
      rw [abs_mul, abs_of_pos he0]
      nlinarith
    have hpi : |d| ≤ Real.pi := abs_le.mpr ⟨dlo, dhi.le⟩
    have hrange := abs_lt.mp (lt_of_lt_of_le habs hpi)
    have hnew : shortAngleDist (homingStep env c s).currentRotationY US_CENTER_ROTATION_Y
        = d * e := by
      apply shortAngleDist_unique _ _ _ hrange.1.le hrange.2
      refine ⟨k, ?_⟩
      rw [hyaw, ← hk]
      ring
    rw [hnew]
    refine ⟨rfl, ?_, habs⟩
    have hsq : 0 < d * d := mul_self_pos.mpr hdne
    nlinarith
  · intro hnear
    unfold homingStep
    dsimp only
    rw [if_pos ⟨hc, hactive⟩, if_neg (not_lt.mpr hnear)]
    exact ⟨rfl, rfl⟩

theorem homing_step_monotone_witness :
    shortAngleDist homingScene.currentRotationY US_CENTER_ROTATION_Y = 1
      ∧ |shortAngleDist (homingStep idleEnv True homingScene).currentRotationY
          US_CENTER_ROTATION_Y| < 1 :=
  have hd : shortAngleDist homingScene.currentRotationY US_CENTER_ROTATION_Y = 1 :=
    shortAngleDist_unique _ _ 1 (by linarith [Real.pi_pos]) (by linarith [Real.pi_gt_three])
      ⟨0, by
        show US_CENTER_ROTATION_Y - 1 + 1 - US_CENTER_ROTATION_Y = ((0 : ℤ) : ℝ) * (2 * Real.pi)
        push_cast
        ring⟩
  have hstep := (homing_step_monotone idleEnv True homingScene trivial rfl
    (by
      show (0 : ℝ) < 0.016
      norm_num)).2.1
      (by
        rw [hd, abs_one]
        norm_num)
  ⟨hd, by
    have h3 := hstep.2.2
    rw [hd, abs_one] at h3
    exact h3⟩

/-! ## The animation block while an animation is active -/

/-- The animation block for an active focus-state or zoom-out animation with
the states fade not running: the three interpolated values, and the phase. -/
theorem fadeOrAnimateStep_active (env : FrameEnv) (s : Scene)
    (hf : s.statesFading = false) (ha : s.isAnimating = true)
    (ht : s.animationType ≠ some AnimationType.intro) :
    (fadeOrAnimateStep env s).currentRotationY
        = s.rotationStart + (s.rotationEnd - s.rotationStart)
            * easeInOutCubic (animationProgress env s)
      ∧ (fadeOrAnimateStep env s).currentRotationX
        = s.rotationXStart + (s.rotationXEnd - s.rotationXStart)
            * easeInOutCubic (animationProgress env s)
      ∧ (fadeOrAnimateStep env s).cameraDistance
        = s.zoomStart + (s.zoomEnd - s.zoomStart) * easeInOutCubic (animationProgress env s)
      ∧ (animationProgress env s ≥ 1 →
          (fadeOrAnimateStep env s).isAnimating = false
            ∧ (fadeOrAnimateStep env s).animationType = none)
      ∧ (animationProgress env s < 1 →
          (fadeOrAnimateStep env s).isAnimating = true
            ∧ (fadeOrAnimateStep env s).animationType = s.animationType)
      ∧ (fadeOrAnimateStep env s).velocity = s.velocity
      ∧ (fadeOrAnimateStep env s).isDragging = s.isDragging
      ∧ (fadeOrAnimateStep env s).kbLeft = s.kbLeft
      ∧ (fadeOrAnimateStep env s).kbRight = s.kbRight
      ∧ (fadeOrAnimateStep env s).kbVelocity = s.kbVelocity := by
  unfold fadeOrAnimateStep
  dsimp only
  rw [if_neg (by simp [hf]), if_pos ⟨ha, ht⟩]
  unfold regularAnimationStep animationProgress
  dsimp only
  by_cases hp : min ((env.now - s.animationStartTime) / s.animationDuration) 1 ≥ 1
  · rw [if_pos hp]
    exact ⟨rfl, rfl, rfl, fun _ => ⟨rfl, rfl⟩, fun h => absurd hp (not_le.mpr h), rfl, rfl,
      rfl, rfl, rfl⟩
  · rw [if_neg hp]
    exact ⟨rfl, rfl, rfl, fun h => absurd h hp, fun _ => ⟨ha, rfl⟩, rfl, rfl, rfl, rfl, rfl⟩

theorem animationProgress_of_running (env : FrameEnv) (s : Scene)
    (hd : 0 < s.animationDuration) (h0 : s.animationStartTime ≤ env.now)
    (h1 : env.now ≤ s.animationStartTime + s.animationDuration) :
    animationProgress env s = (env.now - s.animationStartTime) / s.animationDuration
      ∧ 0 ≤ animationProgress env s ∧ animationProgress env s ≤ 1 := by
  have hq1 : (env.now - s.animationStartTime) / s.animationDuration ≤ 1 := by
    rw [div_le_one hd]
    linarith
  have hq0 : 0 ≤ (env.now - s.animationStartTime) / s.animationDuration :=
    div_nonneg (by linarith) hd.le
  unfold animationProgress
  rw [min_eq_left hq1]
  exact ⟨rfl, hq0, hq1⟩

theorem animationProgress_of_done (env : FrameEnv) (s : Scene)
    (hd : 0 < s.animationDuration) (h : s.animationDuration ≤ env.now - s.animationStartTime) :
    animationProgress env s = 1 := by
  unfold animationProgress
  apply min_eq_right
  rw [le_div_iff₀ hd]
  linarith

theorem easeInOutCubic_strictMono {a b : ℝ} (ha : 0 ≤ a) (hab : a < b) (hb : b ≤ 1) :
    easeInOutCubic a < easeInOutCubic b := by
  unfold easeInOutCubic
  by_cases h1 : a < 0.5
  · by_cases h2 : b < 0.5
    · rw [if_pos h1, if_pos h2]
      have hcube : a ^ 3 < b ^ 3 := pow_lt_pow_left₀ hab ha (by norm_num)
      nlinarith
    · rw [if_pos h1, if_neg h2]
      have hcube : a ^ 3 < (0.5 : ℝ) ^ 3 := pow_lt_pow_left₀ h1 ha (by norm_num)
      have hu0 : 0 ≤ -2 * b + 2 := by linarith
      have hu1 : -2 * b + 2 ≤ 1 := by
        have : (0.5 : ℝ) ≤ b := not_lt.mp h2
        linarith
      have hp1 : (-2 * b + 2) ^ 3 ≤ 1 := pow_le_one₀ hu0 hu1
      nlinarith
  · have ha5 : (0.5 : ℝ) ≤ a := not_lt.mp h1
    have h2 : ¬ b < 0.5 := not_lt.mpr (le_trans ha5 hab.le)
    rw [if_neg h1, if_neg h2]
    have hu0 : 0 ≤ -2 * b + 2 := by linarith
    have hlt : -2 * b + 2 < -2 * a + 2 := by linarith
    have hcube : (-2 * b + 2) ^ 3 < (-2 * a + 2) ^ 3 := pow_lt_pow_left₀ hlt hu0 (by norm_num)
    linarith

/-- The camera distance at the end of a frame of an active animation. -/
theorem frame_active_cameraDistance (env : FrameEnv) (s : Scene)
    (hf : s.statesFading = false) (ha : s.isAnimating = true)
    (ht : s.animationType ≠ some AnimationType.intro) :
    (frame env s).cameraDistance
      = s.zoomStart + (s.zoomEnd - s.zoomStart) * easeInOutCubic (animationProgress env s) := by
  unfold frame
  rw [(motionSteps_fields env _).1, introStep_of_not_intro env s ht]
  exact (fadeOrAnimateStep_active env s hf ha ht).2.2.1

/-- C19 (amended): focus zoom is strictly monotone while the states fade is
not running: for two frames of the same focus-state animation (same stored
zoom ends, start time and positive duration) whose start distance is greater
than its end distance, both entered with `statesFading` false, with clock
values `start ≤ t1 < t2 ≤ start + duration`, the camera distance after the
frame at `t2` is strictly less than after the frame at `t1`. -/
theorem focus_zoom_strictly_decreasing (env1 env2 : FrameEnv) (s1 s2 : Scene)
    (hf1 : s1.statesFading = false) (ha1 : s1.isAnimating = true)
    (ht1 : s1.animationType = some AnimationType.focusState)
    (hf2 : s2.statesFading = false) (ha2 : s2.isAnimating = true)
    (ht2 : s2.animationType = some AnimationType.focusState)
    (hzs : s2.zoomStart = s1.zoomStart) (hze : s2.zoomEnd = s1.zoomEnd)
    (hst : s2.animationStartTime = s1.animationStartTime)
    (hdu : s2.animationDuration = s1.animationDuration)
    (hd : 0 < s1.animationDuration) (hzoom : s1.zoomEnd < s1.zoomStart)
    (h0 : s1.animationStartTime ≤ env1.now) (h12 : env1.now < env2.now)
    (h2 : env2.now ≤ s1.animationStartTime + s1.animationDuration) :
    (frame env2 s2).cameraDistance < (frame env1 s1).cameraDistance := by
  have hn1 : s1.animationType ≠ some AnimationType.intro := by rw [ht1]; simp
  have hn2 : s2.animationType ≠ some AnimationType.intro := by rw [ht2]; simp
  rw [frame_active_cameraDistance env1 s1 hf1 ha1 hn1,
    frame_active_cameraDistance env2 s2 hf2 ha2 hn2, hzs, hze]
  obtain ⟨p1, p1lo, _⟩ := animationProgress_of_running env1 s1 hd h0 (by linarith)
  obtain ⟨p2, _, p2hi⟩ := animationProgress_of_running env2 s2 (by rw [hdu]; exact hd)
    (by rw [hst]; linarith) (by rw [hst, hdu]; exact h2)
  have hlt : animationProgress env1 s1 < animationProgress env2 s2 := by
    rw [p1, p2, hst, hdu]
    exact div_lt_div_of_pos_right (by linarith) hd
  have hease := easeInOutCubic_strictMono p1lo hlt p2hi
  nlinarith

theorem focus_zoom_strictly_decreasing_witness :
    (frame midFocusEnv focusScene).cameraDistance
      < (frame quarterFocusEnv focusScene).cameraDistance :=
  focus_zoom_strictly_decreasing quarterFocusEnv midFocusEnv focusScene focusScene
    rfl rfl rfl rfl rfl rfl rfl rfl rfl rfl
    (by
      show (0 : ℝ) < 1200
      norm_num)
    (by
      show ZOOMED_CAMERA_DISTANCE < DEFAULT_CAMERA_DISTANCE
      unfold ZOOMED_CAMERA_DISTANCE DEFAULT_CAMERA_DISTANCE CAMERA_Y
      apply Real.sqrt_lt_sqrt
      · norm_num
      · norm_num)
    (by
      show (0 : ℝ) ≤ 300
      norm_num)
    (by
      show (300 : ℝ) < 600
      norm_num)
    (by
      show (600 : ℝ) ≤ 0 + 1200
      norm_num)

/-! ## The click guard -/

theorem lookup_mem {β : Type} (l : List (String × β)) (k : String) (v : β)
    (h : l.lookup k = some v) : (k, v) ∈ l := by
  induction l with
  | nil => simp [List.lookup] at h
  | cons e t ih =>
    obtain ⟨a, b⟩ := e
    unfold List.lookup at h
    split at h
    · rename_i heq
      have hka : k = a := by simpa using heq
      simp only [Option.some.injEq] at h
      rw [hka, h]
      exact List.mem_cons_self _ _
    · exact List.mem_cons_of_mem _ (ih h)

theorem STATE_DATA_names : ∀ e ∈ STATE_DATA, e.2.name = e.1 := by
  simp [STATE_DATA]

/-- After `selectState(stateName)` the selected state carries that name. -/
theorem selectState_name (stateName : String) (st : Store) :
    (selectState stateName st).selectedState.map StateInfo.name = some stateName := by
  unfold selectState
  dsimp only
  split_ifs with h
  · exact h
  · show some ((STATE_DATA.lookup stateName).getD (fallbackStateInfo stateName)).name
      = some stateName
    congr 1
    cases hl : STATE_DATA.lookup stateName with
    | none => rfl
    | some v => exact STATE_DATA_names _ (lookup_mem _ _ _ hl)

theorem handleStateClick_accepted (stateName : String) (introComplete : Bool) (now : ℝ)
    (s : Scene) (h : s.isAnimating = false ∧ (introComplete = true ∨ s.earthOpacity > 0.5)) :
    ∃ ry rx d : ℝ, handleStateClick stateName introComplete now s
      = some (startFocusAnimation ry rx ZOOMED_CAMERA_DISTANCE d now s) := by
  unfold handleStateClick
  dsimp only
  rw [if_neg]
  · exact ⟨_, _, _, rfl⟩
  · intro hc
    rcases hc with hc | hc
    · rw [h.1] at hc
      exact absurd hc (by simp)
    · exact hc h.2

theorem handleStateClick_rejected (stateName : String) (introComplete : Bool) (now : ℝ)
    (s : Scene) (h : ¬ (s.isAnimating = false ∧ (introComplete = true ∨ s.earthOpacity > 0.5))) :
    handleStateClick stateName introComplete now s = none := by
  unfold handleStateClick
  dsimp only
  rw [if_pos]
  by_cases ha : s.isAnimating = true
  · exact Or.inl ha
  · right
    intro hr
    exact h ⟨by simpa using ha, hr⟩

/-- C18: click-to-select guard: a state click is accepted if and only if no
animation is active and (`introComplete` or earth opacity above 0.5); a
rejected click changes neither the store nor any ref; an accepted click
selects the state in the store and starts a focus-state animation towards
`ZOOMED_CAMERA_DISTANCE` from the current yaw, pitch and distance. -/
theorem state_click_guard (stateName : String) (introComplete : Bool) (now : ℝ)
    (st : Store) (s : Scene) :
    ((handleStateClick stateName introComplete now s).isSome = true
        ↔ (s.isAnimating = false ∧ (introComplete = true ∨ s.earthOpacity > 0.5)))
      ∧ (¬ (s.isAnimating = false ∧ (introComplete = true ∨ s.earthOpacity > 0.5)) →
          stateClickEffect stateName introComplete now (st, s) = (st, s))
      ∧ ((s.isAnimating = false ∧ (introComplete = true ∨ s.earthOpacity > 0.5)) →
          (stateClickEffect stateName introComplete now (st, s)).1 = selectState stateName st
            ∧ (stateClickEffect stateName introComplete now (st, s)).1.selectedState.map
                StateInfo.name = some stateName
            ∧ (stateClickEffect stateName introComplete now (st, s)).2.isAnimating = true
            ∧ (stateClickEffect stateName introComplete now (st, s)).2.animationType
                = some AnimationType.focusState
            ∧ (stateClickEffect stateName introComplete now (st, s)).2.zoomEnd
                = ZOOMED_CAMERA_DISTANCE
            ∧ (stateClickEffect stateName introComplete now (st, s)).2.zoomStart
                = s.cameraDistance
            ∧ (stateClickEffect stateName introComplete now (st, s)).2.rotationStart
                = s.currentRotationY
            ∧ (stateClickEffect stateName introComplete now (st, s)).2.rotationXStart
                = s.currentRotationX
            ∧ (stateClickEffect stateName introComplete now (st, s)).2.animationStartTime
                = now) := by
  refine ⟨?_, ?_, ?_⟩
  · constructor
    · intro hsome
      by_contra hn
      rw [handleStateClick_rejected stateName introComplete now s hn] at hsome
      exact absurd hsome (by simp)
    · intro hacc
      obtain ⟨ry, rx, d, h⟩ := handleStateClick_accepted stateName introComplete now s hacc
      rw [h]
      rfl
  · intro hrej
    unfold stateClickEffect
    rw [handleStateClick_rejected stateName introComplete now s hrej]
  · intro hacc
    obtain ⟨ry, rx, d, h⟩ := handleStateClick_accepted stateName introComplete now s hacc
    unfold stateClickEffect
    dsimp only
    rw [h]
    exact ⟨rfl, selectState_name stateName st, rfl, rfl, rfl, rfl, rfl, rfl, rfl⟩

theorem state_click_guard_witness :
    stateClickEffect "Texas" false 0 (initialStore, initialScene) = (initialStore, initialScene)
      ∧ (stateClickEffect "Texas" true 0 (initialStore, initialScene)).1.selectedState.map
          StateInfo.name = some "Texas"
      ∧ (stateClickEffect "Texas" true 0 (initialStore, initialScene)).2.animationType
          = some AnimationType.focusState :=
  have hacc : initialScene.isAnimating = false
      ∧ (true = true ∨ initialScene.earthOpacity > 0.5) := ⟨rfl, Or.inl rfl⟩
  have hrej : ¬ (initialScene.isAnimating = false
      ∧ (false = true ∨ initialScene.earthOpacity > 0.5)) := by
    intro h
    rcases h.2 with h1 | h1
    · exact absurd h1 (by simp)
    · have h2 : (0 : ℝ) > 0.5 := h1
      norm_num at h2
  ⟨(state_click_guard "Texas" false 0 initialStore initialScene).2.1 hrej,
    ((state_click_guard "Texas" true 0 initialStore initialScene).2.2 hacc).2.1,
    ((state_click_guard "Texas" true 0 initialStore initialScene).2.2 hacc).2.2.2.1⟩

/-! ## Scroll modulation -/

theorem rawScrollTarget_neutral (env : FrameEnv) (x : ℝ)
    (h : env.selectedState ≠ none ∨ env.isCountyView = true ∨ env.introComplete = false) :
    rawScrollTarget (withScrollTarget env x) = 0 := by
  unfold rawScrollTarget withScrollTarget
  dsimp only
  rw [if_pos h]

theorem scrollProgressStep_neutral (env : FrameEnv) (x y : ℝ) (s : Scene)
    (h : env.selectedState ≠ none ∨ env.isCountyView = true ∨ env.introComplete = false) :
    scrollProgressStep (withScrollTarget env x) s
      = scrollProgressStep (withScrollTarget env y) s := by
  unfold scrollProgressStep
  rw [rawScrollTarget_neutral env x h, rawScrollTarget_neutral env y h]
  rfl

theorem motionSteps_neutral (env : FrameEnv) (x y : ℝ) (s : Scene)
    (h : env.selectedState ≠ none ∨ env.isCountyView = true ∨ env.introComplete = false) :
    motionSteps (withScrollTarget env x) s = motionSteps (withScrollTarget env y) s := by
  unfold motionSteps
  dsimp only
  have e3 : momentumStep (withScrollTarget env x) s = momentumStep (withScrollTarget env y) s :=
    rfl
  rw [e3]
  generalize momentumStep (withScrollTarget env y) s = s3
  have e4 : springStep (withScrollTarget env x) s3 = springStep (withScrollTarget env y) s3 :=
    rfl
  rw [e4, scrollProgressStep_neutral env x y _ h]
  rfl

theorem frame_neutral (env : FrameEnv) (x y : ℝ) (s : Scene)
    (h : env.selectedState ≠ none ∨ env.isCountyView = true ∨ env.introComplete = false) :
    frame (withScrollTarget env x) s = frame (withScrollTarget env y) s := by
  unfold frame
  have e1 : introStep (withScrollTarget env x) s = introStep (withScrollTarget env y) s := rfl
  rw [e1]
  generalize introStep (withScrollTarget env y) s = s1
  have e2 : fadeOrAnimateStep (withScrollTarget env x) s1
      = fadeOrAnimateStep (withScrollTarget env y) s1 := rfl
  rw [e2]
  exact motionSteps_neutral env x y _ h

theorem Store.apply_countyHasState (st : Store) (a : StoreAction) (h : st.countyHasState) :
    (st.apply a).countyHasState := by
  unfold Store.countyHasState at h ⊢
  cases a with
  | selectState stateName =>
    show (selectState stateName st).viewMode = ViewMode.stateCounties →
      (selectState stateName st).selectedState ≠ none
    unfold selectState
    dsimp only
    split_ifs with hsel
    · intro _ hnone
      have hn : st.selectedState = none := hnone
      rw [hn] at hsel
      exact absurd hsel (by simp)
    · intro _ hnone
      exact absurd hnone (by simp)
  | setHoveredState stateName => exact h
  | clearSelection =>
    intro hv
    exact absurd hv (by simp [Store.apply, clearSelection])
  | enterCountyView =>
    show (enterCountyView st).viewMode = ViewMode.stateCounties →
      (enterCountyView st).selectedState ≠ none
    unfold enterCountyView
    split_ifs with hsel
    · exact h
    · intro _
      exact hsel
  | exitCountyView =>
    intro hv
    exact absurd hv (by simp [Store.apply, exitCountyView])
  | selectCounty countyName => exact h
  | setHoveredCounty countyName => exact h
  | clearCountySelection => exact h
  | transitionComplete => exact h
  | requestStateZoom stateName => exact h
  | clearPendingZoom => exact h

/-- From the initial store, every sequence of store actions keeps the view in
county mode only while a state is selected. -/
theorem store_countyHasState (actions : List StoreAction) :
    (actions.foldl Store.apply initialStore).countyHasState := by
  have key : ∀ (l : List StoreAction) (st : Store), st.countyHasState →
      (l.foldl Store.apply st).countyHasState := by
    intro l
    induction l with
    | nil => exact fun _ h => h
    | cons a t ih => exact fun st h => ih (st.apply a) (Store.apply_countyHasState st a h)
  apply key
  intro hv
  exact absurd hv (by simp [initialStore])

/-- C16: scroll modulation is neutral while a state is selected, the view is
in county mode or the intro is not complete: for any frame and any two values
`x`, `y` of the raw scroll signal the frame yields the same scene (animation
state and smoothed scroll state) and the same applied camera distance and
scroll Y offset; the raw scroll is read as 0; and (county mode implying a
selected state, as the store guarantees) `canScrollRotate` is false, so no
scroll rotation or homing is applied, the applied camera distance is the
state machine's `cameraDistance` and the scroll Y offset is 0. -/
theorem scroll_neutral (env : FrameEnv) (s : Scene) (x y : ℝ)
    (h : env.selectedState ≠ none ∨ env.isCountyView = true ∨ env.introComplete = false)
    (hstore : env.isCountyView = true → env.selectedState ≠ none) :
    frame (withScrollTarget env x) s = frame (withScrollTarget env y) s
      ∧ effectiveCameraDistance (withScrollTarget env x) (frame (withScrollTarget env x) s)
          = effectiveCameraDistance (withScrollTarget env y) (frame (withScrollTarget env y) s)
      ∧ appliedScrollYOffset (withScrollTarget env x) (frame (withScrollTarget env x) s)
          = appliedScrollYOffset (withScrollTarget env y) (frame (withScrollTarget env y) s)
      ∧ rawScrollTarget (withScrollTarget env x) = 0
      ∧ (∀ t : Scene, ¬ canScrollRotate (withScrollTarget env x) t)
      ∧ (∀ (t u : Scene) (d : ℝ),
          (scrollRotateStep (withScrollTarget env x) (canScrollRotate (withScrollTarget env x) t)
              d u).smoothScrollRotation = u.smoothScrollRotation
            ∧ (scrollRotateStep (withScrollTarget env x)
              (canScrollRotate (withScrollTarget env x) t) d u).currentRotationY
                = u.currentRotationY
            ∧ homingStep (withScrollTarget env x) (canScrollRotate (withScrollTarget env x) t) u
                = u
            ∧ (scrollDrainStep (withScrollTarget env x)
              (canScrollRotate (withScrollTarget env x) t) u).currentRotationY
                = u.currentRotationY)
      ∧ effectiveCameraDistance (withScrollTarget env x) (frame (withScrollTarget env x) s)
          = (frame (withScrollTarget env x) s).cameraDistance
      ∧ appliedScrollYOffset (withScrollTarget env x) (frame (withScrollTarget env x) s)
          = 0 := by
  have hcore : env.selectedState ≠ none ∨ env.introComplete = false := by
    rcases h with h1 | h2 | h3
    · exact Or.inl h1
    · exact Or.inl (hstore h2)
    · exact Or.inr h3
  have hnot : ¬ (env.introComplete = true ∧ env.selectedState = none) := by
    intro hc
    rcases hcore with h1 | h3
    · exact h1 hc.2
    · rw [hc.1] at h3
      exact absurd h3 (by simp)
  have hcan : ∀ t : Scene, ¬ canScrollRotate (withScrollTarget env x) t := by
    intro t hc
    exact hnot ⟨hc.2.2.1, hc.2.2.2⟩
  have hframe := frame_neutral env x y s h
  have heff : ∀ (z : ℝ) (t : Scene),
      effectiveCameraDistance (withScrollTarget env z) t = t.cameraDistance := by
    intro z t
    unfold effectiveCameraDistance
    rw [if_neg (fun hc => hnot ⟨hc.1, hc.2.1⟩)]
  have hoff : ∀ (z : ℝ) (t : Scene), appliedScrollYOffset (withScrollTarget env z) t = 0 := by
    intro z t
    unfold appliedScrollYOffset
    rw [if_neg (fun hc => hnot ⟨hc.1, hc.2⟩)]
  refine ⟨hframe, ?_, ?_, rawScrollTarget_neutral env x h, hcan, ?_, heff x _, hoff x _⟩
  · rw [heff x, heff y, hframe]
  · rw [hoff x, hoff y]
  · intro t u d
    refine ⟨?_, scrollRotateStep_yaw _ _ d u, ?_, scrollDrainStep_yaw_of_not _ _ u (hcan t)⟩
    · unfold scrollRotateStep
      rw [if_neg (fun hc => hcan t hc.1)]
      split_ifs <;> rfl
    · unfold homingStep
      dsimp only
      rw [if_neg (fun hc => hcan t hc.1)]

theorem scroll_neutral_witness :
    frame (withScrollTarget selectedEnv 0.25) initialScene
        = frame (withScrollTarget selectedEnv 0.75) initialScene
      ∧ rawScrollTarget (withScrollTarget selectedEnv 0.25) = 0 :=
  have h := scroll_neutral selectedEnv initialScene 0.25 0.75
    (Or.inl (by simp [selectedEnv])) (fun _ => by simp [selectedEnv])
  ⟨h.1, h.2.2.2.1⟩

/-! ## The pitch through the steps -/

theorem STATE_CENTROIDS_lat : ∀ e ∈ STATE_CENTROIDS, 0 ≤ e.2.1 ∧ e.2.1 ≤ 80 := by
  simp only [STATE_CENTROIDS, List.forall_mem_cons, List.not_mem_nil, false_implies,
    implies_true, and_true]
  norm_num

theorem targetLatLon_lat (stateName : String) :
    0 ≤ (targetLatLon stateName).1 ∧ (targetLatLon stateName).1 ≤ 80 := by
  unfold targetLatLon
  cases hl : STATE_CENTROIDS.lookup stateName with
  | none =>
    show 0 ≤ US_CENTER_LAT ∧ US_CENTER_LAT ≤ 80
    unfold US_CENTER_LAT
    constructor <;> norm_num
  | some c => exact STATE_CENTROIDS_lat _ (lookup_mem _ _ _ hl)

theorem stateTargetRotationX_bound (stateName : String) :
    |stateTargetRotationX stateName| ≤ MAX_TILT_ANGLE := by
  obtain ⟨h0, h1⟩ := targetLatLon_lat stateName
  unfold stateTargetRotationX US_CENTER_LAT MAX_TILT_ANGLE
  rw [abs_le]
  constructor <;> linarith

theorem PitchInv_of_pitchCore {clock : ℝ} {s s' : Scene} (hc : pitchCore s' = pitchCore s)
    (h : PitchInv clock s) : PitchInv clock s' := by
  simp only [pitchCore, Prod.mk.injEq] at hc
  obtain ⟨e1, e2, e3, e4, e5, e6, e7⟩ := hc
  unfold PitchInv at h ⊢
  rw [e1, e2, e3, e4, e5, e6, e7]
  exact h

theorem PitchInv_mono {clock clock' : ℝ} {s : Scene} (hle : clock ≤ clock')
    (h : PitchInv clock s) : PitchInv clock' s := by
  obtain ⟨ha, hc⟩ := h
  refine ⟨ha, fun h1 h2 => ?_⟩
  obtain ⟨c1, c2, c3, c4⟩ := hc h1 h2
  exact ⟨c1, c2, c3, le_trans c4 hle⟩

theorem startFocusAnimation_pitch_inv {clock : ℝ} {s : Scene}
    (ry rx zoom duration now : ℝ) (hrx : |rx| ≤ MAX_TILT_ANGLE) (hd : 0 < duration)
    (h : PitchInv clock s) :
    PitchInv now (startFocusAnimation ry rx zoom duration now s) := by
  refine ⟨h.1, fun _ _ => ⟨h.1, hrx, ?_, le_refl _⟩⟩
  show 0 < duration * 1000
  linarith

theorem startZoomAnimation_pitch_inv {clock : ℝ} {s : Scene} (zoom duration now : ℝ)
    (hd : 0 < duration) (h : PitchInv clock s) :
    PitchInv now (startZoomAnimation zoom duration now s) := by
  refine ⟨h.1, fun _ _ => ⟨h.1, ?_, ?_, le_refl _⟩⟩
  · show |(0 : ℝ)| ≤ MAX_TILT_ANGLE
    unfold MAX_TILT_ANGLE
    norm_num
  · show 0 < duration * 1000
    linarith

theorem startIntro_pitch_inv {clock : ℝ} {s : Scene} (now : ℝ) (hle : clock ≤ now)
    (h : PitchInv clock s) : PitchInv now (startIntro now s) := by
  unfold startIntro
  split_ifs with h0
  · exact PitchInv_mono hle h
  · exact ⟨h.1, fun _ h2 => absurd rfl h2⟩

theorem introCompleteStep_pitch_inv (env : FrameEnv) {s : Scene}
    (ha : |s.currentRotationX| ≤ MAX_TILT_ANGLE) :
    PitchInv env.now (introCompleteStep env s) := by
  unfold introCompleteStep
  dsimp only
  split
  · rename_i name _
    refine ⟨ha, fun _ _ => ⟨ha, stateTargetRotationX_bound name, ?_, le_refl _⟩⟩
    show 0 < ROTATION_ANIMATION_DURATION * 1000
    unfold ROTATION_ANIMATION_DURATION
    norm_num
  · exact ⟨ha, fun h1 _ => absurd h1 (by simp)⟩

theorem introStep_pitch_inv {clock : ℝ} (env : FrameEnv) {s : Scene}
    (hle : clock ≤ env.now) (h : PitchInv clock s) : PitchInv env.now (introStep env s) := by
  unfold introStep
  dsimp only
  by_cases hi : s.animationType = some AnimationType.intro ∧ s.isAnimating = true
  · rw [if_pos hi]
    by_cases hw : s.warmupFramesRemaining > 0
    · rw [if_pos hw]
      exact ⟨h.1, fun _ h2 => absurd hi.1 h2⟩
    · rw [if_neg hw]
      generalize (if env.now - s.animationStartTime > INTRO_DURATION * 1000 + 2000
          then (1 : ℝ) else s.introProgress + min env.rawDelta 0.033 / INTRO_DURATION) = P
      by_cases hdone : min P 1 ≥ 1
      · rw [if_pos hdone]
        exact introCompleteStep_pitch_inv env h.1
      · rw [if_neg hdone]
        exact ⟨h.1, fun _ h2 => absurd hi.1 h2⟩
  · rw [if_neg hi]
    exact PitchInv_mono hle h

theorem fadeOrAnimateStep_pitch_inv (env : FrameEnv) {s : Scene} (h : PitchInv env.now s) :
    PitchInv env.now (fadeOrAnimateStep env s) := by
  unfold fadeOrAnimateStep
  dsimp only
  by_cases hf : s.statesFading = true
  · rw [if_pos hf]
    split_ifs <;> exact h
  · rw [if_neg hf]
    by_cases hr : s.isAnimating = true ∧ s.animationType ≠ some AnimationType.intro
    · rw [if_pos hr]
      unfold regularAnimationStep
      dsimp only
      obtain ⟨ha, hc⟩ := h
      obtain ⟨c1, c2, c3, c4⟩ := hc hr.1 hr.2
      have hq : 0 ≤ (env.now - s.animationStartTime) / s.animationDuration :=
        div_nonneg (by linarith) c3.le
      have hp0 := le_min hq (zero_le_one : (0 : ℝ) ≤ 1)
      have hp1 := min_le_right ((env.now - s.animationStartTime) / s.animationDuration) 1
      have hease := easeInOutCubic_mem hp0 hp1
      have hpitch := abs_le.mpr (lerp_mem (abs_le.mp c1) (abs_le.mp c2) hease.1 hease.2)
      by_cases hdone : min ((env.now - s.animationStartTime) / s.animationDuration) 1 ≥ 1
      · rw [if_pos hdone]
        exact ⟨hpitch, fun h1 _ => absurd h1 (by simp)⟩
      · rw [if_neg hdone]
        exact ⟨hpitch, fun _ _ => ⟨c1, c2, c3, c4⟩⟩
    · rw [if_neg hr]
      exact h

theorem motionSteps_pitchCore (env : FrameEnv) (s : Scene) :
    pitchCore (motionSteps env s) = pitchCore s := by
  obtain ⟨_, _, _, m4, m5, m6, m7, _, m9, m10, m11, _⟩ := motionSteps_fields env s
  unfold pitchCore
  rw [m4, m5, m6, m7, m9, m10, m11]

theorem frame_pitch_inv {clock : ℝ} (env : FrameEnv) {s : Scene} (hle : clock ≤ env.now)
    (h : PitchInv clock s) : PitchInv env.now (frame env s) := by
  unfold frame
  exact PitchInv_of_pitchCore (motionSteps_pitchCore env _)
    (fadeOrAnimateStep_pitch_inv env (introStep_pitch_inv env hle h))

theorem step_pitch_inv {clock : ℝ} {s : Scene} (e : Event) (hw : e.wellTimed clock)
    (htilt : e.tiltBounded) (h : PitchInv clock s) : PitchInv (e.clockAfter clock) (step s e) := by
  obtain ⟨ht, hm⟩ := hw
  cases e with
  | introStart now => exact startIntro_pitch_inv now (ht now rfl) h
  | focusStart ry rx zoom duration now =>
    exact startFocusAnimation_pitch_inv ry rx zoom duration now htilt hm.2 h
  | zoomStart zoom duration now => exact startZoomAnimation_pitch_inv zoom duration now hm.2 h
  | stateClick name introComplete now =>
    show PitchInv now ((handleStateClick name introComplete now s).getD s)
    unfold handleStateClick
    dsimp only
    by_cases hg : s.isAnimating = true ∨ ¬ (introComplete = true ∨ s.earthOpacity > 0.5)
    · rw [if_pos hg]
      exact PitchInv_mono (ht now rfl) h
    · rw [if_neg hg]
      refine startFocusAnimation_pitch_inv _ _ _ _ now (stateTargetRotationX_bound name) ?_ h
      split_ifs <;> first
        | (unfold ROTATION_ANIMATION_DURATION
           norm_num)
        | (unfold ZOOM_ANIMATION_DURATION
           norm_num)
  | deselection stateSelected introComplete now =>
    show PitchInv now (handleDeselection stateSelected introComplete now s)
    unfold handleDeselection
    dsimp only
    split_ifs
    · exact startZoomAnimation_pitch_inv _ _ now (by unfold ZOOM_ANIMATION_DURATION; norm_num) h
    · exact PitchInv_mono (ht now rfl) h
  | mouseDown button clientX now =>
    refine PitchInv_of_pitchCore ?_ (PitchInv_mono (ht now rfl) h)
    show pitchCore (handleMouseDown button clientX now s) = pitchCore s
    unfold handleMouseDown
    split_ifs <;> rfl
  | mouseMove clientX now =>
    refine PitchInv_of_pitchCore ?_ (PitchInv_mono (ht now rfl) h)
    show pitchCore (handleMouseMove clientX now s) = pitchCore s
    unfold handleMouseMove
    dsimp only
    split_ifs <;> rfl
  | mouseUp now =>
    refine PitchInv_of_pitchCore ?_ (PitchInv_mono (ht now rfl) h)
    show pitchCore (handleMouseUp now s) = pitchCore s
    unfold handleMouseUp
    dsimp only
    split_ifs <;> rfl
  | mouseLeave =>
    refine PitchInv_of_pitchCore ?_ h
    show pitchCore (handleMouseLeave s) = pitchCore s
    unfold handleMouseLeave
    split_ifs <;> rfl
  | hoverChange isHovering => exact h
  | keyDown key introComplete now =>
    refine PitchInv_of_pitchCore ?_ (PitchInv_mono (ht now rfl) h)
    show pitchCore (handleKeyDown key introComplete now s) = pitchCore s
    unfold handleKeyDown
    split_ifs
    · rfl
    · cases key <;> rfl
  | keyUp key =>
    refine PitchInv_of_pitchCore ?_ h
    show pitchCore (handleKeyUp key s) = pitchCore s
    unfold handleKeyUp
    cases key <;> rfl
  | frame env => exact frame_pitch_inv env (ht env.now rfl) h

theorem run_pitch_inv (events : List Event) {clock : ℝ} {s : Scene}
    (hc : Chronological clock events) (htilt : TiltBounded events) (h : PitchInv clock s) :
    ∃ clock', PitchInv clock' (run s events) := by
  induction events generalizing clock s with
  | nil => exact ⟨clock, h⟩
  | cons e es ih =>
    exact ih hc.2 (fun e' he' => htilt e' (List.mem_cons_of_mem _ he'))
      (step_pitch_inv e hc.1 (htilt e (List.mem_cons_self _ _)) h)

/-- C15: pitch stays within the tilt limit: for every state of
`STATE_CENTROIDS`, and for the US-center fallback taken for unknown names,
the computed target pitch `-((US_CENTER_LAT - lat)/45)·MAX_TILT_ANGLE` lies in
`[-MAX_TILT_ANGLE, MAX_TILT_ANGLE] = [-0.5, 0.5]`, and it is the pitch end an
accepted click on such a name stores; consequently, starting from pitch 0,
the pitch after any well-timed sequence of events (clicks on such names,
deselections, frames, ...) stays within that interval. -/
theorem pitch_within_tilt_limit (clock : ℝ) (events : List Event)
    (hc : Chronological clock events) (htilt : TiltBounded events) :
    MAX_TILT_ANGLE = 0.5
      ∧ (∀ e ∈ STATE_CENTROIDS,
          -MAX_TILT_ANGLE ≤ -((US_CENTER_LAT - e.2.1) / 45) * MAX_TILT_ANGLE
            ∧ -((US_CENTER_LAT - e.2.1) / 45) * MAX_TILT_ANGLE ≤ MAX_TILT_ANGLE)
      ∧ (-MAX_TILT_ANGLE ≤ -((US_CENTER_LAT - US_CENTER_LAT) / 45) * MAX_TILT_ANGLE
          ∧ -((US_CENTER_LAT - US_CENTER_LAT) / 45) * MAX_TILT_ANGLE ≤ MAX_TILT_ANGLE)
      ∧ (∀ stateName : String, stateName ∉ inheritedKeys →
          -MAX_TILT_ANGLE ≤ stateTargetRotationX stateName
            ∧ stateTargetRotationX stateName ≤ MAX_TILT_ANGLE)
      ∧ (∀ (stateName : String) (introComplete : Bool) (now : ℝ) (s s' : Scene),
          stateName ∉ inheritedKeys →
          handleStateClick stateName introComplete now s = some s' →
            s'.rotationXEnd = stateTargetRotationX stateName)
      ∧ initialScene.currentRotationX = 0
      ∧ -MAX_TILT_ANGLE ≤ (run initialScene events).currentRotationX
      ∧ (run initialScene events).currentRotationX ≤ MAX_TILT_ANGLE := by
  have hinit : PitchInv clock initialScene := by
    refine ⟨?_, fun h _ => absurd h (by simp [initialScene])⟩
    show |(0 : ℝ)| ≤ MAX_TILT_ANGLE
    unfold MAX_TILT_ANGLE
    norm_num
  obtain ⟨_, hinv, _⟩ := run_pitch_inv events hc htilt hinit
  refine ⟨by unfold MAX_TILT_ANGLE; norm_num, ?_, ?_,
    fun stateName _ => abs_le.mp (stateTargetRotationX_bound stateName), ?_, rfl,
    abs_le.mp hinv⟩
  · intro e he
    have hlat := STATE_CENTROIDS_lat e he
    refine ⟨?_, ?_⟩
    · unfold US_CENTER_LAT MAX_TILT_ANGLE
      linarith [hlat.1, hlat.2]
    · unfold US_CENTER_LAT MAX_TILT_ANGLE
      linarith [hlat.1, hlat.2]
  · unfold MAX_TILT_ANGLE
    constructor <;> norm_num
  intro stateName introComplete now s s' _ hclick
  unfold handleStateClick at hclick
  dsimp only at hclick
  by_cases hg : s.isAnimating = true ∨ ¬ (introComplete = true ∨ s.earthOpacity > 0.5)
  · rw [if_pos hg] at hclick
    exact absurd hclick (by simp)
  · rw [if_neg hg] at hclick
    simp only [Option.some.injEq] at hclick
    subst hclick
    rfl

theorem pitch_within_tilt_limit_witness :
    Chronological 0 selectionSession ∧ TiltBounded selectionSession
      ∧ -MAX_TILT_ANGLE ≤ (run initialScene selectionSession).currentRotationX
      ∧ (run initialScene selectionSession).currentRotationX ≤ MAX_TILT_ANGLE :=
  have hc : Chronological 0 selectionSession := by
    simp only [selectionSession, Chronological, Event.wellTimed, Event.time, Event.clockAfter,
      Option.some.injEq, Option.getD_some, forall_eq', and_true, true_and]
    norm_num
  have ht : TiltBounded selectionSession := by
    intro e he
    simp only [selectionSession, List.mem_cons, List.mem_singleton, List.not_mem_nil,
      or_false] at he
    rcases he with rfl | rfl | rfl | rfl | rfl | rfl | rfl
    · show "Alaska" ∉ inheritedKeys
      decide
    · intro name hn
      rw [← Option.some.inj hn]
      decide
    · intro name hn
      rw [← Option.some.inj hn]
      decide
    · trivial
    · intro name hn
      exact absurd hn (by simp)
    · show "Hawaii" ∉ inheritedKeys
      decide
    · intro name hn
      rw [← Option.some.inj hn]
      decide
  ⟨hc, ht, (pitch_within_tilt_limit 0 selectionSession hc ht).2.2.2.2.2.2⟩

/-! ## The yaw at the end of a frame with a state selected -/

theorem springStep_kbCore (env : FrameEnv) (s : Scene) :
    kbCore (springStep env s) = kbCore s := by
  unfold springStep
  dsimp only
  split_ifs <;> rfl

theorem finalStopStep_kbCore (s : Scene) : kbCore (finalStopStep s) = kbCore s := by
  unfold finalStopStep
  split_ifs <;> rfl

theorem scrollRotateStep_kbCore (env : FrameEnv) (c : Prop) [Decidable c] (d : ℝ)
    (s : Scene) : kbCore (scrollRotateStep env c d s) = kbCore s := by
  unfold scrollRotateStep
  split_ifs <;> rfl

theorem homingStep_of_not (env : FrameEnv) (c : Prop) [Decidable c] (s : Scene) (hc : ¬ c) :
    homingStep env c s = s := by
  unfold homingStep
  dsimp only
  rw [if_neg (fun h => hc h.1)]

theorem scrollDrainStep_kbCore_of_not (env : FrameEnv) (c : Prop) [Decidable c] (s : Scene)
    (hc : ¬ c) : kbCore (scrollDrainStep env c s) = kbCore s := by
  unfold scrollDrainStep
  dsimp only
  rw [if_neg hc]
  split_ifs <;> rfl

theorem keyboardStep_yaw_congr (env : FrameEnv) (s t : Scene) (h : kbCore s = kbCore t) :
    (keyboardStep env s).currentRotationY = (keyboardStep env t).currentRotationY := by
  simp only [kbCore, Prod.mk.injEq] at h
  obtain ⟨h1, h2, h3, h4, h5, h6⟩ := h
  unfold keyboardStep
  dsimp only
  rw [h1, h2, h3, h4, h5]
  split_ifs <;> first | exact h6 | (dsimp only; rw [h6])

theorem idleStep_of_selected (env : FrameEnv) (p q : Prop) [Decidable p] [Decidable q]
    (s : Scene) (h : env.selectedState ≠ none) : idleStep env p q s = s := by
  unfold idleStep
  dsimp only
  rw [if_neg (fun hc => h hc.2.2.2.1)]

theorem springStep_of_selected (env : FrameEnv) (s : Scene) (h : env.selectedState ≠ none) :
    springStep env s = s := by
  unfold springStep
  dsimp only
  rw [if_neg (fun hc => h hc.2.2.1)]

/-- With a state selected and no momentum, the yaw at the end of the motion
blocks is what the keyboard block makes of it. -/
theorem motionSteps_yaw_of_selected (env : FrameEnv) (s : Scene) (hv : s.velocity = 0)
    (hsel : env.selectedState ≠ none) :
    (motionSteps env s).currentRotationY = (keyboardStep env s).currentRotationY := by
  have hstop : |s.velocity| ≤ MOMENTUM_THRESHOLD := by
    rw [hv, abs_zero]
    unfold MOMENTUM_THRESHOLD
    norm_num
  have hcan : ∀ t : Scene, ¬ canScrollRotate env t := fun t hc => hsel hc.2.2.2
  unfold motionSteps
  dsimp only
  rw [momentumStep_of_stopped env s hstop, springStep_of_selected env s hsel,
    scrollCameraStep_yaw, idleStep_of_selected env _ _ _ hsel]
  apply keyboardStep_yaw_congr
  have h1 : kbCore (prevScrollStep (scrollDrainStep env
      (canScrollRotate env (scrollProgressStep env (finalStopStep s)))
      (homingStep env (canScrollRotate env (scrollProgressStep env (finalStopStep s)))
        (scrollRotateStep env (canScrollRotate env (scrollProgressStep env (finalStopStep s)))
          ((scrollProgressStep env (finalStopStep s)).smoothScrollProgress
            - (scrollProgressStep env (finalStopStep s)).prevScrollProgress)
          (scrollProgressStep env (finalStopStep s))))))
      = kbCore (scrollDrainStep env
      (canScrollRotate env (scrollProgressStep env (finalStopStep s)))
      (homingStep env (canScrollRotate env (scrollProgressStep env (finalStopStep s)))
        (scrollRotateStep env (canScrollRotate env (scrollProgressStep env (finalStopStep s)))
          ((scrollProgressStep env (finalStopStep s)).smoothScrollProgress
            - (scrollProgressStep env (finalStopStep s)).prevScrollProgress)
          (scrollProgressStep env (finalStopStep s))))) := rfl
  rw [h1, scrollDrainStep_kbCore_of_not env _ _ (hcan _), homingStep_of_not env _ _ (hcan _),
    scrollRotateStep_kbCore]
  show kbCore (finalStopStep s) = kbCore s
  exact finalStopStep_kbCore s

theorem keyboardStep_of_rest (env : FrameEnv) (s : Scene) (hl : s.kbLeft = false)
    (hr : s.kbRight = false) (hk : |s.kbVelocity| ≤ 0.0001) : keyboardStep env s = s := by
  unfold keyboardStep
  dsimp only
  by_cases h1 : s.isDragging = false ∧ env.introComplete = true ∧ s.isAnimating = false
  · rw [if_pos h1, hl, hr]
    simp only [Bool.false_eq_true, if_false]
    rw [if_neg (not_not.mpr rfl), if_neg (not_lt.mpr hk)]
  · rw [if_neg h1]

theorem keyboardStep_left_steady (env : FrameEnv) (s : Scene) (hd : s.isDragging = false)
    (hic : env.introComplete = true) (ha : s.isAnimating = false) (hl : s.kbLeft = true)
    (hr : s.kbRight = false) (hk : s.kbVelocity = 0.025) :
    (keyboardStep env s).currentRotationY = s.currentRotationY + 0.025 := by
  unfold keyboardStep
  dsimp only
  rw [if_pos ⟨hd, hic, ha⟩, hl, hr, hk]
  simp only [Bool.false_eq_true, if_false, if_true]
  have ht : (0 : ℝ) + KB_SPEED ≠ 0 := by
    unfold KB_SPEED
    norm_num
  rw [if_pos ht]
  show s.currentRotationY
      + max (-KB_MAX_VELOCITY) (min KB_MAX_VELOCITY (0.025 + (0 + KB_SPEED - 0.025) * 0.15))
    = s.currentRotationY + 0.025
  have hv : (0.025 : ℝ) + (0 + KB_SPEED - 0.025) * 0.15 = 0.025 := by
    unfold KB_SPEED
    norm_num
  rw [hv]
  unfold KB_MAX_VELOCITY
  rw [min_eq_right (by norm_num), max_eq_right (by norm_num)]

/-- C13 (amended): focus/zoom-out interpolation and completion: for an active
focus-state or zoom-out animation with positive duration, states fade not
running and momentum velocity 0, the animation block of each frame sets yaw,
pitch and distance to `start + (end - start)·easeInOutCubic(progress)` with
`progress = min((now - start)/duration, 1)`; pitch and distance keep these
values to the end of the frame, and so does yaw while `now - start < duration`
(the phase then stays as it is).  In a frame with `now - start ≥ duration`
the block sets the three values to the stored end values exactly and the
phase becomes idle; pitch and distance keep the end values to the end of the
frame, and yaw too when a state is selected and the keyboard is at rest. -/
theorem animation_interpolation_and_completion (env : FrameEnv) (s : Scene)
    (ha : s.isAnimating = true)
    (ht : s.animationType = some AnimationType.focusState
      ∨ s.animationType = some AnimationType.zoomOut)
    (hd : 0 < s.animationDuration) (hf : s.statesFading = false) (hv : s.velocity = 0) :
    ((fadeOrAnimateStep env (introStep env s)).currentRotationY
          = s.rotationStart + (s.rotationEnd - s.rotationStart)
              * easeInOutCubic (animationProgress env s)
        ∧ (fadeOrAnimateStep env (introStep env s)).currentRotationX
          = s.rotationXStart + (s.rotationXEnd - s.rotationXStart)
              * easeInOutCubic (animationProgress env s)
        ∧ (fadeOrAnimateStep env (introStep env s)).cameraDistance
          = s.zoomStart + (s.zoomEnd - s.zoomStart) * easeInOutCubic (animationProgress env s))
      ∧ ((frame env s).currentRotationX
          = s.rotationXStart + (s.rotationXEnd - s.rotationXStart)
              * easeInOutCubic (animationProgress env s)
        ∧ (frame env s).cameraDistance
          = s.zoomStart + (s.zoomEnd - s.zoomStart) * easeInOutCubic (animationProgress env s))
      ∧ (env.now - s.animationStartTime < s.animationDuration →
          (frame env s).currentRotationY
              = s.rotationStart + (s.rotationEnd - s.rotationStart)
                  * easeInOutCubic (animationProgress env s)
            ∧ (frame env s).isAnimating = true
            ∧ (frame env s).animationType = s.animationType)
      ∧ (s.animationDuration ≤ env.now - s.animationStartTime →
          ((fadeOrAnimateStep env (introStep env s)).currentRotationY = s.rotationEnd
            ∧ (fadeOrAnimateStep env (introStep env s)).currentRotationX = s.rotationXEnd
            ∧ (fadeOrAnimateStep env (introStep env s)).cameraDistance = s.zoomEnd)
          ∧ (frame env s).currentRotationX = s.rotationXEnd
          ∧ (frame env s).cameraDistance = s.zoomEnd
          ∧ (frame env s).isAnimating = false
          ∧ (frame env s).animationType = none
          ∧ (env.selectedState ≠ none → s.kbLeft = false → s.kbRight = false →
              |s.kbVelocity| ≤ 0.0001 → (frame env s).currentRotationY = s.rotationEnd)) := by
  have hni : s.animationType ≠ some AnimationType.intro := by
    rcases ht with h | h <;> rw [h] <;> simp
  have hintro := introStep_of_not_intro env s hni
  obtain ⟨a1, a2, a3, a4, a5, a6, _, a8, a9, a10⟩ := fadeOrAnimateStep_active env s hf ha hni
  obtain ⟨m1, _, _, m4, m5, _, _, _, m9, _⟩ := motionSteps_fields env (fadeOrAnimateStep env s)
  have hstop : |(fadeOrAnimateStep env s).velocity| ≤ MOMENTUM_THRESHOLD := by
    rw [a6, hv, abs_zero]
    unfold MOMENTUM_THRESHOLD
    norm_num
  rw [hintro]
  unfold frame
  rw [hintro]
  refine ⟨⟨a1, a2, a3⟩, ⟨by rw [m9, a2], by rw [m1, a3]⟩, ?_, ?_⟩
  · intro hrun
    have hp : animationProgress env s < 1 := by
      unfold animationProgress
      apply min_lt_of_left_lt
      rw [div_lt_one hd]
      exact hrun
    obtain ⟨p1, p2⟩ := a5 hp
    have hm := (motionSteps_of_animating env (fadeOrAnimateStep env s) p1).1
    rw [hm, momentumStep_of_stopped env _ hstop, m5, m4, p2]
    exact ⟨a1, p1, rfl⟩
  · intro hdone
    have hp : animationProgress env s = 1 := animationProgress_of_done env s hd hdone
    obtain ⟨p1, p2⟩ := a4 (by rw [hp])
    rw [hp, easeInOutCubic_one] at a1 a2 a3
    have e1 : (fadeOrAnimateStep env s).currentRotationY = s.rotationEnd := by
      rw [a1]
      ring
    have e2 : (fadeOrAnimateStep env s).currentRotationX = s.rotationXEnd := by
      rw [a2]
      ring
    have e3 : (fadeOrAnimateStep env s).cameraDistance = s.zoomEnd := by
      rw [a3]
      ring
    refine ⟨⟨e1, e2, e3⟩, by rw [m9, e2], by rw [m1, e3], by rw [m5, p1], by rw [m4, p2], ?_⟩
    intro hsel hl hr hk
    rw [motionSteps_yaw_of_selected env _ (by rw [a6, hv]) hsel,
      keyboardStep_of_rest env _ (by rw [a8, hl]) (by rw [a9, hr]) (by rw [a10]; exact hk)]
    exact e1

theorem animation_interpolation_and_completion_witness :
    ((frame midFocusEnv focusScene).currentRotationY
        = focusScene.rotationStart + (focusScene.rotationEnd - focusScene.rotationStart)
            * easeInOutCubic (animationProgress midFocusEnv focusScene)
      ∧ (frame midFocusEnv focusScene).isAnimating = true)
      ∧ (frame focusDoneEnv focusScene).currentRotationY = focusScene.rotationEnd
      ∧ (frame focusDoneEnv focusScene).cameraDistance = focusScene.zoomEnd
      ∧ (frame focusDoneEnv focusScene).isAnimating = false :=
  have hd : (0 : ℝ) < focusScene.animationDuration := by
    show (0 : ℝ) < 1200
    norm_num
  have h1 := (animation_interpolation_and_completion midFocusEnv focusScene rfl (Or.inl rfl)
    hd rfl rfl).2.2.1
    (by
      show (600 : ℝ) - 0 < 1200
      norm_num)
  have h2 := (animation_interpolation_and_completion focusDoneEnv focusScene rfl (Or.inl rfl)
    hd rfl rfl).2.2.2
    (by
      show (1200 : ℝ) ≤ 1200 - 0
      norm_num)
  ⟨⟨h1.1, h1.2.1⟩,
    h2.2.2.2.2.2 (by simp [focusDoneEnv]) rfl rfl
      (by
        show |(0 : ℝ)| ≤ 0.0001
        rw [abs_zero]
        norm_num),
    h2.2.2.1, h2.2.2.2.1⟩

/-- C13 (as stated, refuted): a focus-state animation (duration 1200 ms,
states fade not running, momentum velocity 0) with the left arrow key held
since before it started: in the frame with `now - start = duration` the
phase becomes idle, and the keyboard block, running again in that frame, turns
the globe on: the frame ends with yaw `1.025`, not the stored end value `1`. -/
theorem animation_completion_key_held_counterexample :
    keyHeldFocusScene.isAnimating = true
      ∧ keyHeldFocusScene.animationType = some AnimationType.focusState
      ∧ keyHeldFocusScene.animationDuration = 1200
      ∧ keyHeldFocusScene.statesFading = false
      ∧ keyHeldFocusScene.velocity = 0
      ∧ focusDoneEnv.now - keyHeldFocusScene.animationStartTime
          = keyHeldFocusScene.animationDuration
      ∧ keyHeldFocusScene.rotationEnd = 1
      ∧ (frame focusDoneEnv keyHeldFocusScene).isAnimating = false
      ∧ (frame focusDoneEnv keyHeldFocusScene).currentRotationY = 1.025
      ∧ (frame focusDoneEnv keyHeldFocusScene).currentRotationY
          ≠ keyHeldFocusScene.rotationEnd := by
  have hni : keyHeldFocusScene.animationType ≠ some AnimationType.intro := by
    simp [keyHeldFocusScene, focusScene, spinningFocusScene]
  have hdur : (0 : ℝ) < keyHeldFocusScene.animationDuration := by
    show (0 : ℝ) < 1200
    norm_num
  have hdone : keyHeldFocusScene.animationDuration
      ≤ focusDoneEnv.now - keyHeldFocusScene.animationStartTime := by
    show (1200 : ℝ) ≤ 1200 - 0
    norm_num
  have hintro := introStep_of_not_intro focusDoneEnv keyHeldFocusScene hni
  obtain ⟨a1, _, _, a4, _, a6, a7, a8, a9, a10⟩ :=
    fadeOrAnimateStep_active focusDoneEnv keyHeldFocusScene rfl rfl hni
  have hp := animationProgress_of_done focusDoneEnv keyHeldFocusScene hdur hdone
  obtain ⟨p1, _⟩ := a4 (by rw [hp])
  rw [hp, easeInOutCubic_one] at a1
  have e1 : (fadeOrAnimateStep focusDoneEnv keyHeldFocusScene).currentRotationY = 1 := by
    rw [a1]
    show (0 : ℝ) + (1 - 0) * 1 = 1
    norm_num
  have hyaw : (frame focusDoneEnv keyHeldFocusScene).currentRotationY = 1.025 := by
    unfold frame
    rw [hintro, motionSteps_yaw_of_selected focusDoneEnv _ (by rw [a6]; rfl)
        (by simp [focusDoneEnv]),
      keyboardStep_left_steady focusDoneEnv _ (by rw [a7]; rfl) rfl p1 (by rw [a8]; rfl)
        (by rw [a9]; rfl) (by rw [a10]; rfl), e1]
    norm_num
  refine ⟨rfl, rfl, rfl, rfl, rfl, ?_, rfl, ?_, hyaw, ?_⟩
  · show (1200 : ℝ) - 0 = 1200
    norm_num
  · unfold frame
    rw [hintro, (motionSteps_fields focusDoneEnv _).2.2.2.2.1, p1]
  · rw [hyaw]
    show (1.025 : ℝ) ≠ 1
    norm_num

/-! ## The action `selectState` -/

/-- C21: `selectState(name)`: when `name` is the name of the selected state
the store enters the county view (`viewMode` 'state-counties',
`isTransitioning` true, `transitionType` 'globe-to-counties', `selectedCounty`
null) with `selectedState` and every other field unchanged; otherwise
`selectedState` becomes the record of `stateData` under that name, or, for a
name for which `stateData[name]` finds nothing (no key of the table and no
name of `inheritedKeys`), the fallback record carrying the name;
`selectedCounty` and `hoveredCounty` are cleared, and `viewMode` and every
other field are unchanged. -/
theorem selectState_semantics (stateName : String) (st : Store) :
    (st.selectedState.map StateInfo.name = some stateName →
        (selectState stateName st).viewMode = ViewMode.stateCounties
          ∧ (selectState stateName st).isTransitioning = true
          ∧ (selectState stateName st).transitionType = some TransitionType.globeToCounties
          ∧ (selectState stateName st).selectedCounty = none
          ∧ (selectState stateName st).selectedState = st.selectedState
          ∧ (selectState stateName st).hoveredCounty = st.hoveredCounty
          ∧ (selectState stateName st).hoveredState = st.hoveredState
          ∧ (selectState stateName st).zoomedState = st.zoomedState
          ∧ (selectState stateName st).pendingStateZoom = st.pendingStateZoom)
      ∧ (st.selectedState.map StateInfo.name ≠ some stateName →
          (∀ r, STATE_DATA.lookup stateName = some r →
              (selectState stateName st).selectedState = some r)
            ∧ (STATE_DATA.lookup stateName = none → stateName ∉ inheritedKeys →
              (selectState stateName st).selectedState
                = some ⟨stateName, "--", "N/A", "Unknown", 50, 50, "Unknown", 50⟩)
            ∧ (stateName ∉ inheritedKeys →
              (selectState stateName st).selectedState.map StateInfo.name = some stateName)
            ∧ (selectState stateName st).selectedCounty = none
            ∧ (selectState stateName st).hoveredCounty = none
            ∧ (selectState stateName st).viewMode = st.viewMode
            ∧ (selectState stateName st).isTransitioning = st.isTransitioning
            ∧ (selectState stateName st).transitionType = st.transitionType
            ∧ (selectState stateName st).hoveredState = st.hoveredState
            ∧ (selectState stateName st).zoomedState = st.zoomedState
            ∧ (selectState stateName st).pendingStateZoom = st.pendingStateZoom) := by
  constructor
  · intro h
    unfold selectState
    dsimp only
    rw [if_pos h]
    exact ⟨rfl, rfl, rfl, rfl, rfl, rfl, rfl, rfl, rfl⟩
  · intro h
    have hn := selectState_name stateName st
    unfold selectState at hn ⊢
    dsimp only at hn ⊢
    rw [if_neg h] at hn ⊢
    refine ⟨?_, ?_, fun _ => hn, rfl, rfl, rfl, rfl, rfl, rfl, rfl, rfl⟩
    · intro r hr
      show some ((STATE_DATA.lookup stateName).getD (fallbackStateInfo stateName)) = some r
      rw [hr]
      rfl
    · intro hr _
      show some ((STATE_DATA.lookup stateName).getD (fallbackStateInfo stateName)) = _
      rw [hr]
      rfl

theorem selectState_semantics_witness :
    (selectState "Texas" texasStore).viewMode = ViewMode.stateCounties
      ∧ (selectState "Texas" texasStore).selectedState = texasStore.selectedState
      ∧ (selectState "Texas" texasStore).selectedCounty = none
      ∧ (selectState "Ohio" texasStore).selectedState.map StateInfo.name = some "Ohio"
      ∧ (selectState "Ohio" texasStore).hoveredCounty = none
      ∧ (selectState "Ohio" texasStore).viewMode = ViewMode.globe
      ∧ (selectState "Atlantis" texasStore).selectedState
          = some ⟨"Atlantis", "--", "N/A", "Unknown", 50, 50, "Unknown", 50⟩ :=
  have h1 : texasStore.selectedState.map StateInfo.name = some "Texas" := by decide
  have h2 : texasStore.selectedState.map StateInfo.name ≠ some "Ohio" := by decide
  have h3 : texasStore.selectedState.map StateInfo.name ≠ some "Atlantis" := by decide
  ⟨((selectState_semantics "Texas" texasStore).1 h1).1,
    ((selectState_semantics "Texas" texasStore).1 h1).2.2.2.2.1,
    ((selectState_semantics "Texas" texasStore).1 h1).2.2.2.1,
    ((selectState_semantics "Ohio" texasStore).2 h2).2.2.1 (by decide),
    ((selectState_semantics "Ohio" texasStore).2 h2).2.2.2.2.1,
    ((selectState_semantics "Ohio" texasStore).2 h2).2.2.2.2.2.1,
    ((selectState_semantics "Atlantis" texasStore).2 h3).2.1 (by decide) (by decide)⟩

/-! ## The intro progress -/

theorem fadeOrAnimateStep_introProgress (env : FrameEnv) (s : Scene) :
    (fadeOrAnimateStep env s).introProgress = s.introProgress := by
  unfold fadeOrAnimateStep regularAnimationStep
  dsimp only
  split_ifs <;> rfl

theorem introCompleteStep_introProgress (env : FrameEnv) (s : Scene) :
    (introCompleteStep env s).introProgress = s.introProgress := by
  unfold introCompleteStep
  dsimp only
  split <;> rfl

/-- The accumulated progress at the end of a frame of the intro after the
warmup. -/
theorem frame_introProgress_after_warmup (env : FrameEnv) (s : Scene)
    (ht : s.animationType = some AnimationType.intro) (ha : s.isAnimating = true)
    (hw : s.warmupFramesRemaining = 0) :
    (frame env s).introProgress
      = if env.now - s.animationStartTime > INTRO_DURATION * 1000 + 2000 then 1
        else s.introProgress + min env.rawDelta 0.033 / INTRO_DURATION := by
  unfold frame
  rw [(motionSteps_fields env _).2.2.2.2.2.2.2.1, fadeOrAnimateStep_introProgress,
    introStep_after_warmup env s ht ha hw]
  by_cases hp : introRawProgress env s ≥ 1
  · rw [if_pos hp, introCompleteStep_introProgress]
    rfl
  · rw [if_neg hp]
    rfl

theorem midIntroScene_fields :
    midIntroScene.animationType = some AnimationType.intro
      ∧ midIntroScene.isAnimating = true
      ∧ midIntroScene.warmupFramesRemaining = 0
      ∧ midIntroScene.animationStartTime = 0
      ∧ midIntroScene.introProgress = 0.5 := by
  have h : startIntro 0 initialScene
      = { initialScene with
          animationType := some AnimationType.intro
          isAnimating := true
          introProgress := 0
          warmupFramesRemaining := 3
          introStartTime := some 0
          animationStartTime := 0
          animationDuration := INTRO_DURATION * 1000
          zoomStart := INTRO_START_DISTANCE
          zoomEnd := DEFAULT_CAMERA_DISTANCE
          cameraDistance := INTRO_START_DISTANCE
          earthScale := INTRO_EARTH_SCALE_START } := by
    unfold startIntro
    rw [if_neg (by simp [initialScene])]
  unfold midIntroScene
  rw [h]
  exact ⟨rfl, rfl, rfl, rfl, rfl⟩

/-- C22: delta-accumulated intro progress: in every frame of the intro after
the warmup in which the wall-clock fallback does not fire, for every frame
delta `rawDt ≥ 0` (the delta of the render loop's clock), `introProgress`
increases by exactly `clamp(rawDt, 0, 0.033) / INTRO_DURATION`, which is what
the code's `min(rawDt, 0.033) / INTRO_DURATION` amounts to; so the progress
does not decrease and advances by at most `0.033 / 3.5` in a single frame,
however long the frame took. -/
theorem intro_progress_accumulation (env : FrameEnv) (s : Scene)
    (ht : s.animationType = some AnimationType.intro) (ha : s.isAnimating = true)
    (hw : s.warmupFramesRemaining = 0)
    (hno : ¬ (env.now - s.animationStartTime > INTRO_DURATION * 1000 + 2000))
    (hdelta : 0 ≤ env.rawDelta) :
    (frame env s).introProgress
        = s.introProgress + max 0 (min env.rawDelta 0.033) / INTRO_DURATION
      ∧ (frame env s).introProgress
          = s.introProgress + min env.rawDelta 0.033 / INTRO_DURATION
      ∧ s.introProgress ≤ (frame env s).introProgress
      ∧ (frame env s).introProgress - s.introProgress ≤ 0.033 / 3.5 := by
  have h := frame_introProgress_after_warmup env s ht ha hw
  rw [if_neg hno] at h
  have hle : min env.rawDelta 0.033 ≤ 0.033 := min_le_right _ _
  have hnn : (0 : ℝ) ≤ min env.rawDelta 0.033 := le_min hdelta (by norm_num)
  have hd : INTRO_DURATION = 3.5 := rfl
  refine ⟨?_, h, ?_, ?_⟩
  · rw [h, max_eq_right hnn]
  · rw [h, hd]
    have : (0 : ℝ) ≤ min env.rawDelta 0.033 / 3.5 := div_nonneg hnn (by norm_num)
    linarith
  · rw [h, hd, add_sub_cancel_left]
    exact div_le_div_of_nonneg_right hle (by norm_num)

theorem intro_progress_accumulation_witness :
    (frame slowIntroEnv midIntroScene).introProgress
        = midIntroScene.introProgress
          + max 0 (min slowIntroEnv.rawDelta 0.033) / INTRO_DURATION
      ∧ midIntroScene.introProgress ≤ (frame slowIntroEnv midIntroScene).introProgress
      ∧ (frame slowIntroEnv midIntroScene).introProgress - midIntroScene.introProgress
          ≤ 0.033 / 3.5 :=
  have hno : ¬ (slowIntroEnv.now - midIntroScene.animationStartTime
      > INTRO_DURATION * 1000 + 2000) := by
    rw [midIntroScene_fields.2.2.2.1]
    show ¬ ((1000 : ℝ) - 0 > INTRO_DURATION * 1000 + 2000)
    unfold INTRO_DURATION
    norm_num
  have h0 : (0 : ℝ) ≤ slowIntroEnv.rawDelta := by
    show (0 : ℝ) ≤ 0.25
    norm_num
  have h := intro_progress_accumulation slowIntroEnv midIntroScene midIntroScene_fields.1
    midIntroScene_fields.2.1 midIntroScene_fields.2.2.1 hno h0
  ⟨h.1, h.2.2.1, h.2.2.2⟩

/-! ## The intro warmup -/

/-- The fields of the intro the animation blocks leave alone during the
intro. -/
theorem fadeOrAnimateStep_of_intro (env : FrameEnv) (s : Scene)
    (ht : s.animationType = some AnimationType.intro) :
    animCore (fadeOrAnimateStep env s) = animCore s
      ∧ (fadeOrAnimateStep env s).earthScale = s.earthScale
      ∧ (fadeOrAnimateStep env s).warmupFramesRemaining = s.warmupFramesRemaining := by
  unfold fadeOrAnimateStep
  dsimp only
  by_cases hf : s.statesFading = true
  · rw [if_pos hf]
    split_ifs <;> exact ⟨rfl, rfl, rfl⟩
  · rw [if_neg hf, if_neg (fun hc => hc.2 ht)]
    exact ⟨rfl, rfl, rfl⟩

/-- One frame of the warmup: the counter goes down by one, the progress is
held at 0, camera distance and earth scale are pinned to the start values and
the start time is reset to the frame's clock. -/
theorem frame_warmup (env : FrameEnv) (s : Scene) (n : ℕ)
    (ht : s.animationType = some AnimationType.intro) (ha : s.isAnimating = true)
    (hw : s.warmupFramesRemaining = n + 1) :
    (frame env s).animationType = some AnimationType.intro
      ∧ (frame env s).isAnimating = true
      ∧ (frame env s).warmupFramesRemaining = n
      ∧ (frame env s).introProgress = 0
      ∧ (frame env s).cameraDistance = s.zoomStart
      ∧ (frame env s).earthScale = INTRO_EARTH_SCALE_START
      ∧ (frame env s).animationStartTime = env.now
      ∧ (frame env s).zoomStart = s.zoomStart := by
  have hi : introStep env s
      = { s with
          warmupFramesRemaining := s.warmupFramesRemaining - 1
          cameraDistance := s.zoomStart
          earthScale := INTRO_EARTH_SCALE_START
          introProgress := 0
          introProgressRef := 0
          zoomSpeed := 0
          animationStartTime := env.now } := by
    unfold introStep
    dsimp only
    rw [if_pos ⟨ht, ha⟩, if_pos (by rw [hw]; exact Nat.succ_pos n)]
  have ht' : (introStep env s).animationType = some AnimationType.intro := by
    rw [hi]
    exact ht
  obtain ⟨hcore, he, hwarm⟩ := fadeOrAnimateStep_of_intro env (introStep env s) ht'
  simp only [animCore, Prod.mk.injEq] at hcore
  obtain ⟨c1, c2, _, c4, c5, c6, _, c8⟩ := hcore
  obtain ⟨m1, m2, _, m4, m5, m6, _, m8, _, _, _, _, _, m14, m15, _⟩ :=
    motionSteps_fields env (fadeOrAnimateStep env (introStep env s))
  unfold frame
  rw [m1, m2, m4, m5, m6, m8, m14, m15, c1, c2, c4, c5, c6, c8, he, hwarm, hi]
  refine ⟨ht, ha, ?_, rfl, rfl, rfl, rfl, rfl⟩
  show s.warmupFramesRemaining - 1 = n
  rw [hw]
  rfl

theorem startIntro_fresh (now : ℝ) (s : Scene)
    (h : s.animationType ≠ some AnimationType.intro) :
    (startIntro now s).animationType = some AnimationType.intro
      ∧ (startIntro now s).isAnimating = true
      ∧ (startIntro now s).warmupFramesRemaining = 3
      ∧ (startIntro now s).zoomStart = INTRO_START_DISTANCE
      ∧ (startIntro now s).introProgress = 0 := by
  unfold startIntro
  rw [if_neg h]
  exact ⟨rfl, rfl, rfl, rfl, rfl⟩

/-- C23: intro warmup: in each of the first three frames after the intro
starts, whatever `rawDelta` and the clock are, `introProgress` is 0,
`cameraDistance` is `INTRO_START_DISTANCE`, `earthScale` is
`INTRO_EARTH_SCALE_START` and the start time is reset to the frame's clock;
the fourth frame is the first to accumulate progress: it ends with
`min(rawDelta, 0.033) / INTRO_DURATION` (or with 1 when more than 5500 ms
of wall-clock time have passed since the third frame). -/
theorem intro_warmup (s0 : Scene) (now0 : ℝ) (e1 e2 e3 e4 : FrameEnv)
    (h : s0.animationType ≠ some AnimationType.intro) :
    ((frame e1 (startIntro now0 s0)).introProgress = 0
        ∧ (frame e1 (startIntro now0 s0)).cameraDistance = INTRO_START_DISTANCE
        ∧ (frame e1 (startIntro now0 s0)).earthScale = INTRO_EARTH_SCALE_START
        ∧ (frame e1 (startIntro now0 s0)).animationStartTime = e1.now)
      ∧ ((frame e2 (frame e1 (startIntro now0 s0))).introProgress = 0
        ∧ (frame e2 (frame e1 (startIntro now0 s0))).cameraDistance = INTRO_START_DISTANCE
        ∧ (frame e2 (frame e1 (startIntro now0 s0))).earthScale = INTRO_EARTH_SCALE_START
        ∧ (frame e2 (frame e1 (startIntro now0 s0))).animationStartTime = e2.now)
      ∧ ((frame e3 (frame e2 (frame e1 (startIntro now0 s0)))).introProgress = 0
        ∧ (frame e3 (frame e2 (frame e1 (startIntro now0 s0)))).cameraDistance
            = INTRO_START_DISTANCE
        ∧ (frame e3 (frame e2 (frame e1 (startIntro now0 s0)))).earthScale
            = INTRO_EARTH_SCALE_START
        ∧ (frame e3 (frame e2 (frame e1 (startIntro now0 s0)))).animationStartTime = e3.now)
      ∧ (frame e4 (frame e3 (frame e2 (frame e1 (startIntro now0 s0))))).introProgress
          = if e4.now - e3.now > INTRO_DURATION * 1000 + 2000 then 1
            else min e4.rawDelta 0.033 / INTRO_DURATION := by
  obtain ⟨i1, i2, i3, i4, _⟩ := startIntro_fresh now0 s0 h
  obtain ⟨a1, a2, a3, a4, a5, a6, a7, a8⟩ := frame_warmup e1 (startIntro now0 s0) 2 i1 i2 i3
  obtain ⟨b1, b2, b3, b4, b5, b6, b7, b8⟩ :=
    frame_warmup e2 (frame e1 (startIntro now0 s0)) 1 a1 a2 a3
  obtain ⟨c1, c2, c3, c4, c5, c6, c7, _⟩ :=
    frame_warmup e3 (frame e2 (frame e1 (startIntro now0 s0))) 0 b1 b2 b3
  refine ⟨⟨a4, ?_, a6, a7⟩, ⟨b4, ?_, b6, b7⟩, ⟨c4, ?_, c6, c7⟩, ?_⟩
  · rw [a5, i4]
  · rw [b5, a8, i4]
  · rw [c5, b8, a8, i4]
  · rw [frame_introProgress_after_warmup e4 _ c1 c2 c3, c7, c4, zero_add]

theorem intro_warmup_witness :
    (frame thirdIntroEnv (frame secondIntroEnv (frame slowFirstEnv
        (startIntro 8000 initialScene)))).introProgress = 0
      ∧ (frame thirdIntroEnv (frame secondIntroEnv (frame slowFirstEnv
        (startIntro 8000 initialScene)))).cameraDistance = INTRO_START_DISTANCE
      ∧ (frame thirdIntroEnv (frame secondIntroEnv (frame slowFirstEnv
        (startIntro 8000 initialScene)))).animationStartTime = 9032
      ∧ (frame fourthIntroEnv (frame thirdIntroEnv (frame secondIntroEnv (frame slowFirstEnv
        (startIntro 8000 initialScene))))).introProgress
          = if fourthIntroEnv.now - thirdIntroEnv.now > INTRO_DURATION * 1000 + 2000 then 1
            else min fourthIntroEnv.rawDelta 0.033 / INTRO_DURATION :=
  have h : initialScene.animationType ≠ some AnimationType.intro := by
    simp [initialScene]
  have hw := intro_warmup initialScene 8000 slowFirstEnv secondIntroEnv thirdIntroEnv
    fourthIntroEnv h
  ⟨hw.2.2.1.1, hw.2.2.1.2.1, hw.2.2.1.2.2.2, hw.2.2.2⟩

/-! ## The wall-clock fallback of the intro -/

theorem introRawProgress_of_fallback (env : FrameEnv) (s : Scene)
    (hf : env.now - s.animationStartTime > INTRO_DURATION * 1000 + 2000) :
    introRawProgress env s = 1 := by
  unfold introRawProgress
  rw [if_pos hf]
  exact min_self 1

/-- The phase after the frame in which the intro completes with a state
selected. -/
theorem intro_completion_chain (env : FrameEnv) (s : Scene)
    (ht : s.animationType = some AnimationType.intro) (ha : s.isAnimating = true)
    (hw : s.warmupFramesRemaining = 0) (hp : 1 ≤ introRawProgress env s) (name : String)
    (hsel : env.selectedState = some name) :
    (frame env s).isAnimating = true
      ∧ (frame env s).animationType = some AnimationType.focusState := by
  obtain ⟨hstep, _⟩ := introStep_completing env s ht ha hw hp
  obtain ⟨_, k2, k3, k4, _, _, _, _, _, _, k11, _, _, _⟩ :=
    introCompleteStep_chain env (introAdvance env s) name hsel
  rw [← hstep] at k2 k3 k4 k11
  have ha' : (introStep env s).isAnimating = true := by
    rw [k2]
    exact ha
  have ht' : (introStep env s).animationType ≠ some AnimationType.intro := by
    rw [k3]
    simp
  obtain ⟨_, _, _, fcore, _, _, _⟩ :=
    fadeOrAnimateStep_at_start env (introStep env s) k11 ha' ht' k4
  simp only [animCore, Prod.mk.injEq] at fcore
  obtain ⟨_, _, _, c4, c5, _⟩ := fcore
  obtain ⟨_, _, _, m4, m5, _⟩ := motionSteps_fields env (fadeOrAnimateStep env (introStep env s))
  unfold frame
  rw [m5, m4, c5, c4, k3]
  exact ⟨rfl, rfl⟩

/-- C24: intro wall-clock fallback: in a frame of the intro after the warmup,
when the wall-clock time since the start time (as reset by the warmup) exceeds
`INTRO_DURATION·1000 + 2000 = 5500` ms, the progress is set to exactly 1
whatever had been accumulated and the intro completes in that frame (earth
scale 1, phase idle without a selected state, focus-state with one); when the
elapsed time is at most 5500 ms the progress is the accumulated one,
`introProgress + min(rawDelta, 0.033) / INTRO_DURATION`. -/
theorem intro_wall_clock_fallback (env : FrameEnv) (s : Scene)
    (ht : s.animationType = some AnimationType.intro) (ha : s.isAnimating = true)
    (hw : s.warmupFramesRemaining = 0) :
    INTRO_DURATION * 1000 + 2000 = 5500
      ∧ (env.now - s.animationStartTime > 5500 →
          (frame env s).introProgress = 1
            ∧ introRawProgress env s = 1
            ∧ (frame env s).earthScale = 1
            ∧ (frame env s).animationType ≠ some AnimationType.intro
            ∧ (env.selectedState = none →
                (frame env s).isAnimating = false ∧ (frame env s).animationType = none)
            ∧ (env.selectedState ≠ none →
                (frame env s).isAnimating = true
                  ∧ (frame env s).animationType = some AnimationType.focusState))
      ∧ (env.now - s.animationStartTime ≤ 5500 →
          (frame env s).introProgress
            = s.introProgress + min env.rawDelta 0.033 / INTRO_DURATION) := by
  have h5500 : INTRO_DURATION * 1000 + 2000 = 5500 := by
    unfold INTRO_DURATION
    norm_num
  have hprog := frame_introProgress_after_warmup env s ht ha hw
  rw [h5500] at hprog
  refine ⟨h5500, ?_, ?_⟩
  · intro hgt
    have hr : introRawProgress env s = 1 :=
      introRawProgress_of_fallback env s (by rw [h5500]; exact hgt)
    have hp : 1 ≤ introRawProgress env s := le_of_eq hr.symm
    obtain ⟨hstep, _⟩ := introStep_completing env s ht ha hw hp
    have hidle := intro_completion_idle env s ht ha hw hp
    have hscale : (frame env s).earthScale = 1 := by
      unfold frame
      rw [(motionSteps_fields env _).2.2.2.2.2.2.2.2.2.2.2.2.2.1, fadeOrAnimateStep_earthScale,
        hstep, introCompleteStep_earthScale]
    have hchain : env.selectedState ≠ none →
        (frame env s).isAnimating = true
          ∧ (frame env s).animationType = some AnimationType.focusState := by
      intro hsel
      cases hs : env.selectedState with
      | none => exact absurd hs hsel
      | some name => exact intro_completion_chain env s ht ha hw hp name hs
    refine ⟨?_, hr, hscale, ?_, hidle, hchain⟩
    · rw [hprog, if_pos hgt]
    · by_cases hsel : env.selectedState = none
      · rw [(hidle hsel).2]
        simp
      · rw [(hchain hsel).2]
        simp
  · intro hle
    rw [hprog, if_neg (not_lt.mpr hle)]

theorem intro_wall_clock_fallback_witness :
    (frame lateIntroEnv midIntroScene).introProgress = 1
      ∧ (frame lateIntroEnv midIntroScene).earthScale = 1
      ∧ (frame lateIntroEnv midIntroScene).animationType = none
      ∧ (frame slowIntroEnv midIntroScene).introProgress
          = midIntroScene.introProgress + min slowIntroEnv.rawDelta 0.033 / INTRO_DURATION :=
  have hf := midIntroScene_fields
  have hlate : lateIntroEnv.now - midIntroScene.animationStartTime > 5500 := by
    rw [hf.2.2.2.1]
    show (6000 : ℝ) - 0 > 5500
    norm_num
  have hslow : slowIntroEnv.now - midIntroScene.animationStartTime ≤ 5500 := by
    rw [hf.2.2.2.1]
    show (1000 : ℝ) - 0 ≤ 5500
    norm_num
  have h1 := (intro_wall_clock_fallback lateIntroEnv midIntroScene hf.1 hf.2.1 hf.2.2.1).2.1
    hlate
  ⟨h1.1, h1.2.2.1, (h1.2.2.2.2.1 rfl).2,
    (intro_wall_clock_fallback slowIntroEnv midIntroScene hf.1 hf.2.1 hf.2.2.1).2.2 hslow⟩

/-! ## The states fade and the animation block -/

/-- The block of the states fade while the fade runs: it writes neither
the yaw, the pitch, the distance nor the phase, and the fade flag stays set
exactly while less than 800 ms have passed since the fade started. -/
theorem fadeOrAnimateStep_while_fading (env : FrameEnv) (s : Scene)
    (hf : s.statesFading = true) :
    (fadeOrAnimateStep env s).currentRotationY = s.currentRotationY
      ∧ (fadeOrAnimateStep env s).currentRotationX = s.currentRotationX
      ∧ (fadeOrAnimateStep env s).cameraDistance = s.cameraDistance
      ∧ (fadeOrAnimateStep env s).isAnimating = s.isAnimating
      ∧ (fadeOrAnimateStep env s).animationType = s.animationType
      ∧ (fadeOrAnimateStep env s).statesFadeStartTime = s.statesFadeStartTime
      ∧ ((fadeOrAnimateStep env s).statesFading = true
          ↔ env.now - s.statesFadeStartTime < 800) := by
  have h800 : (0 : ℝ) < 800 := by norm_num
  unfold fadeOrAnimateStep
  dsimp only
  rw [if_pos hf]
  by_cases hp : min ((env.now - s.statesFadeStartTime) / 800) 1 ≥ 1
  · rw [if_pos hp]
    refine ⟨rfl, rfl, rfl, rfl, rfl, rfl, ?_⟩
    have h1 : 1 ≤ (env.now - s.statesFadeStartTime) / 800 := le_trans hp (min_le_left _ _)
    rw [le_div_iff₀ h800] at h1
    constructor
    · intro hc
      exact absurd hc (by simp)
    · intro hc
      linarith
  · rw [if_neg hp]
    refine ⟨rfl, rfl, rfl, rfl, rfl, rfl, ?_⟩
    constructor
    · intro _
      by_contra hge
      apply hp
      have h1 : 1 ≤ (env.now - s.statesFadeStartTime) / 800 := by
        rw [le_div_iff₀ h800]
        linarith
      exact le_min h1 (le_refl 1)
    · intro _
      exact hf

/-- A frame entered with the states fade running and a focus-state or
zoom-out phase. -/
theorem frame_while_fading (env : FrameEnv) (s : Scene) (hf : s.statesFading = true)
    (ht : s.animationType ≠ some AnimationType.intro) :
    (frame env s).currentRotationX = s.currentRotationX
      ∧ (frame env s).cameraDistance = s.cameraDistance
      ∧ (frame env s).isAnimating = s.isAnimating
      ∧ (frame env s).animationType = s.animationType
      ∧ (frame env s).statesFadeStartTime = s.statesFadeStartTime
      ∧ ((frame env s).statesFading = true ↔ env.now - s.statesFadeStartTime < 800)
      ∧ (s.isAnimating = true → s.velocity = 0 →
          (frame env s).currentRotationY = s.currentRotationY ∧ (frame env s).velocity = 0) := by
  obtain ⟨f1, f2, f3, f4, f5, f6, f7⟩ := fadeOrAnimateStep_while_fading env s hf
  obtain ⟨m1, _, _, m4, m5, _, _, _, m9, _, _, _, _, _, _, m16, m17, _⟩ :=
    motionSteps_fields env (fadeOrAnimateStep env s)
  unfold frame
  rw [introStep_of_not_intro env s ht, m1, m4, m5, m9, m16, m17, f2, f3, f4, f5, f6]
  refine ⟨rfl, rfl, rfl, rfl, rfl, f7, ?_⟩
  intro ha hv
  have ha' : (fadeOrAnimateStep env s).isAnimating = true := by
    rw [f4]
    exact ha
  have hv' : (fadeOrAnimateStep env s).velocity = 0 := by
    rw [fadeOrAnimateStep_velocity]
    exact hv
  have hstop : |(fadeOrAnimateStep env s).velocity| ≤ MOMENTUM_THRESHOLD := by
    rw [hv', abs_zero]
    unfold MOMENTUM_THRESHOLD
    norm_num
  obtain ⟨y, v⟩ := motionSteps_of_animating env (fadeOrAnimateStep env s) ha'
  rw [y, v, momentumStep_of_stopped env _ hstop, f1]
  refine ⟨rfl, ?_⟩
  unfold finalStopStep
  split_ifs
  · rfl
  · exact hv'

/-- Frames that all fall within the 800 ms of the states fade leave an
active focus-state or zoom-out animation where it is. -/
theorem frames_while_fading (envs : List FrameEnv) (s : Scene) (hf : s.statesFading = true)
    (ht : s.animationType ≠ some AnimationType.intro) (ha : s.isAnimating = true)
    (hv : s.velocity = 0) (hin : ∀ env ∈ envs, env.now - s.statesFadeStartTime < 800) :
    (frames s envs).currentRotationY = s.currentRotationY
      ∧ (frames s envs).currentRotationX = s.currentRotationX
      ∧ (frames s envs).cameraDistance = s.cameraDistance
      ∧ (frames s envs).isAnimating = true
      ∧ (frames s envs).animationType = s.animationType := by
  induction envs generalizing s with
  | nil => exact ⟨rfl, rfl, rfl, ha, rfl⟩
  | cons env rest ih =>
    obtain ⟨g1, g2, g3, g4, g5, g6, g7⟩ := frame_while_fading env s hf ht
    obtain ⟨y, v⟩ := g7 ha hv
    have hin' : ∀ e ∈ rest, e.now - (frame env s).statesFadeStartTime < 800 := by
      intro e he
      rw [g5]
      exact hin e (List.mem_cons_of_mem _ he)
    have key := ih (frame env s) (g6.mpr (hin env (List.mem_cons_self _ _)))
      (by rw [g4]; exact ht) (by rw [g3]; exact ha) v hin'
    have hcons : frames s (env :: rest) = frames (frame env s) rest := rfl
    rw [hcons, key.1, key.2.1, key.2.2.1, key.2.2.2.1, key.2.2.2.2, y, g1, g2, g4]
    exact ⟨rfl, rfl, rfl, rfl, rfl⟩

/-- C29: states fade blocks named animations: in every frame in which
`statesFading` is true when the states-fade block runs, a focus-state or
zoom-out animation is not advanced: the block writes neither yaw, pitch nor
`cameraDistance` and leaves the phase as it is, whatever the clock; pitch,
distance and phase are the same at the end of the frame, and so is the yaw
of an active animation with the globe at rest; the fade flag stays set exactly
while less than 800 ms have passed since the fade started, so over frames that
all fall within the fade an active animation does not move. -/
theorem states_fade_blocks_animation (env : FrameEnv) (s : Scene)
    (hf : s.statesFading = true) (ht : s.animationType ≠ some AnimationType.intro) :
    ((fadeOrAnimateStep env s).currentRotationY = s.currentRotationY
        ∧ (fadeOrAnimateStep env s).currentRotationX = s.currentRotationX
        ∧ (fadeOrAnimateStep env s).cameraDistance = s.cameraDistance
        ∧ (fadeOrAnimateStep env s).isAnimating = s.isAnimating
        ∧ (fadeOrAnimateStep env s).animationType = s.animationType)
      ∧ ((frame env s).currentRotationX = s.currentRotationX
        ∧ (frame env s).cameraDistance = s.cameraDistance
        ∧ (frame env s).isAnimating = s.isAnimating
        ∧ (frame env s).animationType = s.animationType)
      ∧ (s.isAnimating = true → s.velocity = 0 →
          (frame env s).currentRotationY = s.currentRotationY)
      ∧ ((frame env s).statesFading = true ↔ env.now - s.statesFadeStartTime < 800)
      ∧ (∀ envs : List FrameEnv, s.isAnimating = true → s.velocity = 0 →
          (∀ e ∈ envs, e.now - s.statesFadeStartTime < 800) →
          (frames s envs).currentRotationY = s.currentRotationY
            ∧ (frames s envs).currentRotationX = s.currentRotationX
            ∧ (frames s envs).cameraDistance = s.cameraDistance
            ∧ (frames s envs).isAnimating = true
            ∧ (frames s envs).animationType = s.animationType) := by
  obtain ⟨f1, f2, f3, f4, f5, _, _⟩ := fadeOrAnimateStep_while_fading env s hf
  obtain ⟨g1, g2, g3, g4, _, g6, g7⟩ := frame_while_fading env s hf ht
  exact ⟨⟨f1, f2, f3, f4, f5⟩, ⟨g1, g2, g3, g4⟩, fun ha hv => (g7 ha hv).1, g6,
    fun envs ha hv hin => frames_while_fading envs s hf ht ha hv hin⟩

theorem states_fade_blocks_animation_witness :
    (frames (startFocusAnimation 1 0.2 ZOOMED_CAMERA_DISTANCE 1.2 3700 fadingScene)
        fadeFrames).currentRotationY = fadingScene.currentRotationY
      ∧ (frames (startFocusAnimation 1 0.2 ZOOMED_CAMERA_DISTANCE 1.2 3700 fadingScene)
        fadeFrames).currentRotationX = fadingScene.currentRotationX
      ∧ (frames (startFocusAnimation 1 0.2 ZOOMED_CAMERA_DISTANCE 1.2 3700 fadingScene)
        fadeFrames).cameraDistance = fadingScene.cameraDistance
      ∧ (frames (startFocusAnimation 1 0.2 ZOOMED_CAMERA_DISTANCE 1.2 3700 fadingScene)
        fadeFrames).isAnimating = true :=
  have ht : (startFocusAnimation 1 0.2 ZOOMED_CAMERA_DISTANCE 1.2 3700 fadingScene).animationType
      ≠ some AnimationType.intro := by
    simp [startFocusAnimation]
  have hin : ∀ e ∈ fadeFrames, e.now
      - (startFocusAnimation 1 0.2 ZOOMED_CAMERA_DISTANCE 1.2 3700
          fadingScene).statesFadeStartTime < 800 := by
    intro e he
    have hs : (startFocusAnimation 1 0.2 ZOOMED_CAMERA_DISTANCE 1.2 3700
        fadingScene).statesFadeStartTime = 3600 := rfl
    rw [hs]
    simp only [fadeFrames, List.mem_cons, List.mem_singleton, List.not_mem_nil, or_false] at he
    rcases he with he | he
    · rw [he]
      show (3816 : ℝ) - 3600 < 800
      norm_num
    · rw [he]
      show (4300 : ℝ) - 3600 < 800
      norm_num
  have h := (states_fade_blocks_animation ⟨0.016, 3716, some "Texas", false, true, 0, true⟩
    (startFocusAnimation 1 0.2 ZOOMED_CAMERA_DISTANCE 1.2 3700 fadingScene) rfl ht).2.2.2.2
    fadeFrames rfl rfl hin
  ⟨h.1, h.2.1, h.2.2.1, h.2.2.2.1⟩

/-! ## The direction of the tilt -/

/-- What an accepted click stores as the ends of yaw and pitch. -/
theorem handleStateClick_ends (stateName : String) (introComplete : Bool) (now : ℝ)
    (s : Scene) (h : s.isAnimating = false ∧ (introComplete = true ∨ s.earthOpacity > 0.5)) :
    ∃ s', handleStateClick stateName introComplete now s = some s'
      ∧ s'.rotationXEnd = stateTargetRotationX stateName
      ∧ s'.rotationEnd = s.currentRotationY
          + clickDiff s.currentRotationY (getRotationForLongitude (targetLatLon stateName).2) := by
  unfold handleStateClick
  dsimp only
  rw [if_neg]
  · exact ⟨_, rfl, rfl, rfl⟩
  · intro hc
    rcases hc with hc | hc
    · rw [h.1] at hc
      exact absurd hc (by simp)
    · exact hc h.2

theorem targetLatLon_texas : targetLatLon "Texas" = (31.054487, -97.563461) := by
  simp [targetLatLon, STATE_CENTROIDS, List.lookup]

theorem targetLatLon_alaska : targetLatLon "Alaska" = (61.370716, -152.404419) := by
  simp [targetLatLon, STATE_CENTROIDS, List.lookup]

/-- The sign of the target X rotation, by the side of `US_CENTER_LAT` the
latitude aimed at lies on. -/
theorem stateTargetRotationX_sign (stateName : String) :
    ((targetLatLon stateName).1 < US_CENTER_LAT → stateTargetRotationX stateName < 0)
      ∧ (US_CENTER_LAT < (targetLatLon stateName).1 → 0 < stateTargetRotationX stateName) := by
  unfold stateTargetRotationX MAX_TILT_ANGLE
  constructor
  · intro h
    have h1 : 0 < (US_CENTER_LAT - (targetLatLon stateName).1) / 45 :=
      div_pos (by linarith) (by norm_num)
    nlinarith
  · intro h
    have h1 : (US_CENTER_LAT - (targetLatLon stateName).1) / 45 < 0 :=
      div_neg_of_neg_of_pos (by linarith) (by norm_num)
    nlinarith

/-- C27 (the code at the failing input): Texas lies south of `US_CENTER_LAT`
(latitude `31.054487 < 39.8283`), and the click on Texas stores a negative
target X rotation, `-((39.8283 - 31.054487) / 45) · 0.5`; Alaska lies north
and gets a positive one; for every state name the target X rotation is negative
when the latitude aimed at is south of `US_CENTER_LAT` and positive when it is
north, the reverse of the signs named in the comment above the formula. -/
theorem tilt_direction_reversed :
    (targetLatLon "Texas").1 = 31.054487
      ∧ (targetLatLon "Texas").1 < US_CENTER_LAT
      ∧ (∃ s', handleStateClick "Texas" true 0 initialScene = some s'
          ∧ s'.rotationXEnd = -((39.8283 - 31.054487) / 45) * 0.5
          ∧ s'.rotationXEnd < 0)
      ∧ US_CENTER_LAT < (targetLatLon "Alaska").1
      ∧ 0 < stateTargetRotationX "Alaska"
      ∧ (∀ stateName : String,
          ((targetLatLon stateName).1 < US_CENTER_LAT → stateTargetRotationX stateName < 0)
            ∧ (US_CENTER_LAT < (targetLatLon stateName).1
                → 0 < stateTargetRotationX stateName)) := by
  have htx : (targetLatLon "Texas").1 < US_CENTER_LAT := by
    rw [targetLatLon_texas]
    show (31.054487 : ℝ) < 39.8283
    norm_num
  have hak : US_CENTER_LAT < (targetLatLon "Alaska").1 := by
    rw [targetLatLon_alaska]
    show (39.8283 : ℝ) < 61.370716
    norm_num
  refine ⟨by rw [targetLatLon_texas], htx, ?_, hak, (stateTargetRotationX_sign "Alaska").2 hak,
    stateTargetRotationX_sign⟩
  obtain ⟨s', h1, h2, _⟩ := handleStateClick_ends "Texas" true 0 initialScene ⟨rfl, Or.inl rfl⟩
  refine ⟨s', h1, ?_, ?_⟩
  · rw [h2]
    unfold stateTargetRotationX US_CENTER_LAT MAX_TILT_ANGLE
    rw [targetLatLon_texas]
    norm_num
  · rw [h2]
    exact (stateTargetRotationX_sign "Texas").1 htx

/-! ## The two inline copies of the shortest-path computation -/

theorem introCompleteStep_rotationEnd (env : FrameEnv) (s : Scene) (name : String)
    (hsel : env.selectedState = some name) :
    (introCompleteStep env s).rotationEnd
      = s.currentRotationY
        + chainDiff s.currentRotationY (getRotationForLongitude (targetLatLon name).2) := by
  unfold introCompleteStep
  dsimp only
  rw [hsel]
  rfl

/-- C28: the inline shortest-path computation of the click handler
(normalise both angles into `[0, 2π)`, subtract, wrap by `±2π`) returns the
same delta as `shortAngleDist(current, target)` for all real inputs whose
headings are not exactly antipodal (`target - current` not congruent to `π`
modulo `2π`); the copy in the intro chain returns the same delta as the copy
in the click handler for all inputs; and these are the deltas the two places
add to the current yaw to get the stored yaw end. -/
theorem inline_shortest_path_agrees (current target : ℝ)
    (hne : ∀ k : ℤ, target - current ≠ Real.pi + (k : ℝ) * (2 * Real.pi)) :
    clickDiff current target = shortAngleDist current target
      ∧ chainDiff current target = shortAngleDist current target
      ∧ (∀ c t : ℝ, chainDiff c t = clickDiff c t)
      ∧ (∀ (stateName : String) (introComplete : Bool) (now : ℝ) (s s' : Scene),
          handleStateClick stateName introComplete now s = some s' →
          s'.rotationEnd = s.currentRotationY
            + clickDiff s.currentRotationY
                (getRotationForLongitude (targetLatLon stateName).2))
      ∧ (∀ (env : FrameEnv) (s : Scene) (name : String), env.selectedState = some name →
          (introCompleteStep env s).rotationEnd = s.currentRotationY
            + chainDiff s.currentRotationY (getRotationForLongitude (targetLatLon name).2)) := by
  have hpi : 0 < Real.pi := Real.pi_pos
  have hw := wrapped_diff_spec current target
  dsimp only at hw
  obtain ⟨habs, k, hk⟩ := hw
  have hclick : clickDiff current target = shortAngleDist current target := by
    symm
    apply shortAngleDist_unique
    · exact (abs_le.mp habs).1
    · rcases lt_or_eq_of_le (abs_le.mp habs).2 with hlt | heq
      · exact hlt
      · exfalso
        apply hne (-k)
        have hk' : current + Real.pi - target = (k : ℝ) * (2 * Real.pi) := by
          rw [← hk]
          show current + Real.pi - target = current + clickDiff current target - target
          rw [show clickDiff current target = Real.pi from heq]
        push_cast
        linarith
    · exact ⟨k, hk⟩
  refine ⟨hclick, hclick, fun _ _ => rfl, ?_, ?_⟩
  · intro stateName introComplete now s s' h
    by_cases hg : s.isAnimating = false ∧ (introComplete = true ∨ s.earthOpacity > 0.5)
    · obtain ⟨t, h1, _, h3⟩ := handleStateClick_ends stateName introComplete now s hg
      rw [h1] at h
      simp only [Option.some.injEq] at h
      rw [← h]
      exact h3
    · rw [handleStateClick_rejected stateName introComplete now s hg] at h
      exact absurd h (by simp)
  · intro env s name hsel
    exact introCompleteStep_rotationEnd env s name hsel

theorem inline_shortest_path_agrees_witness :
    clickDiff 0 0 = shortAngleDist 0 0 ∧ chainDiff 0 0 = shortAngleDist 0 0 :=
  have hne : ∀ k : ℤ, (0 : ℝ) - 0 ≠ Real.pi + (k : ℝ) * (2 * Real.pi) := by
    intro k h
    have hpi : Real.pi ≠ 0 := Real.pi_ne_zero
    have h1 : Real.pi * (1 + 2 * (k : ℝ)) = 0 := by linarith
    rcases mul_eq_zero.mp h1 with h2 | h2
    · exact hpi h2
    · have h3 : ((1 + 2 * k : ℤ) : ℝ) = 0 := by
        push_cast
        exact h2
      have h4 : (1 + 2 * k : ℤ) = 0 := by exact_mod_cast h3
      omega
  ⟨(inline_shortest_path_agrees 0 0 hne).1, (inline_shortest_path_agrees 0 0 hne).2.1⟩

/-! ## Idle auto-rotation -/

/-- The frame from `MOMENTUM` on ends with the idle block and the block of
the scroll camera. -/
theorem motionSteps_eq_idle (env : FrameEnv) (s2 : Scene) :
    motionSteps env s2
      = scrollCameraStep env
          (idleStep env (isStopped env s2) (isScrolling env s2) (preIdleScene env s2)) := rfl

/-- The block `Idle auto-rotation`: what it adds to the yaw when its
condition holds, and that it does nothing otherwise. -/
theorem idleStep_spec (env : FrameEnv) (p q : Prop) [Decidable p] [Decidable q] (s : Scene) :
    ((s.isAnimating = false ∧ s.isDragging = false ∧ p ∧ env.selectedState = none ∧ ¬ q
        ∧ env.introComplete = true ∧ env.autoRotate = true
        ∧ env.now - s.lastInteractionTime > IDLE_TIMEOUT ∧ |s.kbVelocity| < 0.0001) →
      (idleStep env p q s).currentRotationY
        = s.currentRotationY
          + IDLE_ROTATION_SPEED
            * min 1 ((env.now - s.lastInteractionTime - IDLE_TIMEOUT) / 2000) ^ 2
            * frameDelta env * IDLE_DIRECTION)
      ∧ (¬ (s.isAnimating = false ∧ s.isDragging = false ∧ p ∧ env.selectedState = none ∧ ¬ q
          ∧ env.introComplete = true ∧ env.autoRotate = true
          ∧ env.now - s.lastInteractionTime > IDLE_TIMEOUT ∧ |s.kbVelocity| < 0.0001) →
        idleStep env p q s = s) := by
  unfold idleStep
  dsimp only
  constructor
  · intro h
    rw [if_pos h]
    show s.currentRotationY + _ = _
    ring
  · intro h
    rw [if_neg h]

theorem motionSteps_idle_yaw (env : FrameEnv) (s2 : Scene) :
    (motionSteps env s2).currentRotationY
      = (idleStep env (isStopped env s2) (isScrolling env s2)
          (preIdleScene env s2)).currentRotationY := by
  rw [motionSteps_eq_idle, scrollCameraStep_yaw]

/-- The eased share of the idle speed lies between 0 and 1. -/
theorem idle_ease_mem (t : ℝ) (h : t > IDLE_TIMEOUT) :
    0 ≤ min 1 ((t - IDLE_TIMEOUT) / 2000) ^ 2 ∧ min 1 ((t - IDLE_TIMEOUT) / 2000) ^ 2 ≤ 1 := by
  have h0 : 0 ≤ min 1 ((t - IDLE_TIMEOUT) / 2000) :=
    le_min zero_le_one (div_nonneg (by linarith) (by norm_num))
  have h1 : min 1 ((t - IDLE_TIMEOUT) / 2000) ≤ 1 := min_le_left _ _
  exact ⟨pow_nonneg h0 2, pow_le_one₀ h0 h1⟩

/-- C26: idle auto-rotation: the idle block of a frame changes the yaw only
when no animation is active, there is no drag, `|velocity| <
MOMENTUM_THRESHOLD`, no state is selected, the frame is not scrolling, the
intro is complete, auto-rotate is enabled, the keyboard velocity is below
`0.0001` and more than `IDLE_TIMEOUT = 2000` ms have passed since the last
interaction; the increment is then `IDLE_ROTATION_SPEED · p² · dt` in the idle
direction, with `p = min(1, (timeSinceInteraction - 2000) / 2000)` and `dt`
the frame's delta; for a frame delta `≥ 0` the increment is non-negative and
at most `0.015 · dt`; when a state is selected or auto-rotate is disabled the
block adds nothing.  (`frame env s` is `motionSteps env s2` for the scene
`s2` the animation blocks leave behind.) -/
theorem idle_auto_rotation (env : FrameEnv) (s2 : Scene) :
    ((motionSteps env s2).currentRotationY ≠ (preIdleScene env s2).currentRotationY →
        (preIdleScene env s2).isAnimating = false ∧ (preIdleScene env s2).isDragging = false
          ∧ |(preKeyboardScene env s2).velocity| < MOMENTUM_THRESHOLD
          ∧ env.selectedState = none ∧ ¬ isScrolling env s2
          ∧ env.introComplete = true ∧ env.autoRotate = true
          ∧ |(preIdleScene env s2).kbVelocity| < 0.0001
          ∧ timeSinceInteraction env s2 > 2000)
      ∧ (idleActive env s2 →
          (motionSteps env s2).currentRotationY
            = (preIdleScene env s2).currentRotationY
              + IDLE_ROTATION_SPEED
                * min 1 ((timeSinceInteraction env s2 - 2000) / 2000) ^ 2
                * frameDelta env * IDLE_DIRECTION)
      ∧ (0 ≤ env.rawDelta →
          0 ≤ (motionSteps env s2).currentRotationY - (preIdleScene env s2).currentRotationY
            ∧ (motionSteps env s2).currentRotationY - (preIdleScene env s2).currentRotationY
                ≤ 0.015 * frameDelta env)
      ∧ (env.selectedState ≠ none ∨ env.autoRotate = false →
          (motionSteps env s2).currentRotationY = (preIdleScene env s2).currentRotationY)
      ∧ IDLE_TIMEOUT = 2000 ∧ IDLE_ROTATION_SPEED = 0.015 ∧ IDLE_DIRECTION = 1 := by
  obtain ⟨hon, hoff⟩ := idleStep_spec env (isStopped env s2) (isScrolling env s2)
    (preIdleScene env s2)
  have hyaw := motionSteps_idle_yaw env s2
  have hto : IDLE_TIMEOUT = 2000 := rfl
  refine ⟨?_, ?_, ?_, ?_, rfl, rfl, rfl⟩
  · intro hne
    by_contra hc
    apply hne
    rw [hyaw, hoff]
    intro hact
    exact hc ⟨hact.1, hact.2.1, hact.2.2.1, hact.2.2.2.1, hact.2.2.2.2.1, hact.2.2.2.2.2.1,
      hact.2.2.2.2.2.2.1, hact.2.2.2.2.2.2.2.2, by rw [← hto]; exact hact.2.2.2.2.2.2.2.1⟩
  · intro hact
    rw [hyaw, hon hact]
    rfl
  · intro hdelta
    have hdt : 0 ≤ frameDelta env := le_min hdelta (by norm_num)
    by_cases hact : idleActive env s2
    · obtain ⟨e0, e1⟩ := idle_ease_mem (timeSinceInteraction env s2) hact.2.2.2.2.2.2.2.1
      rw [hyaw, hon hact, add_sub_cancel_left]
      unfold IDLE_ROTATION_SPEED IDLE_DIRECTION
      have hx : 0 ≤ min 1 ((env.now - (preIdleScene env s2).lastInteractionTime
          - IDLE_TIMEOUT) / 2000) ^ 2 := e0
      have hy : min 1 ((env.now - (preIdleScene env s2).lastInteractionTime
          - IDLE_TIMEOUT) / 2000) ^ 2 ≤ 1 := e1
      constructor
      · have := mul_nonneg hx hdt
        nlinarith
      · have := mul_le_mul_of_nonneg_right hy hdt
        nlinarith
    · rw [hyaw, hoff hact, sub_self]
      exact ⟨le_refl 0, by linarith⟩
  · intro hsel
    rw [hyaw, hoff]
    intro hact
    rcases hsel with h | h
    · exact h hact.2.2.2.1
    · have := hact.2.2.2.2.2.2.1
      rw [h] at this
      exact absurd this (by simp)

/-- The globe at rest at mount values, in a frame without scroll input: the
blocks before the idle block change nothing. -/
theorem preIdleScene_initial :
    frameScrollDelta idleEnv initialScene = 0
      ∧ preKeyboardScene idleEnv initialScene = initialScene
      ∧ preIdleScene idleEnv initialScene = initialScene := by
  have hth : |initialScene.velocity| ≤ MOMENTUM_THRESHOLD := by
    show |(0 : ℝ)| ≤ MOMENTUM_THRESHOLD
    rw [abs_zero]
    unfold MOMENTUM_THRESHOLD
    norm_num
  have h3 : momentumStep idleEnv initialScene = initialScene :=
    momentumStep_of_stopped idleEnv initialScene hth
  have h4 : springStep idleEnv initialScene = initialScene := by
    unfold springStep
    dsimp only
    rw [if_neg]
    intro hc
    have h0 : |initialScene.velocity| > 0 := hc.1.2.2
    have h1 : |initialScene.velocity| = 0 := abs_zero
    rw [h1] at h0
    exact lt_irrefl 0 h0
  have h5 : finalStopStep initialScene = initialScene := by
    unfold finalStopStep
    rw [if_pos]
    · rfl
    · refine ⟨rfl, ?_⟩
      show |(0 : ℝ)| < MOMENTUM_THRESHOLD * 0.5
      rw [abs_zero]
      unfold MOMENTUM_THRESHOLD
      norm_num
  have hraw : rawScrollTarget idleEnv = 0 := by
    unfold rawScrollTarget
    rw [if_neg (by simp [idleEnv])]
    rfl
  have hexp : expSmooth initialScene.smoothScrollProgress (rawScrollTarget idleEnv)
      SCROLL_CAMERA_SPEED (frameDelta idleEnv) = 0 := by
    rw [hraw]
    show expSmooth 0 0 _ _ = 0
    unfold expSmooth
    simp
  have h6 : scrollProgressStep idleEnv initialScene = initialScene := by
    unfold scrollProgressStep
    rw [hexp]
    rfl
  have hd : frameScrollDelta idleEnv initialScene = 0 := by
    unfold frameScrollDelta
    rw [h3, h4, h5, h6]
    show (0 : ℝ) - 0 = 0
    norm_num
  have h7 : ∀ (c : Prop) [Decidable c], scrollRotateStep idleEnv c 0 initialScene
      = initialScene := by
    intro c _
    unfold scrollRotateStep
    rw [if_neg, if_neg]
    · intro hc
      exact absurd hc.1 (by simp [initialScene])
    · intro hc
      have := hc.2
      rw [abs_zero] at this
      norm_num at this
  have h8 : ∀ (c : Prop) [Decidable c], homingStep idleEnv c initialScene = initialScene := by
    intro c _
    unfold homingStep
    rw [if_neg]
    intro hc
    exact absurd hc.2 (by simp [initialScene])
  have h9 : ∀ (c : Prop) [Decidable c], c → scrollDrainStep idleEnv c initialScene
      = initialScene := by
    intro c _ hc
    unfold scrollDrainStep
    dsimp only
    rw [if_pos hc, if_neg]
    show ¬ (|(0 : ℝ)| > 0.00005)
    rw [abs_zero]
    norm_num
  have hcan : canScrollRotate idleEnv initialScene := ⟨rfl, rfl, rfl, rfl⟩
  have hpre : preKeyboardScene idleEnv initialScene = initialScene := by
    unfold preKeyboardScene
    dsimp only
    rw [hd, h3, h4, h5, h6, h7, h8, h9 _ hcan]
    rfl
  refine ⟨hd, hpre, ?_⟩
  unfold preIdleScene
  rw [hpre]
  apply keyboardStep_of_rest idleEnv initialScene rfl rfl
  show |(0 : ℝ)| ≤ 0.0001
  rw [abs_zero]
  norm_num

theorem idleActive_initial : idleActive idleEnv initialScene := by
  obtain ⟨hd, hpre, hidle⟩ := preIdleScene_initial
  unfold idleActive isStopped isScrolling timeSinceInteraction
  rw [hd, hpre, hidle]
  refine ⟨rfl, rfl, ?_, rfl, ?_, rfl, rfl, ?_, ?_⟩
  · show |(0 : ℝ)| < MOMENTUM_THRESHOLD
    rw [abs_zero]
    unfold MOMENTUM_THRESHOLD
    norm_num
  · show ¬ (|(0 : ℝ)| > 0.000005 ∨ |(0 : ℝ)| > 0.001)
    rw [abs_zero]
    norm_num
  · show (10000 : ℝ) - 0 > IDLE_TIMEOUT
    unfold IDLE_TIMEOUT
    norm_num
  · show |(0 : ℝ)| < 0.0001
    rw [abs_zero]
    norm_num

theorem idle_auto_rotation_witness :
    idleActive idleEnv initialScene
      ∧ (motionSteps idleEnv initialScene).currentRotationY
          = (preIdleScene idleEnv initialScene).currentRotationY
            + IDLE_ROTATION_SPEED
              * min 1 ((timeSinceInteraction idleEnv initialScene - 2000) / 2000) ^ 2
              * frameDelta idleEnv * IDLE_DIRECTION
      ∧ (motionSteps selectedEnv initialScene).currentRotationY
          = (preIdleScene selectedEnv initialScene).currentRotationY :=
  ⟨idleActive_initial, (idle_auto_rotation idleEnv initialScene).2.1 idleActive_initial,
    (idle_auto_rotation selectedEnv initialScene).2.2.2.1 (Or.inl (by simp [selectedEnv]))⟩

/-! ## The pending zoom request -/

theorem pendingZoomEffect_of_none (introComplete : Bool) (now : ℝ) (w : Store × Scene)
    (h : w.1.pendingStateZoom = none) : pendingZoomEffect introComplete now w = w := by
  unfold pendingZoomEffect
  rw [h]

theorem pendingZoomEffect_of_request (introComplete : Bool) (now : ℝ) (w : Store × Scene)
    (stateName : String) (h : w.1.pendingStateZoom = some stateName) (hne : stateName ≠ "") :
    pendingZoomEffect introComplete now w
      = (clearPendingZoom (stateClickEffect stateName introComplete now w).1,
          (stateClickEffect stateName introComplete now w).2) := by
  unfold pendingZoomEffect
  rw [h]
  dsimp only
  rw [if_pos hne]

/-- No store action other than `requestStateZoom` sets a pending request. -/
theorem Store.apply_pending_none (st : Store) (a : StoreAction)
    (ha : a.isZoomRequest = false) (h : st.pendingStateZoom = none) :
    (st.apply a).pendingStateZoom = none := by
  cases a with
  | selectState stateName =>
    show (selectState stateName st).pendingStateZoom = none
    unfold selectState
    dsimp only
    split_ifs <;> exact h
  | setHoveredState stateName => exact h
  | clearSelection => exact h
  | enterCountyView =>
    show (enterCountyView st).pendingStateZoom = none
    unfold enterCountyView
    split_ifs <;> exact h
  | exitCountyView => exact h
  | selectCounty countyName => exact h
  | setHoveredCounty countyName => exact h
  | clearCountySelection => exact h
  | transitionComplete => exact h
  | requestStateZoom stateName => exact absurd ha (by simp [StoreAction.isZoomRequest])
  | clearPendingZoom => rfl

/-- C30: a pending zoom request is dropped, not deferred, when it cannot be
served: whenever a request is pending (`pendingStateZoom` holds a name, a
non-empty string) it is `null` after one pass of the effect; if at that pass
an animation is active or the earth is not ready, the pass changes nothing
else (no state is selected, no focus-state animation is started); a request
that can be served runs `selectState` and starts the focus-state animation;
and afterwards, whatever the refs have become and whatever store actions
other than `requestStateZoom` have run, further passes of the effect do
nothing. -/
theorem pending_zoom_dropped (stateName : String) (st : Store) (s : Scene)
    (introComplete : Bool) (now : ℝ) (hreq : st.pendingStateZoom = some stateName)
    (hne : stateName ≠ "") :
    (pendingZoomEffect introComplete now (st, s)).1.pendingStateZoom = none
      ∧ (s.isAnimating = true ∨ ¬ (introComplete = true ∨ s.earthOpacity > 0.5) →
          pendingZoomEffect introComplete now (st, s) = (clearPendingZoom st, s)
            ∧ (pendingZoomEffect introComplete now (st, s)).1.selectedState = st.selectedState
            ∧ (pendingZoomEffect introComplete now (st, s)).1.viewMode = st.viewMode
            ∧ (pendingZoomEffect introComplete now (st, s)).2 = s)
      ∧ (s.isAnimating = false ∧ (introComplete = true ∨ s.earthOpacity > 0.5) →
          (pendingZoomEffect introComplete now (st, s)).1
              = clearPendingZoom (selectState stateName st)
            ∧ (pendingZoomEffect introComplete now (st, s)).2.isAnimating = true
            ∧ (pendingZoomEffect introComplete now (st, s)).2.animationType
                = some AnimationType.focusState)
      ∧ (∀ (actions : List StoreAction) (s' : Scene) (introComplete' : Bool) (now' : ℝ),
          (∀ a ∈ actions, a.isZoomRequest = false) →
          pendingZoomEffect introComplete' now'
              (actions.foldl Store.apply (pendingZoomEffect introComplete now (st, s)).1, s')
            = (actions.foldl Store.apply (pendingZoomEffect introComplete now (st, s)).1,
                s')) := by
  have heq := pendingZoomEffect_of_request introComplete now (st, s) stateName hreq hne
  have hnone : (pendingZoomEffect introComplete now (st, s)).1.pendingStateZoom = none := by
    rw [heq]
    rfl
  refine ⟨hnone, ?_, ?_, ?_⟩
  · intro hrej
    have hrej' : ¬ (s.isAnimating = false ∧ (introComplete = true ∨ s.earthOpacity > 0.5)) := by
      intro hc
      rcases hrej with h | h
      · rw [hc.1] at h
        exact absurd h (by simp)
      · exact h hc.2
    have hclick : stateClickEffect stateName introComplete now (st, s) = (st, s) := by
      unfold stateClickEffect
      rw [handleStateClick_rejected stateName introComplete now s hrej']
    rw [heq, hclick]
    exact ⟨rfl, rfl, rfl, rfl⟩
  · intro hacc
    obtain ⟨ry, rx, d, h⟩ := handleStateClick_accepted stateName introComplete now s hacc
    have hclick : stateClickEffect stateName introComplete now (st, s)
        = (selectState stateName st,
            startFocusAnimation ry rx ZOOMED_CAMERA_DISTANCE d now s) := by
      unfold stateClickEffect
      dsimp only
      rw [h]
    rw [heq, hclick]
    exact ⟨rfl, rfl, rfl⟩
  · intro actions s' ic' now' hact
    apply pendingZoomEffect_of_none
    show (actions.foldl Store.apply (pendingZoomEffect introComplete now (st, s)).1).pendingStateZoom
      = none
    generalize (pendingZoomEffect introComplete now (st, s)).1 = st0 at hnone
    induction actions generalizing st0 with
    | nil => exact hnone
    | cons a rest ih =>
      exact ih (fun b hb => hact b (List.mem_cons_of_mem _ hb)) (st0.apply a)
        (Store.apply_pending_none st0 a (hact a (List.mem_cons_self _ _)) hnone)

theorem pending_zoom_dropped_witness :
    (pendingZoomEffect true 600 (texasRequestStore, focusScene)).1.pendingStateZoom = none
      ∧ pendingZoomEffect true 600 (texasRequestStore, focusScene)
          = (clearPendingZoom texasRequestStore, focusScene)
      ∧ (pendingZoomEffect true 600 (texasRequestStore, focusScene)).1.selectedState = none
      ∧ (pendingZoomEffect true 0 (texasRequestStore, initialScene)).1
          = clearPendingZoom (selectState "Texas" texasRequestStore) :=
  have hne : "Texas" ≠ "" := by decide
  have h := pending_zoom_dropped "Texas" texasRequestStore focusScene true 600 rfl hne
  have h' := pending_zoom_dropped "Texas" texasRequestStore initialScene true 0 rfl hne
  ⟨h.1, (h.2.1 (Or.inl rfl)).1, (h.2.1 (Or.inl rfl)).2.1, (h'.2.2.1 ⟨rfl, Or.inl rfl⟩).1⟩

/-! ## The velocity of a free globe and the spring ease-back -/

theorem NoInput_of_restCore {s s' : Scene} (hc : restCore s' = restCore s) (h : NoInput s) :
    NoInput s' := by
  simp only [restCore, Prod.mk.injEq] at hc
  obtain ⟨e1, e2, e3, e4, e5⟩ := hc
  unfold NoInput at h ⊢
  rw [e1, e2, e3, e4, e5]
  exact h

theorem momentumStep_restCore (env : FrameEnv) (s : Scene) :
    restCore (momentumStep env s) = restCore s := by
  unfold momentumStep
  split_ifs <;> rfl

theorem springStep_restCore (env : FrameEnv) (s : Scene) :
    restCore (springStep env s) = restCore s := by
  unfold springStep
  dsimp only
  split_ifs <;> rfl

theorem finalStopStep_restCore (s : Scene) : restCore (finalStopStep s) = restCore s := by
  unfold finalStopStep
  split_ifs <;> rfl

theorem scrollRotateStep_restCore (env : FrameEnv) (c : Prop) [Decidable c] (d : ℝ)
    (s : Scene) : restCore (scrollRotateStep env c d s) = restCore s := by
  unfold scrollRotateStep
  split_ifs <;> rfl

theorem homingStep_restCore (env : FrameEnv) (c : Prop) [Decidable c] (s : Scene) :
    restCore (homingStep env c s) = restCore s := by
  unfold homingStep
  dsimp only
  split_ifs <;> rfl

theorem scrollDrainStep_restCore (env : FrameEnv) (c : Prop) [Decidable c] (s : Scene) :
    restCore (scrollDrainStep env c s) = restCore s := by
  unfold scrollDrainStep
  dsimp only
  split_ifs <;> rfl

theorem idleStep_restCore (env : FrameEnv) (p q : Prop) [Decidable p] [Decidable q]
    (s : Scene) : restCore (idleStep env p q s) = restCore s := by
  unfold idleStep
  dsimp only
  split_ifs <;> rfl

theorem scrollCameraStep_restCore (env : FrameEnv) (s : Scene) :
    restCore (scrollCameraStep env s) = restCore s := by
  unfold scrollCameraStep
  dsimp only
  split_ifs <;> rfl

/-- Up to the keyboard block the frame leaves drag, animation and keyboard
state alone, and after `Final stop check` the velocity. -/
theorem preKeyboardScene_rest (env : FrameEnv) (s2 : Scene) :
    restCore (preKeyboardScene env s2) = restCore s2
      ∧ (preKeyboardScene env s2).velocity
          = (finalStopStep (springStep env (momentumStep env s2))).velocity := by
  unfold preKeyboardScene
  dsimp only
  constructor
  · show restCore (scrollDrainStep env _ _) = _
    rw [scrollDrainStep_restCore, homingStep_restCore, scrollRotateStep_restCore]
    show restCore (finalStopStep _) = _
    rw [finalStopStep_restCore, springStep_restCore, momentumStep_restCore]
  · rw [prevScrollStep_velocity, scrollDrainStep_velocity, homingStep_velocity,
      scrollRotateStep_velocity, scrollProgressStep_velocity]

/-- Without input the blocks after `Final stop check` leave the velocity and
the state of drag, animation and keyboard as they are. -/
theorem motionSteps_of_noInput (env : FrameEnv) (s2 : Scene) (h : NoInput s2) :
    (motionSteps env s2).velocity
        = (finalStopStep (springStep env (momentumStep env s2))).velocity
      ∧ restCore (motionSteps env s2) = restCore s2 := by
  obtain ⟨hr, hv⟩ := preKeyboardScene_rest env s2
  have hin : NoInput (preKeyboardScene env s2) := NoInput_of_restCore hr h
  have hk : keyboardStep env (preKeyboardScene env s2) = preKeyboardScene env s2 :=
    keyboardStep_of_rest env _ hin.2.2.1 hin.2.2.2.1 hin.2.2.2.2
  rw [motionSteps_eq_idle]
  unfold preIdleScene
  rw [hk]
  constructor
  · rw [scrollCameraStep_velocity, idleStep_velocity, hv]
  · rw [scrollCameraStep_restCore, idleStep_restCore, hr]

/-- The velocity after the three momentum blocks of a free globe. -/
theorem velocity_blocks_free (env : FrameEnv) (s : Scene) (hd : s.isDragging = false)
    (ha : s.isAnimating = false) (hsel : env.selectedState = none)
    (hic : env.introComplete = true) :
    (finalStopStep (springStep env (momentumStep env s))).velocity = freeVelocity s.velocity := by
  have hm : (momentumStep env s).velocity
      = (if |s.velocity| > MOMENTUM_THRESHOLD then s.velocity * MOMENTUM_FRICTION
          else s.velocity) := by
    unfold momentumStep
    by_cases h : |s.velocity| > MOMENTUM_THRESHOLD
    · rw [if_pos ⟨hd, h⟩, if_pos h]
    · rw [if_neg (fun hc => h hc.2), if_neg h]
  have hmr := momentumStep_restCore env s
  simp only [restCore, Prod.mk.injEq] at hmr
  have hd1 : (momentumStep env s).isDragging = false := by rw [hmr.1]; exact hd
  have ha1 : (momentumStep env s).isAnimating = false := by rw [hmr.2.1]; exact ha
  generalize momentumStep env s = s1 at hm hd1 ha1
  have hs : (springStep env s1).velocity
      = (if |s1.velocity| ≤ MOMENTUM_THRESHOLD ∧ |s1.velocity| > 0 then
          if (s1.velocity < 0 ∧ IDLE_DIRECTION > 0) ∨ (s1.velocity > 0 ∧ IDLE_DIRECTION < 0) then
            SPRING_EASE_VELOCITY * IDLE_DIRECTION
          else 0
        else s1.velocity) := by
    unfold springStep
    dsimp only
    by_cases h : |s1.velocity| ≤ MOMENTUM_THRESHOLD ∧ |s1.velocity| > 0
    · rw [if_pos ⟨⟨hd1, h.1, h.2⟩, ha1, hsel, hic⟩, if_pos h]
      split_ifs <;> rfl
    · rw [if_neg (fun hc => h ⟨hc.1.2.1, hc.1.2.2⟩), if_neg h]
  have hsr := springStep_restCore env s1
  simp only [restCore, Prod.mk.injEq] at hsr
  have hd2 : (springStep env s1).isDragging = false := by rw [hsr.1]; exact hd1
  generalize springStep env s1 = s2 at hs hd2
  have hf : (finalStopStep s2).velocity
      = (if |s2.velocity| < MOMENTUM_THRESHOLD * 0.5 then 0 else s2.velocity) := by
    unfold finalStopStep
    by_cases h : |s2.velocity| < MOMENTUM_THRESHOLD * 0.5
    · rw [if_pos ⟨hd2, h⟩, if_pos h]
    · rw [if_neg (fun hc => h hc.2), if_neg h]
  rw [hf, hs, hm]
  rfl

/-- One frame of a free globe: the velocity goes through `freeVelocity`, and
the globe stays free. -/
theorem frame_of_noInput (env : FrameEnv) (s : Scene) (h : NoInput s)
    (hsel : env.selectedState = none) (hic : env.introComplete = true) :
    (frame env s).velocity = freeVelocity s.velocity ∧ NoInput (frame env s) := by
  have hi : introStep env s = s := by
    unfold introStep
    dsimp only
    rw [if_neg]
    intro hc
    rw [h.2.1] at hc
    exact absurd hc.2 (by simp)
  have hfr : restCore (fadeOrAnimateStep env s) = restCore s := by
    unfold fadeOrAnimateStep
    dsimp only
    by_cases hf : s.statesFading = true
    · rw [if_pos hf]
      split_ifs <;> rfl
    · rw [if_neg hf, if_neg]
      intro hc
      rw [h.2.1] at hc
      exact absurd hc.1 (by simp)
  have hin2 : NoInput (fadeOrAnimateStep env s) := NoInput_of_restCore hfr h
  obtain ⟨hv, hr⟩ := motionSteps_of_noInput env (fadeOrAnimateStep env s) hin2
  unfold frame
  rw [hi]
  constructor
  · rw [hv, velocity_blocks_free env _ hin2.1 hin2.2.1 hsel hic, fadeOrAnimateStep_velocity]
  · exact NoInput_of_restCore hr hin2

/-- A non-negative velocity of a free globe decays by the friction while
the result stays above the threshold, and is set to 0 otherwise. -/
theorem freeVelocity_of_nonneg (v : ℝ) (h : 0 ≤ v) :
    freeVelocity v
      = if v * MOMENTUM_FRICTION > MOMENTUM_THRESHOLD then v * MOMENTUM_FRICTION else 0 := by
  have hzero : |(0 : ℝ)| < MOMENTUM_THRESHOLD * 0.5 := by
    rw [abs_zero]
    unfold MOMENTUM_THRESHOLD
    norm_num
  have hid : ¬ (IDLE_DIRECTION < 0) := by
    unfold IDLE_DIRECTION
    norm_num
  have hfr : v * MOMENTUM_FRICTION ≤ v := by
    unfold MOMENTUM_FRICTION
    nlinarith
  have hfr0 : 0 ≤ v * MOMENTUM_FRICTION := by
    unfold MOMENTUM_FRICTION
    nlinarith
  have habs : |v| = v := abs_of_nonneg h
  have habs' : |v * MOMENTUM_FRICTION| = v * MOMENTUM_FRICTION := abs_of_nonneg hfr0
  unfold freeVelocity
  dsimp only
  rw [habs]
  by_cases h1 : v > MOMENTUM_THRESHOLD
  · simp only [h1, if_true, habs']
    by_cases h2 : v * MOMENTUM_FRICTION > MOMENTUM_THRESHOLD
    · have n1 : ¬ (v * MOMENTUM_FRICTION ≤ MOMENTUM_THRESHOLD) := not_le.mpr h2
      have n2 : ¬ (v * MOMENTUM_FRICTION < MOMENTUM_THRESHOLD * 0.5) := by
        unfold MOMENTUM_THRESHOLD at h2 ⊢
        intro hc
        linarith
      simp only [n1, false_and, if_false, habs', n2, h2, if_true]
    · have p1 : v * MOMENTUM_FRICTION ≤ MOMENTUM_THRESHOLD := not_lt.mp h2
      have p2 : v * MOMENTUM_FRICTION > 0 := by
        unfold MOMENTUM_FRICTION
        unfold MOMENTUM_THRESHOLD at h1
        nlinarith
      have n3 : ¬ (v * MOMENTUM_FRICTION < 0) := not_lt.mpr hfr0
      simp only [p1, p2, and_self, if_true, n3, false_and, hid, and_false, or_self, if_false,
        hzero, h2]
  · have n0 : ¬ (v * MOMENTUM_FRICTION > MOMENTUM_THRESHOLD) := by
      intro hc
      exact h1 (lt_of_lt_of_le hc hfr)
    simp only [h1, if_false, habs, n0]
    by_cases h0 : v > 0
    · have p1 : v ≤ MOMENTUM_THRESHOLD := not_lt.mp h1
      have n3 : ¬ (v < 0) := not_lt.mpr h
      simp only [p1, h0, and_self, if_true, n3, false_and, hid, and_false, or_self, if_false,
        hzero]
    · have hv0 : v = 0 := le_antisymm (not_lt.mp h0) h
      simp only [h0, and_false, if_false]
      rw [hv0]
      simp only [hzero, if_true]

/-- A negative velocity of a free globe that the momentum block leaves at or
below the threshold is replaced by the nudge. -/
theorem freeVelocity_of_neg (v : ℝ) (h : v < 0)
    (hdrop : |if |v| > MOMENTUM_THRESHOLD then v * MOMENTUM_FRICTION else v|
      ≤ MOMENTUM_THRESHOLD) :
    freeVelocity v = 0.0004 := by
  unfold freeVelocity
  dsimp only
  generalize hv1 : (if |v| > MOMENTUM_THRESHOLD then v * MOMENTUM_FRICTION else v) = v1
    at hdrop
  have hneg : v1 < 0 := by
    rw [← hv1]
    split_ifs
    · unfold MOMENTUM_FRICTION
      nlinarith
    · exact h
  have hone : IDLE_DIRECTION > 0 := by
    unfold IDLE_DIRECTION
    norm_num
  have hpos : |v1| > 0 := abs_pos.mpr (ne_of_lt hneg)
  have hbig : ¬ (|SPRING_EASE_VELOCITY * IDLE_DIRECTION| < MOMENTUM_THRESHOLD * 0.5) := by
    unfold SPRING_EASE_VELOCITY IDLE_DIRECTION MOMENTUM_THRESHOLD
    rw [abs_of_pos (by norm_num)]
    norm_num
  simp only [hdrop, hpos, and_self, if_true, hneg, hone, true_or, hbig, if_false]
  unfold SPRING_EASE_VELOCITY IDLE_DIRECTION
  norm_num

/-- The velocity of a free globe `k` frames after the nudge. -/
theorem frames_velocity_after_nudge (envs : List FrameEnv) (t : Scene) (j : ℕ)
    (hin : NoInput t)
    (hv : t.velocity
      = if SPRING_EASE_VELOCITY * MOMENTUM_FRICTION ^ j > MOMENTUM_THRESHOLD then
          SPRING_EASE_VELOCITY * MOMENTUM_FRICTION ^ j
        else 0)
    (hE : ∀ e ∈ envs, e.selectedState = none ∧ e.introComplete = true) :
    (frames t envs).velocity
      = if SPRING_EASE_VELOCITY * MOMENTUM_FRICTION ^ (j + envs.length) > MOMENTUM_THRESHOLD then
          SPRING_EASE_VELOCITY * MOMENTUM_FRICTION ^ (j + envs.length)
        else 0 := by
  induction envs generalizing t j with
  | nil => exact hv
  | cons env rest ih =>
    obtain ⟨hsel, hic⟩ := hE env (List.mem_cons_self _ _)
    obtain ⟨fv, fin⟩ := frame_of_noInput env t hin hsel hic
    have hpow : (0 : ℝ) ≤ SPRING_EASE_VELOCITY * MOMENTUM_FRICTION ^ j := by
      unfold SPRING_EASE_VELOCITY MOMENTUM_FRICTION
      positivity
    have hnn : 0 ≤ t.velocity := by
      rw [hv]
      split_ifs
      · exact hpow
      · exact le_refl 0
    have hstep : (frame env t).velocity
        = if SPRING_EASE_VELOCITY * MOMENTUM_FRICTION ^ (j + 1) > MOMENTUM_THRESHOLD then
            SPRING_EASE_VELOCITY * MOMENTUM_FRICTION ^ (j + 1)
          else 0 := by
      rw [fv, freeVelocity_of_nonneg _ hnn, hv]
      have hsucc : SPRING_EASE_VELOCITY * MOMENTUM_FRICTION ^ (j + 1)
          = SPRING_EASE_VELOCITY * MOMENTUM_FRICTION ^ j * MOMENTUM_FRICTION := by
        rw [pow_succ]
        ring
      by_cases hj : SPRING_EASE_VELOCITY * MOMENTUM_FRICTION ^ j > MOMENTUM_THRESHOLD
      · rw [if_pos hj, hsucc]
      · rw [if_neg hj, zero_mul, if_neg, if_neg]
        · rw [hsucc]
          have hf : MOMENTUM_FRICTION ≤ 1 := by
            unfold MOMENTUM_FRICTION
            norm_num
          have := mul_le_mul_of_nonneg_left hf hpow
          linarith [not_lt.mp hj]
        · unfold MOMENTUM_THRESHOLD
          norm_num
    have key := ih (frame env t) (j + 1) fin hstep
      (fun e he => hE e (List.mem_cons_of_mem _ he))
    have hlen : j + (env :: rest).length = j + 1 + rest.length := by
      rw [List.length_cons]
      omega
    have hcons : frames t (env :: rest) = frames (frame env t) rest := rfl
    rw [hcons, hlen]
    exact key

/-- C25: spring ease-back is one-shot: with no drag, no animation, no
selected state and the intro complete, a velocity that the momentum block
leaves at `0 < |velocity| ≤ MOMENTUM_THRESHOLD` is replaced by
`SPRING_EASE_VELOCITY · IDLE_DIRECTION = +0.0004` if it was negative and by 0
if it was positive; the frame of the nudge ends with velocity `0.0004`; in the
frames after it, with no further input (no drag, animation, selection or
key), the velocity is non-negative, below `0.0004` (the nudge is not injected
again) and exactly 0 from the 38th frame on. -/
theorem spring_ease_back_one_shot (env : FrameEnv) (s : Scene) (hin : NoInput s)
    (hsel : env.selectedState = none) (hic : env.introComplete = true)
    (hneg : s.velocity < 0)
    (hdrop : |(momentumStep env s).velocity| ≤ MOMENTUM_THRESHOLD) :
    (springStep env (momentumStep env s)).velocity = SPRING_EASE_VELOCITY * IDLE_DIRECTION
      ∧ SPRING_EASE_VELOCITY * IDLE_DIRECTION = 0.0004
      ∧ (frame env s).velocity = 0.0004
      ∧ (∀ t : Scene, NoInput t → 0 < t.velocity →
          |(momentumStep env t).velocity| ≤ MOMENTUM_THRESHOLD →
          (springStep env (momentumStep env t)).velocity = 0 ∧ (frame env t).velocity = 0)
      ∧ (∀ envs : List FrameEnv,
          (∀ e ∈ envs, e.selectedState = none ∧ e.introComplete = true) →
          0 ≤ (frames (frame env s) envs).velocity
            ∧ (envs ≠ [] → (frames (frame env s) envs).velocity < SPRING_EASE_VELOCITY)
            ∧ (38 ≤ envs.length → (frames (frame env s) envs).velocity = 0)) := by
  have hval : SPRING_EASE_VELOCITY * IDLE_DIRECTION = 0.0004 := by
    unfold SPRING_EASE_VELOCITY IDLE_DIRECTION
    norm_num
  have hmom : ∀ t : Scene, t.isDragging = false →
      (momentumStep env t).velocity
        = (if |t.velocity| > MOMENTUM_THRESHOLD then t.velocity * MOMENTUM_FRICTION
            else t.velocity) := by
    intro t hd
    unfold momentumStep
    by_cases h : |t.velocity| > MOMENTUM_THRESHOLD
    · rw [if_pos ⟨hd, h⟩, if_pos h]
    · rw [if_neg (fun hc => h hc.2), if_neg h]
  have hmneg : (momentumStep env s).velocity < 0 := by
    rw [hmom s hin.1]
    split_ifs
    · unfold MOMENTUM_FRICTION
      nlinarith
    · exact hneg
  have hrest : ∀ t : Scene, NoInput t →
      (momentumStep env t).isDragging = false ∧ (momentumStep env t).isAnimating = false := by
    intro t ht
    have hr := momentumStep_restCore env t
    simp only [restCore, Prod.mk.injEq] at hr
    exact ⟨by rw [hr.1]; exact ht.1, by rw [hr.2.1]; exact ht.2.1⟩
  have hone : IDLE_DIRECTION > 0 := by
    unfold IDLE_DIRECTION
    norm_num
  obtain ⟨fv, fin⟩ := frame_of_noInput env s hin hsel hic
  have hframe : (frame env s).velocity = 0.0004 := by
    rw [fv]
    apply freeVelocity_of_neg _ hneg
    rw [← hmom s hin.1]
    exact hdrop
  refine ⟨?_, hval, hframe, ?_, ?_⟩
  · unfold springStep
    dsimp only
    rw [if_pos ⟨⟨(hrest s hin).1, hdrop, abs_pos.mpr (ne_of_lt hmneg)⟩, (hrest s hin).2, hsel,
      hic⟩, if_pos (Or.inl ⟨hmneg, hone⟩)]
  · intro t ht hpos hd
    have hmpos : 0 < (momentumStep env t).velocity := by
      rw [hmom t ht.1]
      split_ifs
      · unfold MOMENTUM_FRICTION
        nlinarith
      · exact hpos
    constructor
    · unfold springStep
      dsimp only
      rw [if_pos ⟨⟨(hrest t ht).1, hd, abs_pos.mpr (ne_of_gt hmpos)⟩, (hrest t ht).2, hsel,
        hic⟩, if_neg]
      intro hc
      rcases hc with hc | hc
      · linarith [hc.1]
      · linarith [hc.2]
    · rw [(frame_of_noInput env t ht hsel hic).1, freeVelocity_of_nonneg _ (le_of_lt hpos),
        if_neg]
      rw [hmom t ht.1, abs_of_pos (by
        rw [← hmom t ht.1]
        exact hmpos)] at hd
      by_cases h : |t.velocity| > MOMENTUM_THRESHOLD
      · rw [if_pos h] at hd
        exact not_lt.mpr hd
      · rw [if_neg h] at hd
        unfold MOMENTUM_FRICTION
        have : t.velocity * 0.968 ≤ t.velocity := by nlinarith
        exact not_lt.mpr (le_trans this hd)
  · intro envs hE
    have hstart : (frame env s).velocity
        = if SPRING_EASE_VELOCITY * MOMENTUM_FRICTION ^ 0 > MOMENTUM_THRESHOLD then
            SPRING_EASE_VELOCITY * MOMENTUM_FRICTION ^ 0
          else 0 := by
      rw [hframe, pow_zero, mul_one, if_pos]
      · unfold SPRING_EASE_VELOCITY
        norm_num
      · unfold SPRING_EASE_VELOCITY MOMENTUM_THRESHOLD
        norm_num
    have hcl := frames_velocity_after_nudge envs (frame env s) 0 fin hstart hE
    rw [zero_add] at hcl
    have hpow : (0 : ℝ) ≤ SPRING_EASE_VELOCITY * MOMENTUM_FRICTION ^ envs.length := by
      unfold SPRING_EASE_VELOCITY MOMENTUM_FRICTION
      positivity
    have hf0 : (0 : ℝ) ≤ MOMENTUM_FRICTION := by
      unfold MOMENTUM_FRICTION
      norm_num
    have hf1 : MOMENTUM_FRICTION ≤ 1 := by
      unfold MOMENTUM_FRICTION
      norm_num
    have hsev : (0 : ℝ) < SPRING_EASE_VELOCITY := by
      unfold SPRING_EASE_VELOCITY
      norm_num
    refine ⟨?_, ?_, ?_⟩
    · rw [hcl]
      split_ifs
      · exact hpow
      · exact le_refl 0
    · intro hne
      have hlen : 1 ≤ envs.length := by
        cases envs with
        | nil => exact absurd rfl hne
        | cons a l => simp
      rw [hcl]
      split_ifs
      · have h1 : MOMENTUM_FRICTION ^ envs.length ≤ MOMENTUM_FRICTION ^ 1 :=
          pow_le_pow_of_le_one hf0 hf1 hlen
        rw [pow_one] at h1
        have h2 : MOMENTUM_FRICTION < 1 := by
          unfold MOMENTUM_FRICTION
          norm_num
        nlinarith
      · exact hsev
    · intro hlen
      rw [hcl, if_neg]
      have h1 : MOMENTUM_FRICTION ^ envs.length ≤ MOMENTUM_FRICTION ^ 38 :=
        pow_le_pow_of_le_one hf0 hf1 hlen
      have h2 : SPRING_EASE_VELOCITY * MOMENTUM_FRICTION ^ 38 ≤ MOMENTUM_THRESHOLD := by
        unfold SPRING_EASE_VELOCITY MOMENTUM_FRICTION MOMENTUM_THRESHOLD
        norm_num
      have h3 := mul_le_mul_of_nonneg_left h1 (le_of_lt hsev)
      exact not_lt.mpr (le_trans h3 h2)

theorem spring_ease_back_one_shot_witness :
    (frame idleEnv slowBackwardScene).velocity = 0.0004
      ∧ 0 ≤ (frames (frame idleEnv slowBackwardScene) (List.replicate 40 idleEnv)).velocity
      ∧ (frames (frame idleEnv slowBackwardScene) (List.replicate 40 idleEnv)).velocity = 0 :=
  have hin : NoInput slowBackwardScene := by
    refine ⟨rfl, rfl, rfl, rfl, ?_⟩
    show |(0 : ℝ)| ≤ 0.0001
    rw [abs_zero]
    norm_num
  have hneg : slowBackwardScene.velocity < 0 := by
    show (-0.0001 : ℝ) < 0
    norm_num
  have hth : |slowBackwardScene.velocity| ≤ MOMENTUM_THRESHOLD := by
    show |(-0.0001 : ℝ)| ≤ MOMENTUM_THRESHOLD
    rw [abs_of_neg (by norm_num)]
    unfold MOMENTUM_THRESHOLD
    norm_num
  have hdrop : |(momentumStep idleEnv slowBackwardScene).velocity| ≤ MOMENTUM_THRESHOLD := by
    rw [momentumStep_of_stopped idleEnv slowBackwardScene hth]
    exact hth
  have hE : ∀ e ∈ List.replicate 40 idleEnv, e.selectedState = none ∧ e.introComplete = true := by
    intro e he
    rw [List.eq_of_mem_replicate he]
    exact ⟨rfl, rfl⟩
  have h := spring_ease_back_one_shot idleEnv slowBackwardScene hin rfl rfl hneg hdrop
  ⟨h.2.2.1, (h.2.2.2.2 _ hE).1, (h.2.2.2.2 _ hE).2.2 (by simp)⟩

/-! ## A focus animation started during the states fade -/

/-- The scene the completing frame of the intro leaves behind. -/
theorem introDoneScene_fields :
    introDoneScene.isAnimating = false
      ∧ introDoneScene.statesFading = true
      ∧ introDoneScene.statesFadeStartTime = 3600
      ∧ ZOOMED_CAMERA_DISTANCE < introDoneScene.cameraDistance := by
  obtain ⟨f1, f2, f3, _, _, f6, f7⟩ := introEndScene_fields
  have hp := introEndScene_progress introEndEnv rfl rfl
  obtain ⟨hstep, _⟩ := introStep_completing introEndEnv introEndScene f1 f2 f3 hp
  have hidle := introCompleteStep_idle introEndEnv (introAdvance introEndEnv introEndScene) rfl
  have hfade : (introStep introEndEnv introEndScene).statesFading = true := by
    rw [hstep, hidle]
  have hstart : (introStep introEndEnv introEndScene).statesFadeStartTime = 3600 := by
    rw [hstep, hidle]
    rfl
  obtain ⟨_, _, _, _, _, w6, w7⟩ :=
    fadeOrAnimateStep_while_fading introEndEnv (introStep introEndEnv introEndScene) hfade
  obtain ⟨_, _, _, _, _, _, _, _, _, _, _, _, _, _, _, m16, m17, _⟩ :=
    motionSteps_fields introEndEnv
      (fadeOrAnimateStep introEndEnv (introStep introEndEnv introEndScene))
  have hd := frame_intro_complete_distance introEndEnv introEndScene f1 f2 f3 hp rfl
  have hlt : DEFAULT_CAMERA_DISTANCE < 100 := by
    unfold DEFAULT_CAMERA_DISTANCE CAMERA_Y
    rw [Real.sqrt_lt' (by norm_num)]
    norm_num
  refine ⟨(intro_completion_idle introEndEnv introEndScene f1 f2 f3 hp rfl).1, ?_, ?_, ?_⟩
  · show (frame introEndEnv introEndScene).statesFading = true
    unfold frame
    rw [m16]
    apply w7.mpr
    rw [hstart]
    show (3600 : ℝ) - 3600 < 800
    norm_num
  · show (frame introEndEnv introEndScene).statesFadeStartTime = 3600
    unfold frame
    rw [m17, w6, hstart]
  · show ZOOMED_CAMERA_DISTANCE < (frame introEndEnv introEndScene).cameraDistance
    rw [hd, f6, f7, easeOutSpaceZoom_one]
    unfold INTRO_START_DISTANCE
    have hz := zoomed_le_default
    nlinarith

/-- What an accepted click stores, whatever the state of the states fade. -/
theorem handleStateClick_started (stateName : String) (introComplete : Bool) (now : ℝ)
    (s : Scene) (h : s.isAnimating = false ∧ (introComplete = true ∨ s.earthOpacity > 0.5)) :
    ∃ s', handleStateClick stateName introComplete now s = some s'
      ∧ s'.isAnimating = true
      ∧ s'.animationType = some AnimationType.focusState
      ∧ s'.zoomStart = s.cameraDistance
      ∧ s'.zoomEnd = ZOOMED_CAMERA_DISTANCE
      ∧ s'.cameraDistance = s.cameraDistance
      ∧ s'.animationStartTime = now
      ∧ 800 ≤ s'.animationDuration
      ∧ s'.statesFading = s.statesFading
      ∧ s'.statesFadeStartTime = s.statesFadeStartTime := by
  unfold handleStateClick
  dsimp only
  rw [if_neg]
  · refine ⟨_, rfl, rfl, rfl, rfl, rfl, rfl, rfl, ?_, rfl, rfl⟩
    show (800 : ℝ) ≤ (if _ then ROTATION_ANIMATION_DURATION else ZOOM_ANIMATION_DURATION) * 1000
    unfold ROTATION_ANIMATION_DURATION ZOOM_ANIMATION_DURATION
    split_ifs <;> norm_num
  · intro hc
    rcases hc with hc | hc
    · rw [h.1] at hc
      exact absurd hc (by simp)
    · exact hc h.2

/-- C19 (as stated, refuted): Texas is clicked 100 ms into the states fade
that follows the end of the intro (clock value 3700 ms): the click is
accepted and starts a focus-state animation from the distance the intro
ended at towards `ZOOMED_CAMERA_DISTANCE`, which is smaller.  The frames at
3800 ms and 4000 ms lie within the animation (`start ≤ t1 < t2 ≤ start +
duration`), but the states fade is still running and the animation block is
skipped: the camera distance after the frame at `t2` equals the one after the
frame at `t1`, it is not strictly less. -/
theorem focus_zoom_during_fade_counterexample :
    handleStateClick "Texas" true 3700 introDoneScene = some fadeClickScene
      ∧ fadeClickScene.isAnimating = true
      ∧ fadeClickScene.animationType = some AnimationType.focusState
      ∧ fadeClickScene.zoomEnd < fadeClickScene.zoomStart
      ∧ fadeClickScene.animationStartTime ≤ fadeEarlyEnv.now
      ∧ fadeEarlyEnv.now < fadeLaterEnv.now
      ∧ fadeLaterEnv.now ≤ fadeClickScene.animationStartTime + fadeClickScene.animationDuration
      ∧ (frame fadeEarlyEnv fadeClickScene).isAnimating = true
      ∧ (frame fadeEarlyEnv fadeClickScene).animationType = some AnimationType.focusState
      ∧ (frame fadeLaterEnv (frame fadeEarlyEnv fadeClickScene)).cameraDistance
          = (frame fadeEarlyEnv fadeClickScene).cameraDistance
      ∧ ¬ ((frame fadeLaterEnv (frame fadeEarlyEnv fadeClickScene)).cameraDistance
            < (frame fadeEarlyEnv fadeClickScene).cameraDistance) := by
  obtain ⟨d1, d2, d3, d4⟩ := introDoneScene_fields
  obtain ⟨s', c0, c1, c2, c3, c4, _, c6, c7, c8, c9⟩ :=
    handleStateClick_started "Texas" true 3700 introDoneScene ⟨d1, Or.inl rfl⟩
  have hs : fadeClickScene = s' := by
    unfold fadeClickScene
    rw [c0]
    rfl
  rw [hs]
  have hf : s'.statesFading = true := by rw [c8]; exact d2
  have hstart : s'.statesFadeStartTime = 3600 := by rw [c9]; exact d3
  have hni : s'.animationType ≠ some AnimationType.intro := by rw [c2]; simp
  obtain ⟨_, g2, g3, g4, g5, g6, _⟩ := frame_while_fading fadeEarlyEnv s' hf hni
  have hf2 : (frame fadeEarlyEnv s').statesFading = true := by
    apply g6.mpr
    rw [hstart]
    show (3800 : ℝ) - 3600 < 800
    norm_num
  have hni2 : (frame fadeEarlyEnv s').animationType ≠ some AnimationType.intro := by
    rw [g4]
    exact hni
  obtain ⟨_, k2, _⟩ := frame_while_fading fadeLaterEnv (frame fadeEarlyEnv s') hf2 hni2
  refine ⟨c0, c1, c2, ?_, ?_, ?_, ?_, ?_, ?_, k2, ?_⟩
  · rw [c3, c4]
    exact d4
  · rw [c6]
    show (3700 : ℝ) ≤ 3800
    norm_num
  · show (3800 : ℝ) < 4000
    norm_num
  · rw [c6]
    show (4000 : ℝ) ≤ 3700 + s'.animationDuration
    linarith
  · rw [g3]
    exact c1
  · rw [g4]
    exact c2
  · rw [k2]
    exact lt_irrefl _

end EarthWithStates

end
